import Mathlib

/-!
# Vector distance kernels (PowerPC reference implementations)

Shallow embedding of the kernels of `src/distances/optimized/euclidean_l2_distance.cc`,
`src/distances/optimized/innerproduct.cc`, `src/distances/optimized/hamming_distance.cc`
and `src/distances/intrinsic/innerproduct.cc`, and of the dataset loader and the custom
test loop of `src/main.cc`, followed by the theorems about them.

* A `const T*` argument is a read-only memory `Nat → T`: `x i` is the element `x[i]`.
  The buffer carries no length; the dimension `d` is a separate argument, as in the source.
* `float` arithmetic is read as the exact arithmetic of a carrier `α`. The kernels only use
  `0`, `+`, `-`, `*` (and the literal `2`); the theorems assume a commutative ring, unless
  they are about the order of the operations or about the elements read, where nothing is
  assumed of the carrier, or about `d = 0`, where `0` only has to be neutral for `+`.
* `vector float` is the four-lane register `V4 α` with lane-wise operations.
* A C loop `for (i = start; i < bound; i += step)` is `forLoop start bound step body init`,
  the state being the variables the loop assigns.
* `size_t` is `Nat`: sizes are bounded by the address space and no kernel computes a size
  that could wrap.
* `int8_t` is an integer in `[-128, 127]`; `int32_t` arithmetic is integer arithmetic
  followed by `wrap32`, the reduction modulo `2^32` into `[-2^31, 2^31)`. Where overflow
  itself is the question, the same loops are read with `strict32`, which has no value when
  the result of an operation is not representable.
* A file is the list of its characters; `exit(1)` is an error result (`Except`); the
  library function `std::stof` is a parameter of the loader.
* Bounds-checked reads are the kernels run over the carrier `Checked β` (the integer and
  byte kernels, whose element types are fixed, have a bounds-checked copy each); stores to
  output parameters are made explicit on a memory `Mem` that logs them.
-/

namespace powerpc

/-! ## Loops -/

/-- Fuelled iteration of `for (i = ...; i < bound; i += step) s = body i s`. -/
def forLoopAux {σ : Type} (body : Nat → σ → σ) (bound step : Nat) : Nat → Nat → σ → σ
  | 0, _, s => s
  | fuel + 1, i, s =>
    if i < bound then forLoopAux body bound step fuel (i + step) (body i s) else s

/-- The loop `for (i = start; i < bound; i += step) s = body i s`, started in state `init`.
The fuel `bound - start` is enough for every positive `step` (lemma `forLoop_unfold`). -/
def forLoop {σ : Type} (start bound step : Nat) (body : Nat → σ → σ) (init : σ) : σ :=
  forLoopAux body bound step (bound - start) start init

/-- Exactly `m` executions of a loop body from index `i`, stepping by `step`
(proof device: what a loop amounts to once its trip count is known). -/
def iterBody {σ : Type} (body : Nat → σ → σ) (step : Nat) : Nat → Nat → σ → σ
  | 0, _, s => s
  | m + 1, i, s => iterBody body step m (i + step) (body i s)

/-! ## Vector registers -/

/-- The macro `FLOAT_VEC_SIZE` (`#define FLOAT_VEC_SIZE 4`). -/
def FLOAT_VEC_SIZE : Nat := 4

/-- The macro `CHAR_VEC_SIZE` (`#define CHAR_VEC_SIZE 16`). -/
def CHAR_VEC_SIZE : Nat := 16

/-- A `vector float`: four lanes. -/
structure V4 (α : Type) where
  e0 : α
  e1 : α
  e2 : α
  e3 : α
deriving DecidableEq

namespace V4

variable {α : Type}

/-- The initialiser `{0, 0, 0, 0}`. -/
def zero [Zero α] : V4 α := ⟨0, 0, 0, 0⟩

/-- Lane-wise `a + b`. -/
def add [Add α] (a b : V4 α) : V4 α := ⟨a.e0 + b.e0, a.e1 + b.e1, a.e2 + b.e2, a.e3 + b.e3⟩

/-- Lane-wise `a - b`. -/
def sub [Sub α] (a b : V4 α) : V4 α := ⟨a.e0 - b.e0, a.e1 - b.e1, a.e2 - b.e2, a.e3 - b.e3⟩

/-- Lane-wise `a * b`. -/
def mul [Mul α] (a b : V4 α) : V4 α := ⟨a.e0 * b.e0, a.e1 * b.e1, a.e2 * b.e2, a.e3 * b.e3⟩

instance [Add α] : Add (V4 α) := ⟨add⟩
instance [Sub α] : Sub (V4 α) := ⟨sub⟩
instance [Mul α] : Mul (V4 α) := ⟨mul⟩

/-- The sum of the four lanes, `v[0] + v[1] + v[2] + v[3]`, associated to the left as in C. -/
def hsum [Add α] (v : V4 α) : α := v.e0 + v.e1 + v.e2 + v.e3

end V4

/-- The load `((vector float *)(&x[i]))[0]`, also `vec_xl(0, &x[i])`: lanes `x[i .. i+3]`. -/
def vload {α : Type} (x : Nat → α) (i : Nat) : V4 α := ⟨x i, x (i + 1), x (i + 2), x (i + 3)⟩

/-- The indexed load `vx[k]` for `vx = (vector float *)&x[i]`: the `k`-th register after
`x[i]`, that is lanes `x[i + 4k .. i + 4k + 3]`. -/
def vidx {α : Type} (x : Nat → α) (i k : Nat) : V4 α := vload x (i + FLOAT_VEC_SIZE * k)

/-- The built-in `vec_sub(a, b)`: lane-wise difference. -/
def vec_sub {α : Type} [Sub α] (a b : V4 α) : V4 α := a - b

/-- The built-in `vec_add(a, b)`: lane-wise sum. -/
def vec_add {α : Type} [Add α] (a b : V4 α) : V4 α := a + b

/-- The built-in `vec_madd(a, b, c) = a * b + c`, lane-wise (read exactly, as a multiply
followed by an add). -/
def vec_madd {α : Type} [Add α] [Mul α] (a b c : V4 α) : V4 α := a * b + c

/-- The built-in `vec_extract(v, k)` for the lane numbers `0 .. 3` the source uses. -/
def vec_extract {α : Type} (v : V4 α) (k : Nat) : α :=
  match k with
  | 0 => v.e0
  | 1 => v.e1
  | 2 => v.e2
  | _ => v.e3

/-! ## Accumulator sets -/

/-- Four accumulators `vres0 .. vres3`. -/
structure Acc4 (α : Type) where
  vres0 : V4 α
  vres1 : V4 α
  vres2 : V4 α
  vres3 : V4 α

/-- Every accumulator initialised to `{0, 0, 0, 0}`. -/
def Acc4.zero {α : Type} [Zero α] : Acc4 α :=
  ⟨V4.zero, V4.zero, V4.zero, V4.zero⟩

/-- Sum of all lanes of all the accumulators. -/
def Acc4.total {α : Type} [Add α] (a : Acc4 α) : α :=
  a.vres0.hsum + a.vres1.hsum + a.vres2.hsum + a.vres3.hsum

/-- Eight accumulators `vres0 .. vres7`. -/
structure Acc8 (α : Type) where
  vres0 : V4 α
  vres1 : V4 α
  vres2 : V4 α
  vres3 : V4 α
  vres4 : V4 α
  vres5 : V4 α
  vres6 : V4 α
  vres7 : V4 α

/-- Every accumulator initialised to `{0, 0, 0, 0}`. -/
def Acc8.zero {α : Type} [Zero α] : Acc8 α :=
  ⟨V4.zero, V4.zero, V4.zero, V4.zero, V4.zero, V4.zero, V4.zero, V4.zero⟩

/-- Sum of all lanes of all the accumulators. -/
def Acc8.total {α : Type} [Add α] (a : Acc8 α) : α :=
  a.vres0.hsum + a.vres1.hsum + a.vres2.hsum + a.vres3.hsum + a.vres4.hsum + a.vres5.hsum + a.vres6.hsum + a.vres7.hsum

/-- Sixteen accumulators `vres0 .. vres15`. -/
structure Acc16 (α : Type) where
  vres0 : V4 α
  vres1 : V4 α
  vres2 : V4 α
  vres3 : V4 α
  vres4 : V4 α
  vres5 : V4 α
  vres6 : V4 α
  vres7 : V4 α
  vres8 : V4 α
  vres9 : V4 α
  vres10 : V4 α
  vres11 : V4 α
  vres12 : V4 α
  vres13 : V4 α
  vres14 : V4 α
  vres15 : V4 α

/-- Every accumulator initialised to `{0, 0, 0, 0}`. -/
def Acc16.zero {α : Type} [Zero α] : Acc16 α :=
  ⟨V4.zero, V4.zero, V4.zero, V4.zero, V4.zero, V4.zero, V4.zero, V4.zero, V4.zero, V4.zero, V4.zero, V4.zero, V4.zero, V4.zero, V4.zero, V4.zero⟩

/-- Sum of all lanes of all the accumulators. -/
def Acc16.total {α : Type} [Add α] (a : Acc16 α) : α :=
  a.vres0.hsum + a.vres1.hsum + a.vres2.hsum + a.vres3.hsum + a.vres4.hsum + a.vres5.hsum + a.vres6.hsum + a.vres7.hsum + a.vres8.hsum + a.vres9.hsum + a.vres10.hsum + a.vres11.hsum + a.vres12.hsum + a.vres13.hsum + a.vres14.hsum + a.vres15.hsum

/-! ## `optimized/euclidean_l2_distance.cc` -/

section L2

variable {α : Type} [Zero α] [Add α] [Sub α] [Mul α]

/-- The scalar remainder loop of the squared-distance code:
`for (i = base; i < d; i++) { tmp = x[i] - y[i]; res += tmp * tmp; }` from `res = 0`. -/
def L2sqr_tail (x y : Nat → α) (base d : Nat) : α :=
  forLoop base d 1 (fun i res =>
    let tmp := x i - y i
    res + tmp * tmp) 0

/-- The scalar loop that the comment in `fvec_L2sqr_ref_ppc` documents as the original
code: `for (i = 0; i < d; i++) { const float tmp = x[i] - y[i]; res += tmp * tmp; }`
from `res = 0`, then `return res`. -/
def fvec_L2sqr_ref_original (x y : Nat → α) (d : Nat) : α :=
  forLoop 0 d 1 (fun i res =>
    let tmp := x i - y i
    res + tmp * tmp) 0

/-- Body of the main loop of the `d < 32` tier of `fvec_L2sqr_ref_ppc`:
`vtmp = vx[0] - vy[0]; vres += vtmp * vtmp` with `vx = &x[i]`, `vy = &y[i]`. -/
def L2sqr_body1 (x y : Nat → α) (i : Nat) (vres : V4 α) : V4 α :=
  let vtmp := vload x i - vload y i
  vres + vtmp * vtmp

/-- Body of the main loop of the unroll-factor-4 tier of `fvec_L2sqr_ref_ppc`:
`vtmpK = vxK[0] - vyK[0]; vresK += vtmpK * vtmpK` with `vxK = &x[i + FLOAT_VEC_SIZE * K]`. -/
def L2sqr_body4 (x y : Nat → α) (i : Nat) (a : Acc4 α) : Acc4 α :=
  let vtmp0 := vload x (i + FLOAT_VEC_SIZE * 0) - vload y (i + FLOAT_VEC_SIZE * 0)
  let vtmp1 := vload x (i + FLOAT_VEC_SIZE * 1) - vload y (i + FLOAT_VEC_SIZE * 1)
  let vtmp2 := vload x (i + FLOAT_VEC_SIZE * 2) - vload y (i + FLOAT_VEC_SIZE * 2)
  let vtmp3 := vload x (i + FLOAT_VEC_SIZE * 3) - vload y (i + FLOAT_VEC_SIZE * 3)
  { vres0 := a.vres0 + vtmp0 * vtmp0
    vres1 := a.vres1 + vtmp1 * vtmp1
    vres2 := a.vres2 + vtmp2 * vtmp2
    vres3 := a.vres3 + vtmp3 * vtmp3 }

/-- Body of the main loop of the unroll-factor-8 tier of `fvec_L2sqr_ref_ppc`:
`vtmpK = vxK[0] - vyK[0]; vresK += vtmpK * vtmpK` with `vxK = &x[i + FLOAT_VEC_SIZE * K]`. -/
def L2sqr_body8 (x y : Nat → α) (i : Nat) (a : Acc8 α) : Acc8 α :=
  let vtmp0 := vload x (i + FLOAT_VEC_SIZE * 0) - vload y (i + FLOAT_VEC_SIZE * 0)
  let vtmp1 := vload x (i + FLOAT_VEC_SIZE * 1) - vload y (i + FLOAT_VEC_SIZE * 1)
  let vtmp2 := vload x (i + FLOAT_VEC_SIZE * 2) - vload y (i + FLOAT_VEC_SIZE * 2)
  let vtmp3 := vload x (i + FLOAT_VEC_SIZE * 3) - vload y (i + FLOAT_VEC_SIZE * 3)
  let vtmp4 := vload x (i + FLOAT_VEC_SIZE * 4) - vload y (i + FLOAT_VEC_SIZE * 4)
  let vtmp5 := vload x (i + FLOAT_VEC_SIZE * 5) - vload y (i + FLOAT_VEC_SIZE * 5)
  let vtmp6 := vload x (i + FLOAT_VEC_SIZE * 6) - vload y (i + FLOAT_VEC_SIZE * 6)
  let vtmp7 := vload x (i + FLOAT_VEC_SIZE * 7) - vload y (i + FLOAT_VEC_SIZE * 7)
  { vres0 := a.vres0 + vtmp0 * vtmp0
    vres1 := a.vres1 + vtmp1 * vtmp1
    vres2 := a.vres2 + vtmp2 * vtmp2
    vres3 := a.vres3 + vtmp3 * vtmp3
    vres4 := a.vres4 + vtmp4 * vtmp4
    vres5 := a.vres5 + vtmp5 * vtmp5
    vres6 := a.vres6 + vtmp6 * vtmp6
    vres7 := a.vres7 + vtmp7 * vtmp7 }

/-- Body of the main loop of the unroll-factor-16 tier of `fvec_L2sqr_ref_ppc`:
`vtmpK = vxK[0] - vyK[0]; vresK += vtmpK * vtmpK` with `vxK = &x[i + FLOAT_VEC_SIZE * K]`. -/
def L2sqr_body16 (x y : Nat → α) (i : Nat) (a : Acc16 α) : Acc16 α :=
  let vtmp0 := vload x (i + FLOAT_VEC_SIZE * 0) - vload y (i + FLOAT_VEC_SIZE * 0)
  let vtmp1 := vload x (i + FLOAT_VEC_SIZE * 1) - vload y (i + FLOAT_VEC_SIZE * 1)
  let vtmp2 := vload x (i + FLOAT_VEC_SIZE * 2) - vload y (i + FLOAT_VEC_SIZE * 2)
  let vtmp3 := vload x (i + FLOAT_VEC_SIZE * 3) - vload y (i + FLOAT_VEC_SIZE * 3)
  let vtmp4 := vload x (i + FLOAT_VEC_SIZE * 4) - vload y (i + FLOAT_VEC_SIZE * 4)
  let vtmp5 := vload x (i + FLOAT_VEC_SIZE * 5) - vload y (i + FLOAT_VEC_SIZE * 5)
  let vtmp6 := vload x (i + FLOAT_VEC_SIZE * 6) - vload y (i + FLOAT_VEC_SIZE * 6)
  let vtmp7 := vload x (i + FLOAT_VEC_SIZE * 7) - vload y (i + FLOAT_VEC_SIZE * 7)
  let vtmp8 := vload x (i + FLOAT_VEC_SIZE * 8) - vload y (i + FLOAT_VEC_SIZE * 8)
  let vtmp9 := vload x (i + FLOAT_VEC_SIZE * 9) - vload y (i + FLOAT_VEC_SIZE * 9)
  let vtmp10 := vload x (i + FLOAT_VEC_SIZE * 10) - vload y (i + FLOAT_VEC_SIZE * 10)
  let vtmp11 := vload x (i + FLOAT_VEC_SIZE * 11) - vload y (i + FLOAT_VEC_SIZE * 11)
  let vtmp12 := vload x (i + FLOAT_VEC_SIZE * 12) - vload y (i + FLOAT_VEC_SIZE * 12)
  let vtmp13 := vload x (i + FLOAT_VEC_SIZE * 13) - vload y (i + FLOAT_VEC_SIZE * 13)
  let vtmp14 := vload x (i + FLOAT_VEC_SIZE * 14) - vload y (i + FLOAT_VEC_SIZE * 14)
  let vtmp15 := vload x (i + FLOAT_VEC_SIZE * 15) - vload y (i + FLOAT_VEC_SIZE * 15)
  { vres0 := a.vres0 + vtmp0 * vtmp0
    vres1 := a.vres1 + vtmp1 * vtmp1
    vres2 := a.vres2 + vtmp2 * vtmp2
    vres3 := a.vres3 + vtmp3 * vtmp3
    vres4 := a.vres4 + vtmp4 * vtmp4
    vres5 := a.vres5 + vtmp5 * vtmp5
    vres6 := a.vres6 + vtmp6 * vtmp6
    vres7 := a.vres7 + vtmp7 * vtmp7
    vres8 := a.vres8 + vtmp8 * vtmp8
    vres9 := a.vres9 + vtmp9 * vtmp9
    vres10 := a.vres10 + vtmp10 * vtmp10
    vres11 := a.vres11 + vtmp11 * vtmp11
    vres12 := a.vres12 + vtmp12 * vtmp12
    vres13 := a.vres13 + vtmp13 * vtmp13
    vres14 := a.vres14 + vtmp14 * vtmp14
    vres15 := a.vres15 + vtmp15 * vtmp15 }

/-- Source function `float fvec_L2sqr_ref_ppc(const float* x, const float* y, size_t d)`, the version with
the four unrolling tiers. -/
def fvec_L2sqr_ref_ppc (x y : Nat → α) (d : Nat) : α :=
  if d < 32 then
    let base := (d / FLOAT_VEC_SIZE) * FLOAT_VEC_SIZE
    let vres := forLoop 0 base FLOAT_VEC_SIZE (L2sqr_body1 x y) V4.zero
    let res := L2sqr_tail x y base d
    res + vres.e0 + vres.e1 + vres.e2 + vres.e3
  else if d < 64 ∨ d = 48 then
    let factor := FLOAT_VEC_SIZE * 4
    let base := (d / factor) * factor
    let a := forLoop 0 base factor (L2sqr_body4 x y) Acc4.zero
    let res := L2sqr_tail x y base d
    let vres0 := a.vres0 + a.vres1
    let vres2 := a.vres2 + a.vres3
    let vres0 := vres0 + vres2
    res + (vres0.e0 + vres0.e1 + vres0.e2 + vres0.e3)
  else if d < 128 then
    let factor := FLOAT_VEC_SIZE * 8
    let base := (d / factor) * factor
    let a := forLoop 0 base factor (L2sqr_body8 x y) Acc8.zero
    let res := L2sqr_tail x y base d
    let vres0 := a.vres0 + a.vres1
    let vres2 := a.vres2 + a.vres3
    let vres4 := a.vres4 + a.vres5
    let vres6 := a.vres6 + a.vres7
    let vres0 := vres0 + vres2
    let vres4 := vres4 + vres6
    let vres0 := vres0 + vres4
    res + (vres0.e0 + vres0.e1 + vres0.e2 + vres0.e3)
  else
    let factor := FLOAT_VEC_SIZE * 16
    let base := (d / factor) * factor
    let a := forLoop 0 base factor (L2sqr_body16 x y) Acc16.zero
    let res := L2sqr_tail x y base d
    let vres0 := a.vres0 + a.vres1
    let vres2 := a.vres2 + a.vres3
    let vres4 := a.vres4 + a.vres5
    let vres6 := a.vres6 + a.vres7
    let vres8 := a.vres8 + a.vres9
    let vres10 := a.vres10 + a.vres11
    let vres12 := a.vres12 + a.vres13
    let vres14 := a.vres14 + a.vres15
    let vres0 := vres0 + vres2
    let vres4 := vres4 + vres6
    let vres8 := vres8 + vres10
    let vres12 := vres12 + vres14
    let vres0 := vres0 + vres4
    let vres8 := vres8 + vres12
    let vres0 := vres0 + vres8
    res + (vres0.e0 + vres0.e1 + vres0.e2 + vres0.e3)

/-- The squared norm of `x` as `fvec_L2sqr_ny_transposed_ref_ppc` computes it: a four-lane
main loop, the lane sum, then the scalar loop
`for (j = base; j < d; j++) x_sqlen += x[j + base] * x[j + base];`. -/
def transposed_x_sqlen (x : Nat → α) (d : Nat) : α :=
  let base := (d / FLOAT_VEC_SIZE) * FLOAT_VEC_SIZE
  let vx_sqlen := forLoop 0 base FLOAT_VEC_SIZE (fun i vx_sqlen =>
    vx_sqlen + vload x i * vload x i) V4.zero
  let x_sqlen := vx_sqlen.e0 + vx_sqlen.e1 + vx_sqlen.e2 + vx_sqlen.e3
  forLoop base d 1 (fun j x_sqlen => x_sqlen + x (j + base) * x (j + base)) x_sqlen

/-- Body of the sixteen-fold unrolled dot-product loop of
`fvec_L2sqr_ny_transposed_ref_ppc`: sixteen statements
`dp += x[j + K] * y[i + (j + K) * d_offset];`. -/
def transposed_dp_body (x y : Nat → α) (d_offset i j : Nat) (dp : α) : α :=
  let dp := dp + x j * y (i + j * d_offset)
  let dp := dp + x (j + 1) * y (i + (j + 1) * d_offset)
  let dp := dp + x (j + 2) * y (i + (j + 2) * d_offset)
  let dp := dp + x (j + 3) * y (i + (j + 3) * d_offset)
  let dp := dp + x (j + 4) * y (i + (j + 4) * d_offset)
  let dp := dp + x (j + 5) * y (i + (j + 5) * d_offset)
  let dp := dp + x (j + 6) * y (i + (j + 6) * d_offset)
  let dp := dp + x (j + 7) * y (i + (j + 7) * d_offset)
  let dp := dp + x (j + 8) * y (i + (j + 8) * d_offset)
  let dp := dp + x (j + 9) * y (i + (j + 9) * d_offset)
  let dp := dp + x (j + 10) * y (i + (j + 10) * d_offset)
  let dp := dp + x (j + 11) * y (i + (j + 11) * d_offset)
  let dp := dp + x (j + 12) * y (i + (j + 12) * d_offset)
  let dp := dp + x (j + 13) * y (i + (j + 13) * d_offset)
  let dp := dp + x (j + 14) * y (i + (j + 14) * d_offset)
  let dp := dp + x (j + 15) * y (i + (j + 15) * d_offset)
  dp

/-- The dot product `dp` of `x` with target `i` of the transposed block, as computed in the
body of the `ny` loop of `fvec_L2sqr_ny_transposed_ref_ppc`. -/
def transposed_dp (x y : Nat → α) (d d_offset i : Nat) : α :=
  let base := (d / 16) * 16
  let dp := forLoop 0 base 16 (transposed_dp_body x y d_offset i) 0
  forLoop base d 1 (fun j dp => dp + x j * y (i + j * d_offset)) dp

/-- Source function `void fvec_L2sqr_ny_transposed_ref_ppc(float* dis, const float* x, const float* y,`
`const float* y_sqlen, size_t d, size_t d_offset, size_t ny)`.
The output buffer `dis` is passed in and the updated buffer returned; the pointers are
`__restrict`, so the stores to `dis` change no input. -/
def fvec_L2sqr_ny_transposed_ref_ppc [OfNat α 2] (dis x y y_sqlen : Nat → α)
    (d d_offset ny : Nat) : Nat → α :=
  let x_sqlen := transposed_x_sqlen x d
  forLoop 0 ny 1 (fun i dis =>
    let dp := transposed_dp x y d d_offset i
    Function.update dis i (x_sqlen + y_sqlen i - 2 * dp)) dis

/-- The four vector accumulators `vd0 .. vd3` of the batch-4 kernels. -/
structure VD4 (α : Type) where
  vd0 : V4 α
  vd1 : V4 α
  vd2 : V4 α
  vd3 : V4 α

/-- The four scalar accumulators `d0 .. d3` of the batch-4 kernels. -/
structure D4 (α : Type) where
  d0 : α
  d1 : α
  d2 : α
  d3 : α

/-- The four outputs `dis0 .. dis3` of a batch-4 kernel. -/
structure Dis4 (α : Type) where
  dis0 : α
  dis1 : α
  dis2 : α
  dis3 : α
deriving DecidableEq

/-- Body of the vector loop of `fvec_L2sqr_batch_4_ref_ppc`:
`vqK = vx[0] - vyK[0]; vdK += vqK * vqK` for `K = 0 .. 3`. -/
def L2sqr_batch_4_body (x y0 y1 y2 y3 : Nat → α) (i : Nat) (v : VD4 α) : VD4 α :=
  let vq0 := vload x i - vload y0 i
  let vq1 := vload x i - vload y1 i
  let vq2 := vload x i - vload y2 i
  let vq3 := vload x i - vload y3 i
  { vd0 := v.vd0 + vq0 * vq0
    vd1 := v.vd1 + vq1 * vq1
    vd2 := v.vd2 + vq2 * vq2
    vd3 := v.vd3 + vq3 * vq3 }

/-- Body of the scalar loop of `fvec_L2sqr_batch_4_ref_ppc`:
`qK = x[i] - yK[i]; dK += qK * qK` for `K = 0 .. 3`. -/
def L2sqr_batch_4_tail_body (x y0 y1 y2 y3 : Nat → α) (i : Nat) (s : D4 α) : D4 α :=
  let q0 := x i - y0 i
  let q1 := x i - y1 i
  let q2 := x i - y2 i
  let q3 := x i - y3 i
  { d0 := s.d0 + q0 * q0
    d1 := s.d1 + q1 * q1
    d2 := s.d2 + q2 * q2
    d3 := s.d3 + q3 * q3 }

/-- Source function `void fvec_L2sqr_batch_4_ref_ppc(const float* x, const float* y0,`
`const float* y1, const float* y2, const float* y3, const size_t d, float& dis0, ..,`
`float& dis3)`; the four reference parameters are only written, so they are the result. -/
def fvec_L2sqr_batch_4_ref_ppc (x y0 y1 y2 y3 : Nat → α) (d : Nat) : Dis4 α :=
  let base := (d / FLOAT_VEC_SIZE) * FLOAT_VEC_SIZE
  let v := forLoop 0 base FLOAT_VEC_SIZE (L2sqr_batch_4_body x y0 y1 y2 y3)
    ⟨V4.zero, V4.zero, V4.zero, V4.zero⟩
  let s := forLoop base d 1 (L2sqr_batch_4_tail_body x y0 y1 y2 y3) ⟨0, 0, 0, 0⟩
  { dis0 := v.vd0.e0 + v.vd0.e1 + v.vd0.e2 + v.vd0.e3 + s.d0
    dis1 := v.vd1.e0 + v.vd1.e1 + v.vd1.e2 + v.vd1.e3 + s.d1
    dis2 := v.vd2.e0 + v.vd2.e1 + v.vd2.e2 + v.vd2.e3 + s.d2
    dis3 := v.vd3.e0 + v.vd3.e1 + v.vd3.e2 + v.vd3.e3 + s.d3 }

/-- A query of dimension `5` with every element `1`, followed in memory by zeros. -/
def ones5 : Nat → ℤ := fun i => if i < 5 then 1 else 0

/-- The same five elements `1` as `ones5`, followed in memory by other data: index `8`
holds `3`. -/
def ones5_then3 : Nat → ℤ := fun i => if i < 5 then 1 else if i = 8 then 3 else 0

end L2

/-! ## `optimized/innerproduct.cc` -/

section InnerProduct

variable {α : Type} [Zero α] [Add α] [Mul α]

/-- The scalar remainder loop `for (i = base; i < d; ++i) res += x[i] * y[i];` from
`res = 0`. -/
def inner_product_tail (x y : Nat → α) (base d : Nat) : α :=
  forLoop base d 1 (fun i res => res + x i * y i) 0

/-- Body of the main loop of the unroll-factor-4 tier of `fvec_inner_product_ref_ppc`:
`vresK += vx[K] * vy[K]` with `vx = (vector float *)&x[i]`. -/
def inner_product_body4 (x y : Nat → α) (i : Nat) (a : Acc4 α) : Acc4 α :=
  { vres0 := a.vres0 + vidx x i 0 * vidx y i 0
    vres1 := a.vres1 + vidx x i 1 * vidx y i 1
    vres2 := a.vres2 + vidx x i 2 * vidx y i 2
    vres3 := a.vres3 + vidx x i 3 * vidx y i 3 }

/-- Body of the main loop of the unroll-factor-8 tier of `fvec_inner_product_ref_ppc`:
`vresK += vx[K] * vy[K]` with `vx = (vector float *)&x[i]`. -/
def inner_product_body8 (x y : Nat → α) (i : Nat) (a : Acc8 α) : Acc8 α :=
  { vres0 := a.vres0 + vidx x i 0 * vidx y i 0
    vres1 := a.vres1 + vidx x i 1 * vidx y i 1
    vres2 := a.vres2 + vidx x i 2 * vidx y i 2
    vres3 := a.vres3 + vidx x i 3 * vidx y i 3
    vres4 := a.vres4 + vidx x i 4 * vidx y i 4
    vres5 := a.vres5 + vidx x i 5 * vidx y i 5
    vres6 := a.vres6 + vidx x i 6 * vidx y i 6
    vres7 := a.vres7 + vidx x i 7 * vidx y i 7 }

/-- Body of the main loop of the unroll-factor-16 tier of `fvec_inner_product_ref_ppc`:
`vresK += vx[K] * vy[K]` with `vx = (vector float *)&x[i]`. -/
def inner_product_body16 (x y : Nat → α) (i : Nat) (a : Acc16 α) : Acc16 α :=
  { vres0 := a.vres0 + vidx x i 0 * vidx y i 0
    vres1 := a.vres1 + vidx x i 1 * vidx y i 1
    vres2 := a.vres2 + vidx x i 2 * vidx y i 2
    vres3 := a.vres3 + vidx x i 3 * vidx y i 3
    vres4 := a.vres4 + vidx x i 4 * vidx y i 4
    vres5 := a.vres5 + vidx x i 5 * vidx y i 5
    vres6 := a.vres6 + vidx x i 6 * vidx y i 6
    vres7 := a.vres7 + vidx x i 7 * vidx y i 7
    vres8 := a.vres8 + vidx x i 8 * vidx y i 8
    vres9 := a.vres9 + vidx x i 9 * vidx y i 9
    vres10 := a.vres10 + vidx x i 10 * vidx y i 10
    vres11 := a.vres11 + vidx x i 11 * vidx y i 11
    vres12 := a.vres12 + vidx x i 12 * vidx y i 12
    vres13 := a.vres13 + vidx x i 13 * vidx y i 13
    vres14 := a.vres14 + vidx x i 14 * vidx y i 14
    vres15 := a.vres15 + vidx x i 15 * vidx y i 15 }

/-- The scalar loop that the comment after `fvec_inner_product_ref_ppc` documents as the
original code: `for (i = 0; i < d; i++) { res += x[i] * y[i]; }` from `res = 0`, then
`return res`. -/
def fvec_inner_product_ref_original (x y : Nat → α) (d : Nat) : α :=
  forLoop 0 d 1 (fun i res => res + x i * y i) 0

/-- Source function `float fvec_inner_product_ref_ppc(const float *x, const float *y, size_t d)`. -/
def fvec_inner_product_ref_ppc (x y : Nat → α) (d : Nat) : α :=
  if d < 32 then
    let nvec := d / FLOAT_VEC_SIZE
    let vres := forLoop 0 nvec 1 (fun i vres => vres + vidx x 0 i * vidx y 0 i) V4.zero
    let res := inner_product_tail x y (nvec * FLOAT_VEC_SIZE) d
    res + vres.e0 + vres.e1 + vres.e2 + vres.e3
  else if d < 64 then
    let base := (d / (FLOAT_VEC_SIZE * 4)) * (FLOAT_VEC_SIZE * 4)
    let a := forLoop 0 base (FLOAT_VEC_SIZE * 4) (inner_product_body4 x y) Acc4.zero
    let res := inner_product_tail x y base d
    let vres0 := a.vres0 + a.vres1
    let vres2 := a.vres2 + a.vres3
    let vres0 := vres0 + vres2
    res + (vres0.e0 + vres0.e1 + vres0.e2 + vres0.e3)
  else if d < 128 then
    let base := (d / (FLOAT_VEC_SIZE * 8)) * (FLOAT_VEC_SIZE * 8)
    let a := forLoop 0 base (FLOAT_VEC_SIZE * 8) (inner_product_body8 x y) Acc8.zero
    let res := inner_product_tail x y base d
    let vres0 := a.vres0 + a.vres1
    let vres0 := vres0 + a.vres2
    let vres0 := vres0 + a.vres3
    let vres0 := vres0 + a.vres4
    let vres0 := vres0 + a.vres5
    let vres0 := vres0 + a.vres6
    let vres0 := vres0 + a.vres7
    res + (vres0.e0 + vres0.e1 + vres0.e2 + vres0.e3)
  else
    let base := (d / (FLOAT_VEC_SIZE * 16)) * (FLOAT_VEC_SIZE * 16)
    let a := forLoop 0 base (FLOAT_VEC_SIZE * 16) (inner_product_body16 x y) Acc16.zero
    let res := inner_product_tail x y base d
    let vres0 := a.vres0 + a.vres1
    let vres0 := vres0 + a.vres2
    let vres0 := vres0 + a.vres3
    let vres0 := vres0 + a.vres4
    let vres0 := vres0 + a.vres5
    let vres0 := vres0 + a.vres6
    let vres0 := vres0 + a.vres7
    let vres0 := vres0 + a.vres8
    let vres0 := vres0 + a.vres9
    let vres0 := vres0 + a.vres10
    let vres0 := vres0 + a.vres11
    let vres0 := vres0 + a.vres12
    let vres0 := vres0 + a.vres13
    let vres0 := vres0 + a.vres14
    let vres0 := vres0 + a.vres15
    res + (vres0.e0 + vres0.e1 + vres0.e2 + vres0.e3)

/-- Body of the vector loop of `fvec_inner_product_batch_4_ref_ppc`:
`vdK += vx[0] * vyK[0]` for `K = 0 .. 3`. -/
def inner_product_batch_4_body (x y0 y1 y2 y3 : Nat → α) (i : Nat) (v : VD4 α) : VD4 α :=
  { vd0 := v.vd0 + vload x i * vload y0 i
    vd1 := v.vd1 + vload x i * vload y1 i
    vd2 := v.vd2 + vload x i * vload y2 i
    vd3 := v.vd3 + vload x i * vload y3 i }

/-- Body of the scalar loop of `fvec_inner_product_batch_4_ref_ppc`:
`dK += x[i] * yK[i]` for `K = 0 .. 3`. -/
def inner_product_batch_4_tail_body (x y0 y1 y2 y3 : Nat → α) (i : Nat) (s : D4 α) : D4 α :=
  { d0 := s.d0 + x i * y0 i
    d1 := s.d1 + x i * y1 i
    d2 := s.d2 + x i * y2 i
    d3 := s.d3 + x i * y3 i }

/-- Source function `void fvec_inner_product_batch_4_ref_ppc(const float* x,`
`const float* y0, .., const float* y3, const size_t d, float& dis0, .., float& dis3)`. -/
def fvec_inner_product_batch_4_ref_ppc (x y0 y1 y2 y3 : Nat → α) (d : Nat) : Dis4 α :=
  let base := (d / FLOAT_VEC_SIZE) * FLOAT_VEC_SIZE
  let remainder := d % FLOAT_VEC_SIZE
  let v := forLoop 0 base FLOAT_VEC_SIZE (inner_product_batch_4_body x y0 y1 y2 y3)
    ⟨V4.zero, V4.zero, V4.zero, V4.zero⟩
  let dis : Dis4 α :=
    { dis0 := v.vd0.e0 + v.vd0.e1 + v.vd0.e2 + v.vd0.e3
      dis1 := v.vd1.e0 + v.vd1.e1 + v.vd1.e2 + v.vd1.e3
      dis2 := v.vd2.e0 + v.vd2.e1 + v.vd2.e2 + v.vd2.e3
      dis3 := v.vd3.e0 + v.vd3.e1 + v.vd3.e2 + v.vd3.e3 }
  if remainder ≠ 0 then
    let s := forLoop base d 1 (inner_product_batch_4_tail_body x y0 y1 y2 y3) ⟨0, 0, 0, 0⟩
    { dis0 := dis.dis0 + s.d0
      dis1 := dis.dis1 + s.d1
      dis2 := dis.dis2 + s.d2
      dis3 := dis.dis3 + s.d3 }
  else dis

end InnerProduct

/-! ## `intrinsic/innerproduct.cc` -/

section Intrinsic

variable {α : Type} [Zero α] [Add α] [Sub α] [Mul α]

/-- Body of the main loop of the `d < 32` tier of `fvec_inner_product_ref_ippc`:
`diff = vec_sub(vx, vy); vres = vec_madd(diff, diff, vres)`. -/
def ippc_body1 (x y : Nat → α) (i : Nat) (vres : V4 α) : V4 α :=
  let vx := vload x i
  let vy := vload y i
  let diff := vec_sub vx vy
  vec_madd diff diff vres

/-- Body of the main loop of the unroll-factor-4 tier of `fvec_inner_product_ref_ippc`:
`vxK = vec_xl(0, &x[i + 4 * K]); vyK = vec_xl(0, &y[i + 4 * K]);`
`vresK = vec_madd(vxK, vxK, vresK)`. -/
def ippc_body4 (x y : Nat → α) (i : Nat) (a : Acc4 α) : Acc4 α :=
  let vx0 := vload x (i + 0)
  let _vy0 := vload y (i + 0)
  let vx1 := vload x (i + 4)
  let _vy1 := vload y (i + 4)
  let vx2 := vload x (i + 8)
  let _vy2 := vload y (i + 8)
  let vx3 := vload x (i + 12)
  let _vy3 := vload y (i + 12)
  { vres0 := vec_madd vx0 vx0 a.vres0
    vres1 := vec_madd vx1 vx1 a.vres1
    vres2 := vec_madd vx2 vx2 a.vres2
    vres3 := vec_madd vx3 vx3 a.vres3 }

/-- Body of the main loop of the unroll-factor-8 tier of `fvec_inner_product_ref_ippc`:
`vxK = vec_xl(0, &x[i + 4 * K]); vyK = vec_xl(0, &y[i + 4 * K]);`
`vresK = vec_madd(vxK, vxK, vresK)`. -/
def ippc_body8 (x y : Nat → α) (i : Nat) (a : Acc8 α) : Acc8 α :=
  let vx0 := vload x (i + 0)
  let _vy0 := vload y (i + 0)
  let vx1 := vload x (i + 4)
  let _vy1 := vload y (i + 4)
  let vx2 := vload x (i + 8)
  let _vy2 := vload y (i + 8)
  let vx3 := vload x (i + 12)
  let _vy3 := vload y (i + 12)
  let vx4 := vload x (i + 16)
  let _vy4 := vload y (i + 16)
  let vx5 := vload x (i + 20)
  let _vy5 := vload y (i + 20)
  let vx6 := vload x (i + 24)
  let _vy6 := vload y (i + 24)
  let vx7 := vload x (i + 28)
  let _vy7 := vload y (i + 28)
  { vres0 := vec_madd vx0 vx0 a.vres0
    vres1 := vec_madd vx1 vx1 a.vres1
    vres2 := vec_madd vx2 vx2 a.vres2
    vres3 := vec_madd vx3 vx3 a.vres3
    vres4 := vec_madd vx4 vx4 a.vres4
    vres5 := vec_madd vx5 vx5 a.vres5
    vres6 := vec_madd vx6 vx6 a.vres6
    vres7 := vec_madd vx7 vx7 a.vres7 }

/-- Body of the main loop of the unroll-factor-16 tier of `fvec_inner_product_ref_ippc`:
`vxK = vec_xl(0, &x[i + 4 * K]); vyK = vec_xl(0, &y[i + 4 * K]);`
`vresK = vec_madd(vxK, vyK, vresK)`. -/
def ippc_body16 (x y : Nat → α) (i : Nat) (a : Acc16 α) : Acc16 α :=
  let vx0 := vload x (i + 0)
  let vy0 := vload y (i + 0)
  let vx1 := vload x (i + 4)
  let vy1 := vload y (i + 4)
  let vx2 := vload x (i + 8)
  let vy2 := vload y (i + 8)
  let vx3 := vload x (i + 12)
  let vy3 := vload y (i + 12)
  let vx4 := vload x (i + 16)
  let vy4 := vload y (i + 16)
  let vx5 := vload x (i + 20)
  let vy5 := vload y (i + 20)
  let vx6 := vload x (i + 24)
  let vy6 := vload y (i + 24)
  let vx7 := vload x (i + 28)
  let vy7 := vload y (i + 28)
  let vx8 := vload x (i + 32)
  let vy8 := vload y (i + 32)
  let vx9 := vload x (i + 36)
  let vy9 := vload y (i + 36)
  let vx10 := vload x (i + 40)
  let vy10 := vload y (i + 40)
  let vx11 := vload x (i + 44)
  let vy11 := vload y (i + 44)
  let vx12 := vload x (i + 48)
  let vy12 := vload y (i + 48)
  let vx13 := vload x (i + 52)
  let vy13 := vload y (i + 52)
  let vx14 := vload x (i + 56)
  let vy14 := vload y (i + 56)
  let vx15 := vload x (i + 60)
  let vy15 := vload y (i + 60)
  { vres0 := vec_madd vx0 vy0 a.vres0
    vres1 := vec_madd vx1 vy1 a.vres1
    vres2 := vec_madd vx2 vy2 a.vres2
    vres3 := vec_madd vx3 vy3 a.vres3
    vres4 := vec_madd vx4 vy4 a.vres4
    vres5 := vec_madd vx5 vy5 a.vres5
    vres6 := vec_madd vx6 vy6 a.vres6
    vres7 := vec_madd vx7 vy7 a.vres7
    vres8 := vec_madd vx8 vy8 a.vres8
    vres9 := vec_madd vx9 vy9 a.vres9
    vres10 := vec_madd vx10 vy10 a.vres10
    vres11 := vec_madd vx11 vy11 a.vres11
    vres12 := vec_madd vx12 vy12 a.vres12
    vres13 := vec_madd vx13 vy13 a.vres13
    vres14 := vec_madd vx14 vy14 a.vres14
    vres15 := vec_madd vx15 vy15 a.vres15 }

/-- The scalar loop every tier of `fvec_inner_product_ref_ippc` runs on the leftover
elements: `for (i = base; i < d; i++) { tmp = x[i] - y[i]; res += tmp * tmp; }`. -/
def ippc_tail (x y : Nat → α) (base d : Nat) : α :=
  forLoop base d 1 (fun i res =>
    let tmp := x i - y i
    res + tmp * tmp) 0

/-- Source function `float fvec_inner_product_ref_ippc(const float *x, const float *y, size_t d)`. -/
def fvec_inner_product_ref_ippc (x y : Nat → α) (d : Nat) : α :=
  if d < 32 then
    let base := (d / 4) * 4
    let vres := forLoop 0 base 4 (ippc_body1 x y) V4.zero
    let res := ippc_tail x y base d
    res + (vec_extract vres 0 + vec_extract vres 1 + vec_extract vres 2 + vec_extract vres 3)
  else if d < 64 ∨ d = 48 then
    let factor := 16
    let base := (d / factor) * factor
    let a := forLoop 0 base factor (ippc_body4 x y) Acc4.zero
    let res := ippc_tail x y base d
    let vsum := vec_add (vec_add a.vres0 a.vres1) (vec_add a.vres2 a.vres3)
    res + (vec_extract vsum 0 + vec_extract vsum 1 + vec_extract vsum 2 + vec_extract vsum 3)
  else if d < 128 then
    let factor := 32
    let base := (d / factor) * factor
    let a := forLoop 0 base factor (ippc_body8 x y) Acc8.zero
    let vsum0 := vec_add a.vres0 a.vres1
    let vsum1 := vec_add a.vres2 a.vres3
    let vsum2 := vec_add a.vres4 a.vres5
    let vsum3 := vec_add a.vres6 a.vres7
    let vsum0 := vec_add vsum0 vsum1
    let vsum2 := vec_add vsum2 vsum3
    let vsum := vec_add vsum0 vsum2
    let res := ippc_tail x y base d
    res + (vec_extract vsum 0 + vec_extract vsum 1 + vec_extract vsum 2 + vec_extract vsum 3)
  else
    let factor := 64
    let base := (d / factor) * factor
    let a := forLoop 0 base factor (ippc_body16 x y) Acc16.zero
    let vsum0 := vec_add a.vres0 a.vres1
    let vsum1 := vec_add a.vres2 a.vres3
    let vsum2 := vec_add a.vres4 a.vres5
    let vsum3 := vec_add a.vres6 a.vres7
    let vsum4 := vec_add a.vres8 a.vres9
    let vsum5 := vec_add a.vres10 a.vres11
    let vsum6 := vec_add a.vres12 a.vres13
    let vsum7 := vec_add a.vres14 a.vres15
    let vsum0 := vec_add vsum0 vsum1
    let vsum2 := vec_add vsum2 vsum3
    let vsum4 := vec_add vsum4 vsum5
    let vsum6 := vec_add vsum6 vsum7
    let vsum0 := vec_add vsum0 vsum2
    let vsum4 := vec_add vsum4 vsum6
    let vsum := vec_add vsum0 vsum4
    let res := ippc_tail x y base d
    res + (vec_extract vsum 0 + vec_extract vsum 1 + vec_extract vsum 2 + vec_extract vsum 3)

end Intrinsic

/-! ## `optimized/hamming_distance.cc` -/

/-- A `uint8_t`: a natural number below `2^8`. -/
abbrev uint8_t : Type := Fin 256

/-- The number of one bits among the low `w` bits of `n`. -/
def popcount : Nat → Nat → Nat
  | 0, _ => 0
  | w + 1, n => n % 2 + popcount w (n / 2)

/-- The byte `a ^ b` (the `int` result of `^` stored back into a `uint8_t`). -/
def xor8 (a b : uint8_t) : uint8_t := ⟨(a.val ^^^ b.val) % 256, Nat.mod_lt _ (by decide)⟩

/-- A lane of `vec_popcnt`, the count of one bits of a byte, itself a byte. -/
def popcnt8 (a : uint8_t) : uint8_t := ⟨popcount 8 a.val % 256, Nat.mod_lt _ (by decide)⟩

/-- The integer built-in `__builtin_popcount` applied to a byte promoted to `unsigned int`. -/
def builtin_popcount (a : uint8_t) : Nat := popcount 32 a.val

/-- A `vector unsigned char`; lane `j` for `j < 16`. -/
abbrev V16 : Type := Nat → uint8_t

/-- The load `((vector unsigned char *)(&v[i]))[0]`: lanes `v[i .. i+15]`. -/
def vload16 (v : Nat → uint8_t) (i : Nat) : V16 := fun j => v (i + j)

/-- Lane-wise `a ^ b` on `vector unsigned char`. -/
def vxor16 (a b : V16) : V16 := fun j => xor8 (a j) (b j)

/-- The built-in `vec_popcnt` on `vector unsigned char`: the bit count of every lane. -/
def vec_popcnt (a : V16) : V16 := fun j => popcnt8 (a j)

/-- Source function `size_t hamming_distance_ref_ppc(const uint8_t* vec1, const uint8_t* vec2, size_t size)`.
The flag is the macro `VEC_POPCNT_SUPPORTED` of `main-supported.h`, which selects between
the two definitions of the function (`#if VEC_POPCNT_SUPPORTED ... #else ... #endif`). -/
def hamming_distance_ref_ppc (VEC_POPCNT_SUPPORTED : Bool) (vec1 vec2 : Nat → uint8_t)
    (size : Nat) : Nat :=
  if VEC_POPCNT_SUPPORTED then
    let distance := 0
    let base := (size / CHAR_VEC_SIZE) * CHAR_VEC_SIZE
    let distance := forLoop 0 base CHAR_VEC_SIZE (fun i distance =>
      let vxor_result := vxor16 (vload16 vec1 i) (vload16 vec2 i)
      let vpopcount := vec_popcnt vxor_result
      forLoop 0 CHAR_VEC_SIZE 1 (fun j distance => distance + (vpopcount j).val) distance)
      distance
    forLoop base size 1 (fun i distance =>
      let xor_result := xor8 (vec1 i) (vec2 i)
      distance + builtin_popcount xor_result) distance
  else
    let distance := 0
    distance

/-- Bit `p` of a byte vector: bit `p % 8` of the byte `v[p / 8]`. -/
def bitAt (v : Nat → uint8_t) (p : Nat) : Bool := (v (p / 8)).val.testBit (p % 8)

/-- The Hamming distance in the words of the specification: the number of bit positions,
among the `8 * size` bits of two byte vectors, in which the vectors differ. -/
def differing_bits (v w : Nat → uint8_t) (size : Nat) : Nat :=
  ((Finset.range (8 * size)).filter (fun p => bitAt v p ≠ bitAt w p)).card
/-! ## Integer kernels (`ivec_L2sqr_ref_ppc`, `ivec_inner_product_ref_ppc`) -/

/-- An `int8_t`: an integer in `[-128, 127]`. -/
abbrev int8_t : Type := {z : Int // -128 ≤ z ∧ z ≤ 127}

/-- The `int32_t` holding the integer `z`, overflow read as wrap-around modulo `2^32`: the
representative of `z` in `[-2^31, 2^31)`. -/
def wrap32 (z : Int) : Int := (z + 2147483648) % 4294967296 - 2147483648

/-- Source function `int32_t ivec_L2sqr_ref_ppc(const int8_t* x, const int8_t* y, size_t d)`
of `optimized/euclidean_l2_distance.cc`:
`for (i = 0; i < d; i++) { const int32_t tmp = (int32_t)x[i] - (int32_t)y[i];`
`res += tmp * tmp; }` from `res = 0`, every `int32_t` operation wrapped. -/
def ivec_L2sqr_ref_ppc (x y : Nat → int8_t) (d : Nat) : Int :=
  forLoop 0 d 1 (fun i res =>
    let tmp := wrap32 ((x i).val - (y i).val)
    wrap32 (res + wrap32 (tmp * tmp))) 0

/-- Source function
`int32_t ivec_inner_product_ref_ppc(const int8_t* x, const int8_t* y, size_t d)` of
`optimized/innerproduct.cc`: `for (i = 0; i < d; i++) { res += (int32_t)x[i] * y[i]; }`
from `res = 0`, every `int32_t` operation wrapped. -/
def ivec_inner_product_ref_ppc (x y : Nat → int8_t) (d : Nat) : Int :=
  forLoop 0 d 1 (fun i res => wrap32 (res + wrap32 ((x i).val * (y i).val))) 0

/-- The `int8_t` vector with every element `127`. -/
def all_127 : Nat → int8_t := fun _ => ⟨127, by decide⟩

/-- The `int8_t` vector with every element `-128`. -/
def all_neg128 : Nat → int8_t := fun _ => ⟨-128, by decide⟩

/-- The `int8_t` vector `0, 1, 2, 0, 1, 2, ...`. -/
def ramp3 : Nat → int8_t := fun i => ⟨((i % 3 : Nat) : Int), by omega⟩

/-- The `int8_t` vector with every element `1`. -/
def all_1 : Nat → int8_t := fun _ => ⟨1, by decide⟩

/-! ## Squared norm (`fvec_norm_L2sqr_ref_ppc`) -/

/-- A `vector double`: two lanes. -/
structure V2 (α : Type) where
  e0 : α
  e1 : α
deriving DecidableEq

/-- Lane-wise `a + b` on `vector double`. -/
def V2.add {α : Type} [Add α] (a b : V2 α) : V2 α := ⟨a.e0 + b.e0, a.e1 + b.e1⟩

/-- Lane-wise `a * b` on `vector double`. -/
def V2.mul {α : Type} [Mul α] (a b : V2 α) : V2 α := ⟨a.e0 * b.e0, a.e1 * b.e1⟩

instance {α : Type} [Add α] : Add (V2 α) := ⟨V2.add⟩
instance {α : Type} [Mul α] : Mul (V2 α) := ⟨V2.mul⟩

/-- The built-in `vec_doubleo`: the odd elements `1` and `3` of a `vector float`, converted
to `double` (the conversion is exact, so it is the identity on the carrier). -/
def vec_doubleo {α : Type} (v : V4 α) : V2 α := ⟨v.e1, v.e3⟩

/-- The built-in `vec_doublee`: the even elements `0` and `2` of a `vector float`, converted
to `double`. -/
def vec_doublee {α : Type} (v : V4 α) : V2 α := ⟨v.e0, v.e2⟩

/-- The two accumulators `vreso`, `vrese` of `fvec_norm_L2sqr_ref_ppc`. -/
structure NormAcc (α : Type) where
  vreso : V2 α
  vrese : V2 α

section Norm

variable {α : Type} [Zero α] [Add α] [Mul α]

/-- Body of the vector loop of `fvec_norm_L2sqr_ref_ppc`:
`vxdo = vec_doubleo(vx[0]); vtmpo = vxdo * vxdo; vreso = vreso + vtmpo;`
`vxde = vec_doublee(vx[0]); vtmpe = vxde * vxde; vrese = vrese + vtmpe;`. -/
def norm_L2sqr_body (x : Nat → α) (i : Nat) (a : NormAcc α) : NormAcc α :=
  let vx := vload x i
  let vxdo := vec_doubleo vx
  let vtmpo := vxdo * vxdo
  let vreso := a.vreso + vtmpo
  let vxde := vec_doublee vx
  let vtmpe := vxde * vxde
  let vrese := a.vrese + vtmpe
  { vreso := vreso, vrese := vrese }

/-- Source function `float fvec_norm_L2sqr_ref_ppc(const float* x, size_t d)`; the
accumulation in `double` and the final narrowing to `float` are exact on the carrier. -/
def fvec_norm_L2sqr_ref_ppc (x : Nat → α) (d : Nat) : α :=
  let base := (d / FLOAT_VEC_SIZE) * FLOAT_VEC_SIZE
  let a := forLoop 0 base FLOAT_VEC_SIZE (norm_L2sqr_body x) ⟨⟨0, 0⟩, ⟨0, 0⟩⟩
  let res := forLoop base d 1 (fun i res => res + x i * x i) 0
  res + a.vreso.e0 + a.vreso.e1 + a.vrese.e0 + a.vrese.e1

/-- The scalar loop that the comment in `fvec_norm_L2sqr_ref_ppc` documents as the original
code: `for (i = 0; i < d; i++) { res += x[i] * x[i]; }` from `res = 0`. -/
def fvec_norm_L2sqr_ref_original (x : Nat → α) (d : Nat) : α :=
  forLoop 0 d 1 (fun i res => res + x i * x i) 0

end Norm

/-! ## Intrinsic batch-4 inner product -/

section IntrinsicBatch

variable {α : Type} [Zero α] [Add α] [Mul α]

/-- The constant `sizeof(float)`. -/
def sizeof_float : Nat := 4

/-- The load `vec_xl(off, (float*) x)` at a byte offset `off` that is a multiple of
`sizeof(float)`: the four floats from element `off / sizeof(float)` on. -/
def vec_xl (off : Nat) (x : Nat → α) : V4 α := vload x (off / sizeof_float)

/-- Body of the vector loop of `fvec_inner_product_batch_4_ref_ippc`:
`vx = vec_xl((long)(i*sizeof(float)), (float*) x); vyK = vec_xl(.., (float*) yK);`
`vdK = vec_madd(vx, vyK, vdK)` for `K = 0 .. 3`. -/
def ippc_batch_4_body (x y0 y1 y2 y3 : Nat → α) (i : Nat) (v : VD4 α) : VD4 α :=
  let vx := vec_xl (i * sizeof_float) x
  let vy0 := vec_xl (i * sizeof_float) y0
  let vy1 := vec_xl (i * sizeof_float) y1
  let vy2 := vec_xl (i * sizeof_float) y2
  let vy3 := vec_xl (i * sizeof_float) y3
  { vd0 := vec_madd vx vy0 v.vd0
    vd1 := vec_madd vx vy1 v.vd1
    vd2 := vec_madd vx vy2 v.vd2
    vd3 := vec_madd vx vy3 v.vd3 }

/-- Source function `void fvec_inner_product_batch_4_ref_ippc(const float* x,`
`const float* y0, .., const float* y3, const size_t d, float& dis0, .., float& dis3)` of
`intrinsic/innerproduct.cc`. -/
def fvec_inner_product_batch_4_ref_ippc (x y0 y1 y2 y3 : Nat → α) (d : Nat) : Dis4 α :=
  let base := (d / FLOAT_VEC_SIZE) * FLOAT_VEC_SIZE
  let remainder := d % FLOAT_VEC_SIZE
  let v := forLoop 0 base FLOAT_VEC_SIZE (ippc_batch_4_body x y0 y1 y2 y3)
    ⟨V4.zero, V4.zero, V4.zero, V4.zero⟩
  let dis : Dis4 α :=
    { dis0 := v.vd0.e0 + v.vd0.e1 + v.vd0.e2 + v.vd0.e3
      dis1 := v.vd1.e0 + v.vd1.e1 + v.vd1.e2 + v.vd1.e3
      dis2 := v.vd2.e0 + v.vd2.e1 + v.vd2.e2 + v.vd2.e3
      dis3 := v.vd3.e0 + v.vd3.e1 + v.vd3.e2 + v.vd3.e3 }
  if remainder ≠ 0 then
    let s := forLoop base d 1 (inner_product_batch_4_tail_body x y0 y1 y2 y3) ⟨0, 0, 0, 0⟩
    { dis0 := dis.dis0 + s.d0
      dis1 := dis.dis1 + s.d1
      dis2 := dis.dis2 + s.d2
      dis3 := dis.dis3 + s.d3 }
  else dis

/-- The four scalar loops that the comment in `fvec_inner_product_batch_4_ref_ippc` documents
as the original code: `dK += x[i] * yK[i]` for `i < d`, then `disK = dK`. -/
def fvec_inner_product_batch_4_ref_original (x y0 y1 y2 y3 : Nat → α) (d : Nat) : Dis4 α :=
  let s := forLoop 0 d 1 (inner_product_batch_4_tail_body x y0 y1 y2 y3) ⟨0, 0, 0, 0⟩
  { dis0 := s.d0, dis1 := s.d1, dis2 := s.d2, dis3 := s.d3 }

end IntrinsicBatch

/-! ## Tier selection

The four branches of each tiered kernel as functions of their own, and the unroll factor
that the `if / else if` chain of the kernel selects. -/

section L2Tiers

variable {α : Type} [Zero α] [Add α] [Sub α] [Mul α]

/-- The code of `fvec_L2sqr_ref_ppc` with unroll factor 1:
the branch without unrolling (one accumulator). -/
def L2sqr_tier1 (x y : Nat → α) (d : Nat) : α :=
  let base := (d / FLOAT_VEC_SIZE) * FLOAT_VEC_SIZE
  let vres := forLoop 0 base FLOAT_VEC_SIZE (L2sqr_body1 x y) V4.zero
  let res := L2sqr_tail x y base d
  res + vres.e0 + vres.e1 + vres.e2 + vres.e3

/-- The code of `fvec_L2sqr_ref_ppc` with unroll factor 4:
the branch with four accumulators. -/
def L2sqr_tier4 (x y : Nat → α) (d : Nat) : α :=
  let factor := FLOAT_VEC_SIZE * 4
  let base := (d / factor) * factor
  let a := forLoop 0 base factor (L2sqr_body4 x y) Acc4.zero
  let res := L2sqr_tail x y base d
  let vres0 := a.vres0 + a.vres1
  let vres2 := a.vres2 + a.vres3
  let vres0 := vres0 + vres2
  res + (vres0.e0 + vres0.e1 + vres0.e2 + vres0.e3)

/-- The code of `fvec_L2sqr_ref_ppc` with unroll factor 8:
the branch with eight accumulators. -/
def L2sqr_tier8 (x y : Nat → α) (d : Nat) : α :=
  let factor := FLOAT_VEC_SIZE * 8
  let base := (d / factor) * factor
  let a := forLoop 0 base factor (L2sqr_body8 x y) Acc8.zero
  let res := L2sqr_tail x y base d
  let vres0 := a.vres0 + a.vres1
  let vres2 := a.vres2 + a.vres3
  let vres4 := a.vres4 + a.vres5
  let vres6 := a.vres6 + a.vres7
  let vres0 := vres0 + vres2
  let vres4 := vres4 + vres6
  let vres0 := vres0 + vres4
  res + (vres0.e0 + vres0.e1 + vres0.e2 + vres0.e3)

/-- The code of `fvec_L2sqr_ref_ppc` with unroll factor 16:
the branch with sixteen accumulators. -/
def L2sqr_tier16 (x y : Nat → α) (d : Nat) : α :=
  let factor := FLOAT_VEC_SIZE * 16
  let base := (d / factor) * factor
  let a := forLoop 0 base factor (L2sqr_body16 x y) Acc16.zero
  let res := L2sqr_tail x y base d
  let vres0 := a.vres0 + a.vres1
  let vres2 := a.vres2 + a.vres3
  let vres4 := a.vres4 + a.vres5
  let vres6 := a.vres6 + a.vres7
  let vres8 := a.vres8 + a.vres9
  let vres10 := a.vres10 + a.vres11
  let vres12 := a.vres12 + a.vres13
  let vres14 := a.vres14 + a.vres15
  let vres0 := vres0 + vres2
  let vres4 := vres4 + vres6
  let vres8 := vres8 + vres10
  let vres12 := vres12 + vres14
  let vres0 := vres0 + vres4
  let vres8 := vres8 + vres12
  let vres0 := vres0 + vres8
  res + (vres0.e0 + vres0.e1 + vres0.e2 + vres0.e3)

/-- The unroll factor that `fvec_L2sqr_ref_ppc` selects: the conditions of its `if / else if`
chain, `d < 32`, `d < 64 || d == 48`, `d < 128`, in source order. -/
def L2sqr_unroll_factor (d : Nat) : Nat :=
  if d < 32 then 1 else if d < 64 ∨ d = 48 then 4 else if d < 128 then 8 else 16

/-- The code of `fvec_L2sqr_ref_ppc` for a given unroll factor. -/
def L2sqr_tier (u : Nat) (x y : Nat → α) (d : Nat) : α :=
  if u = 1 then L2sqr_tier1 x y d
  else if u = 4 then L2sqr_tier4 x y d
  else if u = 8 then L2sqr_tier8 x y d
  else L2sqr_tier16 x y d

end L2Tiers

section InnerProductTiers

variable {α : Type} [Zero α] [Add α] [Mul α]

/-- The code of `fvec_inner_product_ref_ppc` with unroll factor 1:
the branch without unrolling (one accumulator). -/
def inner_product_tier1 (x y : Nat → α) (d : Nat) : α :=
  let nvec := d / FLOAT_VEC_SIZE
  let vres := forLoop 0 nvec 1 (fun i vres => vres + vidx x 0 i * vidx y 0 i) V4.zero
  let res := inner_product_tail x y (nvec * FLOAT_VEC_SIZE) d
  res + vres.e0 + vres.e1 + vres.e2 + vres.e3

/-- The code of `fvec_inner_product_ref_ppc` with unroll factor 4:
the branch with four accumulators. -/
def inner_product_tier4 (x y : Nat → α) (d : Nat) : α :=
  let base := (d / (FLOAT_VEC_SIZE * 4)) * (FLOAT_VEC_SIZE * 4)
  let a := forLoop 0 base (FLOAT_VEC_SIZE * 4) (inner_product_body4 x y) Acc4.zero
  let res := inner_product_tail x y base d
  let vres0 := a.vres0 + a.vres1
  let vres2 := a.vres2 + a.vres3
  let vres0 := vres0 + vres2
  res + (vres0.e0 + vres0.e1 + vres0.e2 + vres0.e3)

/-- The code of `fvec_inner_product_ref_ppc` with unroll factor 8:
the branch with eight accumulators. -/
def inner_product_tier8 (x y : Nat → α) (d : Nat) : α :=
  let base := (d / (FLOAT_VEC_SIZE * 8)) * (FLOAT_VEC_SIZE * 8)
  let a := forLoop 0 base (FLOAT_VEC_SIZE * 8) (inner_product_body8 x y) Acc8.zero
  let res := inner_product_tail x y base d
  let vres0 := a.vres0 + a.vres1
  let vres0 := vres0 + a.vres2
  let vres0 := vres0 + a.vres3
  let vres0 := vres0 + a.vres4
  let vres0 := vres0 + a.vres5
  let vres0 := vres0 + a.vres6
  let vres0 := vres0 + a.vres7
  res + (vres0.e0 + vres0.e1 + vres0.e2 + vres0.e3)

/-- The code of `fvec_inner_product_ref_ppc` with unroll factor 16:
the branch with sixteen accumulators. -/
def inner_product_tier16 (x y : Nat → α) (d : Nat) : α :=
  let base := (d / (FLOAT_VEC_SIZE * 16)) * (FLOAT_VEC_SIZE * 16)
  let a := forLoop 0 base (FLOAT_VEC_SIZE * 16) (inner_product_body16 x y) Acc16.zero
  let res := inner_product_tail x y base d
  let vres0 := a.vres0 + a.vres1
  let vres0 := vres0 + a.vres2
  let vres0 := vres0 + a.vres3
  let vres0 := vres0 + a.vres4
  let vres0 := vres0 + a.vres5
  let vres0 := vres0 + a.vres6
  let vres0 := vres0 + a.vres7
  let vres0 := vres0 + a.vres8
  let vres0 := vres0 + a.vres9
  let vres0 := vres0 + a.vres10
  let vres0 := vres0 + a.vres11
  let vres0 := vres0 + a.vres12
  let vres0 := vres0 + a.vres13
  let vres0 := vres0 + a.vres14
  let vres0 := vres0 + a.vres15
  res + (vres0.e0 + vres0.e1 + vres0.e2 + vres0.e3)

/-- The unroll factor that `fvec_inner_product_ref_ppc` selects: the conditions of its `if / else if`
chain, `d < 32`, `d < 64`, `d < 128`, in source order. -/
def inner_product_unroll_factor (d : Nat) : Nat :=
  if d < 32 then 1 else if d < 64 then 4 else if d < 128 then 8 else 16

/-- The code of `fvec_inner_product_ref_ppc` for a given unroll factor. -/
def inner_product_tier (u : Nat) (x y : Nat → α) (d : Nat) : α :=
  if u = 1 then inner_product_tier1 x y d
  else if u = 4 then inner_product_tier4 x y d
  else if u = 8 then inner_product_tier8 x y d
  else inner_product_tier16 x y d

end InnerProductTiers

section IntrinsicTiers

variable {α : Type} [Zero α] [Add α] [Sub α] [Mul α]

/-- The code of `fvec_inner_product_ref_ippc` with unroll factor 1:
the branch without unrolling (one accumulator). -/
def ippc_tier1 (x y : Nat → α) (d : Nat) : α :=
  let base := (d / 4) * 4
  let vres := forLoop 0 base 4 (ippc_body1 x y) V4.zero
  let res := ippc_tail x y base d
  res + (vec_extract vres 0 + vec_extract vres 1 + vec_extract vres 2 + vec_extract vres 3)

/-- The code of `fvec_inner_product_ref_ippc` with unroll factor 4:
the branch with four accumulators. -/
def ippc_tier4 (x y : Nat → α) (d : Nat) : α :=
  let factor := 16
  let base := (d / factor) * factor
  let a := forLoop 0 base factor (ippc_body4 x y) Acc4.zero
  let res := ippc_tail x y base d
  let vsum := vec_add (vec_add a.vres0 a.vres1) (vec_add a.vres2 a.vres3)
  res + (vec_extract vsum 0 + vec_extract vsum 1 + vec_extract vsum 2 + vec_extract vsum 3)

/-- The code of `fvec_inner_product_ref_ippc` with unroll factor 8:
the branch with eight accumulators. -/
def ippc_tier8 (x y : Nat → α) (d : Nat) : α :=
  let factor := 32
  let base := (d / factor) * factor
  let a := forLoop 0 base factor (ippc_body8 x y) Acc8.zero
  let vsum0 := vec_add a.vres0 a.vres1
  let vsum1 := vec_add a.vres2 a.vres3
  let vsum2 := vec_add a.vres4 a.vres5
  let vsum3 := vec_add a.vres6 a.vres7
  let vsum0 := vec_add vsum0 vsum1
  let vsum2 := vec_add vsum2 vsum3
  let vsum := vec_add vsum0 vsum2
  let res := ippc_tail x y base d
  res + (vec_extract vsum 0 + vec_extract vsum 1 + vec_extract vsum 2 + vec_extract vsum 3)

/-- The code of `fvec_inner_product_ref_ippc` with unroll factor 16:
the branch with sixteen accumulators. -/
def ippc_tier16 (x y : Nat → α) (d : Nat) : α :=
  let factor := 64
  let base := (d / factor) * factor
  let a := forLoop 0 base factor (ippc_body16 x y) Acc16.zero
  let vsum0 := vec_add a.vres0 a.vres1
  let vsum1 := vec_add a.vres2 a.vres3
  let vsum2 := vec_add a.vres4 a.vres5
  let vsum3 := vec_add a.vres6 a.vres7
  let vsum4 := vec_add a.vres8 a.vres9
  let vsum5 := vec_add a.vres10 a.vres11
  let vsum6 := vec_add a.vres12 a.vres13
  let vsum7 := vec_add a.vres14 a.vres15
  let vsum0 := vec_add vsum0 vsum1
  let vsum2 := vec_add vsum2 vsum3
  let vsum4 := vec_add vsum4 vsum5
  let vsum6 := vec_add vsum6 vsum7
  let vsum0 := vec_add vsum0 vsum2
  let vsum4 := vec_add vsum4 vsum6
  let vsum := vec_add vsum0 vsum4
  let res := ippc_tail x y base d
  res + (vec_extract vsum 0 + vec_extract vsum 1 + vec_extract vsum 2 + vec_extract vsum 3)

/-- The unroll factor that `fvec_inner_product_ref_ippc` selects: the conditions of its `if / else if`
chain, `d < 32`, `d < 64 || d == 48`, `d < 128`, in source order. -/
def ippc_unroll_factor (d : Nat) : Nat :=
  if d < 32 then 1 else if d < 64 ∨ d = 48 then 4 else if d < 128 then 8 else 16

/-- The code of `fvec_inner_product_ref_ippc` for a given unroll factor. -/
def ippc_tier (u : Nat) (x y : Nat → α) (d : Nat) : α :=
  if u = 1 then ippc_tier1 x y d
  else if u = 4 then ippc_tier4 x y d
  else if u = 8 then ippc_tier8 x y d
  else ippc_tier16 x y d

end IntrinsicTiers

/-! ## `main.cc`: `load_vectors_from_csv_safe`

The file `dataset/train.csv` is the input: `none` when it cannot be opened, otherwise its
characters. `exit(1)` is an error result. The standard-library conversion `std::stof` is a
parameter `stof`, its two exceptions being error results. -/

deriving instance DecidableEq for Except

/-- The exceptions `std::stof` throws. -/
inductive StofException where
  | invalid_argument
  | out_of_range
deriving DecidableEq

/-- The fatal errors of `load_vectors_from_csv_safe`, one per `exit(1)`, with the numbers
and the cell that the message printed before the exit cites. -/
inductive LoadError where
  | could_not_open
  | invalid_number_format (line_number : Nat) (cell : List Char)
  | number_out_of_range (line_number : Nat) (cell : List Char)
  | inconsistent_row_size (line_number expected got : Nat)
deriving DecidableEq

/-- The characters of a stream before its first `delim`, and the stream after that
delimiter (empty if there is none). -/
def takeUntil (delim : Char) : List Char → List Char × List Char
  | [] => ([], [])
  | c :: cs =>
    if c = delim then ([], cs)
    else (c :: (takeUntil delim cs).1, (takeUntil delim cs).2)

/-- The call `std::getline(stream, str, delim)`: at the end of the stream it fails (`none`);
otherwise it extracts the characters up to the next delimiter, which it discards, or up to
the end of the stream, and succeeds with the string and the remaining stream. -/
def getline (delim : Char) (stream : List Char) : Option (List Char × List Char) :=
  match stream with
  | [] => none
  | _ :: _ => some (takeUntil delim stream)

/-- The loop `while (std::getline(stream, str, delim)) { body }`, the body either updating
the state or exiting with an error. One unit of fuel per iteration; the length of the
stream is enough, since every successful `getline` consumes a character. -/
def whileGetline {σ ε : Type} (delim : Char) (body : List Char → σ → Except ε σ) :
    Nat → List Char → σ → Except ε σ
  | 0, _, st => .ok st
  | fuel + 1, stream, st =>
    match getline delim stream with
    | none => .ok st
    | some (str, rest) =>
      match body str st with
      | .error e => .error e
      | .ok st' => whileGetline delim body fuel rest st'

/-- The call `line.find_first_not_of(chars)`: the position of the first character of `line`
that is not in `chars`, `none` for `std::string::npos`. -/
def find_first_not_of (chars : List Char) : List Char → Option Nat
  | [] => none
  | c :: cs =>
    if c ∈ chars then (find_first_not_of chars cs).map (fun k => k + 1) else some 0

/-- The test `line.empty() || line.find_first_not_of(" \t\r\n") == std::string::npos` that
makes the loader skip a line. -/
def is_blank (line : List Char) : Bool :=
  line.isEmpty || (find_first_not_of [' ', '\t', '\r', '\n'] line).isNone

/-- The variables of the line loop of `load_vectors_from_csv_safe`. -/
structure LoadState (α : Type) where
  data : List (List α)
  line_number : Nat
  vector_dim : Nat

section Loader

variable {α : Type}

/-- Body of the cell loop: `row_data.push_back(std::stof(cell))`, the two `catch` clauses
exiting with the line number and the cell. -/
def parse_cell (stof : List Char → Except StofException α) (line_number : Nat)
    (cell : List Char) (row_data : List α) : Except LoadError (List α) :=
  match stof cell with
  | .ok v => .ok (row_data ++ [v])
  | .error .invalid_argument => .error (.invalid_number_format line_number cell)
  | .error .out_of_range => .error (.number_out_of_range line_number cell)

/-- The cell loop `std::stringstream ss(line); while (std::getline(ss, cell, ',')) ..`
from an empty `row_data`. -/
def parse_row (stof : List Char → Except StofException α) (line_number : Nat)
    (line : List Char) : Except LoadError (List α) :=
  whileGetline ',' (parse_cell stof line_number) line.length line []

/-- Body of the line loop of `load_vectors_from_csv_safe`. -/
def load_line (stof : List Char → Except StofException α) (line : List Char)
    (st : LoadState α) : Except LoadError (LoadState α) :=
  let st := { st with line_number := st.line_number + 1 }
  if is_blank line then .ok st
  else
    match parse_row stof st.line_number line with
    | .error e => .error e
    | .ok row_data =>
      if st.data.isEmpty then
        if row_data.isEmpty then .ok st
        else .ok { st with vector_dim := row_data.length, data := st.data ++ [row_data] }
      else if row_data.length ≠ st.vector_dim then
        .error (.inconsistent_row_size st.line_number st.vector_dim row_data.length)
      else .ok { st with data := st.data ++ [row_data] }

/-- Source function
`std::vector<std::vector<float>> load_vectors_from_csv_safe(size_t &vector_dim)`: the
result is the returned `data` together with the final value of the reference parameter
`vector_dim`. -/
def load_vectors_from_csv_safe (stof : List Char → Except StofException α)
    (file : Option (List Char)) : Except LoadError (List (List α) × Nat) :=
  match file with
  | none => .error .could_not_open
  | some content =>
    match whileGetline '\n' (load_line stof) content.length content ⟨[], 0, 0⟩ with
    | .error e => .error e
    | .ok st => .ok (st.data, st.vector_dim)

/-- All the strings that successive `getline` calls extract from a stream (proof device
and vocabulary of the statements): the lines of a file for `'\n'`, the fields of a line
for `','`. A final delimiter does not start another string. -/
def split_on (delim : Char) : List Char → List (List Char)
  | [] => []
  | c :: cs =>
    if c = delim then [] :: split_on delim cs
    else
      match split_on delim cs with
      | [] => [[c]]
      | s :: ss => (c :: s) :: ss

/-- Running a loop body over a list of strings until the first error (proof device). -/
def runStrings {σ ε : Type} (body : List Char → σ → Except ε σ) :
    List (List Char) → σ → Except ε σ
  | [], st => .ok st
  | s :: ss, st =>
    match body s st with
    | .error e => .error e
    | .ok st' => runStrings body ss st'

end Loader

/-- The physical lines of a file. -/
def file_lines (content : List Char) : List (List Char) := split_on '\n' content

/-- A stand-in for `std::stof` on the cells of the examples: a non-empty string of decimal
digits converts to its value, any other cell is `std::invalid_argument`. It agrees with
`std::stof` on digit strings and on cells such as `x` that start no number; it is not
meant as a model of `std::stof` on other cells. -/
def stof_decimal (cell : List Char) : Except StofException Int :=
  if cell.isEmpty || !cell.all Char.isDigit then .error .invalid_argument
  else .ok (cell.foldl (fun n c => 10 * n + ((c.toNat - 48 : Nat) : Int)) 0)

/-- A file of three blank lines: whitespace, empty, spaces. -/
def csv_blank_only : List Char := " \t\r\n\n  \n".toList

/-- The vector `x` with its first `d` elements permuted by `p`: element `i < d` is
`x[p(i)]`, the elements from `d` on are unchanged. -/
def permute_vec {β : Type} (d : Nat) (p : Equiv.Perm (Fin d)) (x : Nat → β) : Nat → β :=
  fun i => if h : i < d then x (p ⟨i, h⟩).val else x i

/-! ## Collapsing the accumulators

The statements between the loops and the `return` of each multi-accumulator branch of
`fvec_L2sqr_ref_ppc` and `fvec_inner_product_ref_ppc`, as functions of the accumulators
that the main loop left. Only `+` on registers is used, and no law of `+`. -/

section Reduce

variable {α : Type} [Add α]

/-- Registers of an accumulator set, `vres0` first. -/
def Acc4.toList {β : Type} (a : Acc4 β) : List (V4 β) := [a.vres0, a.vres1, a.vres2, a.vres3]

/-- Registers of an accumulator set, `vres0` first. -/
def Acc8.toList {β : Type} (a : Acc8 β) : List (V4 β) :=
  [a.vres0, a.vres1, a.vres2, a.vres3, a.vres4, a.vres5, a.vres6, a.vres7]

/-- Registers of an accumulator set, `vres0` first. -/
def Acc16.toList {β : Type} (a : Acc16 β) : List (V4 β) :=
  [a.vres0, a.vres1, a.vres2, a.vres3, a.vres4, a.vres5, a.vres6, a.vres7,
   a.vres8, a.vres9, a.vres10, a.vres11, a.vres12, a.vres13, a.vres14, a.vres15]

/-- Reduction of the unroll-factor-4 branch of `fvec_L2sqr_ref_ppc`:
`vres0 += vres1; vres2 += vres3; vres0 += vres2;`, the value of `vres0` afterwards. -/
def L2sqr_reduce4 (a : Acc4 α) : V4 α :=
  let vres0 := a.vres0 + a.vres1
  let vres2 := a.vres2 + a.vres3
  let vres0 := vres0 + vres2
  vres0

/-- Reduction of the unroll-factor-8 branch of `fvec_L2sqr_ref_ppc`:
`vres0 += vres1; vres2 += vres3; vres4 += vres5; vres6 += vres7; vres0 += vres2;`
`vres4 += vres6; vres0 += vres4;`, the value of `vres0` afterwards. -/
def L2sqr_reduce8 (a : Acc8 α) : V4 α :=
  let vres0 := a.vres0 + a.vres1
  let vres2 := a.vres2 + a.vres3
  let vres4 := a.vres4 + a.vres5
  let vres6 := a.vres6 + a.vres7
  let vres0 := vres0 + vres2
  let vres4 := vres4 + vres6
  let vres0 := vres0 + vres4
  vres0

/-- Reduction of the unroll-factor-16 branch of `fvec_L2sqr_ref_ppc`: eight statements
`vres(2K) += vres(2K+1)`, then `vres0 += vres2; vres4 += vres6; vres8 += vres10;`
`vres12 += vres14;`, then `vres0 += vres4; vres8 += vres12;`, then `vres0 += vres8;`. -/
def L2sqr_reduce16 (a : Acc16 α) : V4 α :=
  let vres0 := a.vres0 + a.vres1
  let vres2 := a.vres2 + a.vres3
  let vres4 := a.vres4 + a.vres5
  let vres6 := a.vres6 + a.vres7
  let vres8 := a.vres8 + a.vres9
  let vres10 := a.vres10 + a.vres11
  let vres12 := a.vres12 + a.vres13
  let vres14 := a.vres14 + a.vres15
  let vres0 := vres0 + vres2
  let vres4 := vres4 + vres6
  let vres8 := vres8 + vres10
  let vres12 := vres12 + vres14
  let vres0 := vres0 + vres4
  let vres8 := vres8 + vres12
  let vres0 := vres0 + vres8
  vres0

/-- Reduction of the unroll-factor-4 branch of `fvec_inner_product_ref_ppc`:
`vres0 += vres1; vres2 += vres3; vres0 += vres2;`, the value of `vres0` afterwards. -/
def inner_product_reduce4 (a : Acc4 α) : V4 α :=
  let vres0 := a.vres0 + a.vres1
  let vres2 := a.vres2 + a.vres3
  let vres0 := vres0 + vres2
  vres0

/-- Reduction of the unroll-factor-8 branch of `fvec_inner_product_ref_ppc`:
`vres0 += vres1; vres0 += vres2; .. vres0 += vres7;`, the value of `vres0` afterwards. -/
def inner_product_reduce8 (a : Acc8 α) : V4 α :=
  let vres0 := a.vres0 + a.vres1
  let vres0 := vres0 + a.vres2
  let vres0 := vres0 + a.vres3
  let vres0 := vres0 + a.vres4
  let vres0 := vres0 + a.vres5
  let vres0 := vres0 + a.vres6
  let vres0 := vres0 + a.vres7
  vres0

/-- Reduction of the unroll-factor-16 branch of `fvec_inner_product_ref_ppc`:
`vres0 += vres1; vres0 += vres2; .. vres0 += vres15;`, the value of `vres0` afterwards. -/
def inner_product_reduce16 (a : Acc16 α) : V4 α :=
  let vres0 := a.vres0 + a.vres1
  let vres0 := vres0 + a.vres2
  let vres0 := vres0 + a.vres3
  let vres0 := vres0 + a.vres4
  let vres0 := vres0 + a.vres5
  let vres0 := vres0 + a.vres6
  let vres0 := vres0 + a.vres7
  let vres0 := vres0 + a.vres8
  let vres0 := vres0 + a.vres9
  let vres0 := vres0 + a.vres10
  let vres0 := vres0 + a.vres11
  let vres0 := vres0 + a.vres12
  let vres0 := vres0 + a.vres13
  let vres0 := vres0 + a.vres14
  let vres0 := vres0 + a.vres15
  vres0

end Reduce

/-- One combining stage of a pairwise reduction: neighbours are combined two by two, and the
list is half as long afterwards. -/
def combine_pairs {β : Type} (add : β → β → β) : List β → List β
  | a :: b :: rest => add a b :: combine_pairs add rest
  | rest => rest

/-- The balanced pairwise reduction tree with the given number of combining stages. -/
def reduction_tree {β : Type} (add : β → β → β) : Nat → List β → List β
  | 0, l => l
  | stages + 1, l => reduction_tree add stages (combine_pairs add l)

/-- The linear one-by-one fold `(..((a0 + a1) + a2) + ..) + a(N-1)`; it has `N - 1`
combining stages, each waiting for the one before. -/
def linear_fold {β : Type} (add : β → β → β) : List β → List β
  | [] => []
  | a :: rest => [rest.foldl add a]

/-- Formal expressions in atoms, `0`, `+`, `-` and `*`: a carrier on which the operations
satisfy no law, so that two computations agree only if they combine the same operands in
the same order and grouping. -/
inductive Term where
  | atom (n : Nat)
  | zero
  | add (a b : Term)
  | sub (a b : Term)
  | mul (a b : Term)
deriving DecidableEq

instance : Zero Term := ⟨Term.zero⟩
instance : Add Term := ⟨Term.add⟩
instance : Sub Term := ⟨Term.sub⟩
instance : Mul Term := ⟨Term.mul⟩

/-- The vector whose element `i` is the atom `2 i`. -/
def atoms_even : Nat → Term := fun i => Term.atom (2 * i)

/-- The vector whose element `i` is the atom `2 i + 1`. -/
def atoms_odd : Nat → Term := fun i => Term.atom (2 * i + 1)

/-- The dot product of `fvec_L2sqr_ny_transposed_ref_ppc` as the plain loop
`for (j = 0; j < d; j++) dp += x[j] * y[i + j * d_offset];` from `dp = 0`. -/
def transposed_dp_naive {α : Type} [Zero α] [Add α] [Mul α] (x y : Nat → α)
    (d d_offset i : Nat) : α :=
  forLoop 0 d 1 (fun j dp => dp + x j * y (i + j * d_offset)) 0


/-! ## Bounds-checked reads

The kernels are written over an arbitrary carrier with `0`, `+`, `-`, `*`. Run over the
carrier `Checked β`, with the buffers read by `checked_read`, they are the kernels with
every element access bounds-checked: a read outside a buffer yields `out_of_bounds`, and
every operation that takes such an operand yields it again. -/

/-- A value computed from bounds-checked reads: `none` once an element outside its buffer
has been read. -/
def Checked (β : Type) : Type := Option β

namespace Checked

variable {β : Type}

/-- A value computed from in-bounds reads only. -/
def ok (a : β) : Checked β := some a

/-- The result of a read outside the buffer. -/
def out_of_bounds : Checked β := none

/-- A binary operation on checked values: defined when both operands are. -/
def lift2 (f : β → β → β) : Checked β → Checked β → Checked β
  | some a, some b => some (f a b)
  | _, _ => none

instance [DecidableEq β] : DecidableEq (Checked β) := inferInstanceAs (DecidableEq (Option β))
instance [Zero β] : Zero (Checked β) := ⟨ok 0⟩
instance [Add β] : Add (Checked β) := ⟨lift2 (· + ·)⟩
instance [Sub β] : Sub (Checked β) := ⟨lift2 (· - ·)⟩
instance [Mul β] : Mul (Checked β) := ⟨lift2 (· * ·)⟩
instance [OfNat β 2] : OfNat (Checked β) 2 := ⟨ok 2⟩

end Checked

/-- A buffer that holds exactly the elements of `xs`, read with a bounds check. -/
def checked_read {β : Type} (xs : List β) : Nat → Checked β := fun i => xs[i]?

/-- The same buffer as a memory without bounds: the elements of `xs`, then zeros. -/
def unchecked_read {β : Type} [Zero β] (xs : List β) : Nat → β := fun i => xs.getD i 0

/-- Lane-wise image of a register. -/
def V4.map {β γ : Type} (f : β → γ) (v : V4 β) : V4 γ := ⟨f v.e0, f v.e1, f v.e2, f v.e3⟩

/-- Register-wise image of an accumulator set. -/
def Acc4.map {β γ : Type} (f : β → γ) (a : Acc4 β) : Acc4 γ :=
  ⟨a.vres0.map f, a.vres1.map f, a.vres2.map f, a.vres3.map f⟩

/-- Register-wise image of an accumulator set. -/
def Acc8.map {β γ : Type} (f : β → γ) (a : Acc8 β) : Acc8 γ :=
  ⟨a.vres0.map f, a.vres1.map f, a.vres2.map f, a.vres3.map f,
   a.vres4.map f, a.vres5.map f, a.vres6.map f, a.vres7.map f⟩

/-- Register-wise image of an accumulator set. -/
def Acc16.map {β γ : Type} (f : β → γ) (a : Acc16 β) : Acc16 γ :=
  ⟨a.vres0.map f, a.vres1.map f, a.vres2.map f, a.vres3.map f,
   a.vres4.map f, a.vres5.map f, a.vres6.map f, a.vres7.map f,
   a.vres8.map f, a.vres9.map f, a.vres10.map f, a.vres11.map f,
   a.vres12.map f, a.vres13.map f, a.vres14.map f, a.vres15.map f⟩

/-! ## Kernels with output parameters, on an explicit memory

The memory holds one buffer per pointer or reference parameter of a kernel. A kernel reads
with `load`, writes with `store`, and every `store` is entered in the log `stores`. -/

/-- A memory of buffers named by `B`, with the log of the stores made so far (buffer and
element index of each, oldest first). -/
structure Mem (B : Type) (α : Type) where
  cell : B → Nat → α
  stores : List (B × Nat)

namespace Mem

variable {B : Type} {α : Type}

/-- The buffer `b` as the kernel reads it. -/
def load (m : Mem B α) (b : B) : Nat → α := m.cell b

/-- The assignment `b[i] = v`. -/
def store [DecidableEq B] (m : Mem B α) (b : B) (i : Nat) (v : α) : Mem B α :=
  { cell := fun c => if c = b then Function.update (m.cell c) i v else m.cell c
    stores := m.stores ++ [(b, i)] }

end Mem

/-- The pointer parameters of `fvec_L2sqr_ny_transposed_ref_ppc`. -/
inductive TransposedBuf where
  | dis
  | x
  | y
  | y_sqlen
deriving DecidableEq

/-- The pointer and reference parameters of the batch-4 kernels; a reference parameter
`float& disK` is a buffer of which element `0` is used. -/
inductive Batch4Buf where
  | x
  | y0
  | y1
  | y2
  | y3
  | dis0
  | dis1
  | dis2
  | dis3
deriving DecidableEq

section OnMem

variable {α : Type} [Zero α] [Add α] [Sub α] [Mul α]

/-- Source function `fvec_L2sqr_ny_transposed_ref_ppc` on an explicit memory: the squared
norm of `x` is computed first, then iteration `i` of the `ny` loop reads `x`, `y` and
`y_sqlen[i]` from the memory as it is then and executes
`dis[i] = x_sqlen + y_sqlen[i] - 2 * dp;`. -/
def fvec_L2sqr_ny_transposed_ref_ppc_mem [OfNat α 2] (m : Mem TransposedBuf α)
    (d d_offset ny : Nat) : Mem TransposedBuf α :=
  let x_sqlen := transposed_x_sqlen (m.load .x) d
  forLoop 0 ny 1 (fun i m =>
    let dp := transposed_dp (m.load .x) (m.load .y) d d_offset i
    m.store .dis i (x_sqlen + m.load .y_sqlen i - 2 * dp)) m

/-- Source function `fvec_L2sqr_batch_4_ref_ppc` on an explicit memory: both loops work on
local variables, then the four statements `disK = vdK[0] + vdK[1] + vdK[2] + vdK[3] + dK;`
are executed. -/
def fvec_L2sqr_batch_4_ref_ppc_mem (m : Mem Batch4Buf α) (d : Nat) : Mem Batch4Buf α :=
  let base := (d / FLOAT_VEC_SIZE) * FLOAT_VEC_SIZE
  let v := forLoop 0 base FLOAT_VEC_SIZE
    (L2sqr_batch_4_body (m.load .x) (m.load .y0) (m.load .y1) (m.load .y2) (m.load .y3))
    ⟨V4.zero, V4.zero, V4.zero, V4.zero⟩
  let s := forLoop base d 1
    (L2sqr_batch_4_tail_body (m.load .x) (m.load .y0) (m.load .y1) (m.load .y2) (m.load .y3))
    ⟨0, 0, 0, 0⟩
  let m := m.store .dis0 0 (v.vd0.e0 + v.vd0.e1 + v.vd0.e2 + v.vd0.e3 + s.d0)
  let m := m.store .dis1 0 (v.vd1.e0 + v.vd1.e1 + v.vd1.e2 + v.vd1.e3 + s.d1)
  let m := m.store .dis2 0 (v.vd2.e0 + v.vd2.e1 + v.vd2.e2 + v.vd2.e3 + s.d2)
  let m := m.store .dis3 0 (v.vd3.e0 + v.vd3.e1 + v.vd3.e2 + v.vd3.e3 + s.d3)
  m

end OnMem

section OnMemInnerProduct

variable {α : Type} [Zero α] [Add α] [Mul α]

/-- Source function `fvec_inner_product_batch_4_ref_ppc` on an explicit memory: the vector
loop works on local variables, the four statements `disK = vdK[0] + .. + vdK[3];` follow,
and if `remainder != 0` the scalar loop is run on local variables and the four statements
`disK += dK;` are executed. -/
def fvec_inner_product_batch_4_ref_ppc_mem (m : Mem Batch4Buf α) (d : Nat) :
    Mem Batch4Buf α :=
  let base := (d / FLOAT_VEC_SIZE) * FLOAT_VEC_SIZE
  let remainder := d % FLOAT_VEC_SIZE
  let v := forLoop 0 base FLOAT_VEC_SIZE
    (inner_product_batch_4_body (m.load .x) (m.load .y0) (m.load .y1) (m.load .y2)
      (m.load .y3))
    ⟨V4.zero, V4.zero, V4.zero, V4.zero⟩
  let m := m.store .dis0 0 (v.vd0.e0 + v.vd0.e1 + v.vd0.e2 + v.vd0.e3)
  let m := m.store .dis1 0 (v.vd1.e0 + v.vd1.e1 + v.vd1.e2 + v.vd1.e3)
  let m := m.store .dis2 0 (v.vd2.e0 + v.vd2.e1 + v.vd2.e2 + v.vd2.e3)
  let m := m.store .dis3 0 (v.vd3.e0 + v.vd3.e1 + v.vd3.e2 + v.vd3.e3)
  if remainder ≠ 0 then
    let s := forLoop base d 1
      (inner_product_batch_4_tail_body (m.load .x) (m.load .y0) (m.load .y1) (m.load .y2)
        (m.load .y3))
      ⟨0, 0, 0, 0⟩
    let m := m.store .dis0 0 (m.load .dis0 0 + s.d0)
    let m := m.store .dis1 0 (m.load .dis1 0 + s.d1)
    let m := m.store .dis2 0 (m.load .dis2 0 + s.d2)
    let m := m.store .dis3 0 (m.load .dis3 0 + s.d3)
    m
  else m

/-- Source function `fvec_inner_product_batch_4_ref_ippc` on an explicit memory: as
`fvec_inner_product_batch_4_ref_ppc_mem`, with the vector loop of the intrinsic file. -/
def fvec_inner_product_batch_4_ref_ippc_mem (m : Mem Batch4Buf α) (d : Nat) :
    Mem Batch4Buf α :=
  let base := (d / FLOAT_VEC_SIZE) * FLOAT_VEC_SIZE
  let remainder := d % FLOAT_VEC_SIZE
  let v := forLoop 0 base FLOAT_VEC_SIZE
    (ippc_batch_4_body (m.load .x) (m.load .y0) (m.load .y1) (m.load .y2) (m.load .y3))
    ⟨V4.zero, V4.zero, V4.zero, V4.zero⟩
  let m := m.store .dis0 0 (v.vd0.e0 + v.vd0.e1 + v.vd0.e2 + v.vd0.e3)
  let m := m.store .dis1 0 (v.vd1.e0 + v.vd1.e1 + v.vd1.e2 + v.vd1.e3)
  let m := m.store .dis2 0 (v.vd2.e0 + v.vd2.e1 + v.vd2.e2 + v.vd2.e3)
  let m := m.store .dis3 0 (v.vd3.e0 + v.vd3.e1 + v.vd3.e2 + v.vd3.e3)
  if remainder ≠ 0 then
    let s := forLoop base d 1
      (inner_product_batch_4_tail_body (m.load .x) (m.load .y0) (m.load .y1) (m.load .y2)
        (m.load .y3))
      ⟨0, 0, 0, 0⟩
    let m := m.store .dis0 0 (m.load .dis0 0 + s.d0)
    let m := m.store .dis1 0 (m.load .dis1 0 + s.d1)
    let m := m.store .dis2 0 (m.load .dis2 0 + s.d2)
    let m := m.store .dis3 0 (m.load .dis3 0 + s.d3)
    m
  else m

end OnMemInnerProduct

/-! ## `main.cc`: the custom test

The loop of `main` that compares the scalar and the vectorized result pair by pair. A
`float` is an element of a linearly ordered ring `α`; the trackers that start at minus or
plus infinity are elements of `WithBot α` and `WithTop α`. The four result files are
lists of rows (the header lines and the number formats are left out). -/

/-- The type `int32_t`. -/
abbrev int32_t : Type := {z : Int // -2147483648 ≤ z ∧ z ≤ 2147483647}

/-- The indices into `cmd_flags.run_func_flag` that the custom test consults. -/
inductive FuncId where
  | FVEC_L2SQR_REF
  | FVEC_INNER_PRODUCT_REF
  | FVEC_L1_REF
  | COSINE_DISTANCE_REF
  | JACCARD_DISTANCE_REF
deriving DecidableEq

/-- What the custom test uses and the embedded files do not define: the scalar references
of namespace `base`, the kernels `fvec_L1_ref_ppc`, `cosine_distance_ref_ppc` and
`jaccard_distance_ref_ppc`, and the reading of a `float` as an `int32_t` through the union
`{ float f; int32_t i; }`. -/
structure CustomTestEnv (α : Type) where
  base_fvec_L2sqr_ref : (Nat → α) → (Nat → α) → Nat → α
  base_fvec_inner_product_ref : (Nat → α) → (Nat → α) → Nat → α
  base_fvec_L1_ref : (Nat → α) → (Nat → α) → Nat → α
  fvec_L1_ref_ppc : (Nat → α) → (Nat → α) → Nat → α
  base_cosine_distance_ref : (Nat → α) → (Nat → α) → Nat → α
  cosine_distance_ref_ppc : (Nat → α) → (Nat → α) → Nat → α
  base_jaccard_distance_ref : (Nat → α) → (Nat → α) → Nat → α
  jaccard_distance_ref_ppc : (Nat → α) → (Nat → α) → Nat → α
  float_bits : α → int32_t

/-- A row of `custom_results_file`: `i`, `u.i`, `v.i`, `scalar`, `vector`, `sv_iulps`. -/
structure ParityRecord (α : Type) where
  index : Nat
  scalar_hex : int32_t
  vector_hex : int32_t
  scalar_val : α
  vector_val : α
  sv_iulps : Int
deriving DecidableEq

/-- A row of `mismatch_results_file`: the columns of a parity record, then the elements
`x[0 .. array_size)` and `y[0 .. array_size)`. -/
structure MismatchRecord (α : Type) where
  row : ParityRecord α
  x_vector : List α
  y_vector : List α
deriving DecidableEq

/-- The variables that the loop of the custom test updates, and the four result files. -/
structure CustomTestState (α : Type) where
  max_scalar : WithBot α
  min_scalar : WithTop α
  max_vector : WithBot α
  min_vector : WithTop α
  max_diff : α
  max_diff_index : Nat
  custom_results_file : List (ParityRecord α)
  mismatch_results_file : List (MismatchRecord α)
  scalar_products_file : List (Nat × int32_t × α)
  vector_products_file : List (Nat × int32_t × α)

/-- `std::max(a, b)`, which is `(a < b) ? b : a`. -/
def std_max {β : Type} [LinearOrder β] (a b : β) : β := if a < b then b else a

/-- `std::min(a, b)`, which is `(b < a) ? b : a`. -/
def std_min {β : Type} [LinearOrder β] (a b : β) : β := if b < a then b else a

section CustomTest

variable {α : Type} [LinearOrderedRing α]

/-- The state before the loop: `max_scalar = -infinity`, `min_scalar = infinity`,
`max_vector = -infinity`, `min_vector = infinity`, `max_diff = 0.0f`,
`max_diff_index = 0`, and no row written. -/
def custom_test_init : CustomTestState α :=
  { max_scalar := ⊥
    min_scalar := ⊤
    max_vector := ⊥
    min_vector := ⊤
    max_diff := 0
    max_diff_index := 0
    custom_results_file := []
    mismatch_results_file := []
    scalar_products_file := []
    vector_products_file := [] }

/-- The `if / else if` chain of the loop body that computes `scalar` and `vector` with the
selected pair of functions, or ends `main` with `return -1` when none is selected. -/
def custom_test_values (E : CustomTestEnv α) (run_func_flag : FuncId → Bool)
    (x y : Nat → α) (array_size : Nat) : Except Int (α × α) :=
  if run_func_flag .FVEC_L2SQR_REF then
    .ok (E.base_fvec_L2sqr_ref x y array_size, fvec_L2sqr_ref_ppc x y array_size)
  else if run_func_flag .FVEC_INNER_PRODUCT_REF then
    .ok (E.base_fvec_inner_product_ref x y array_size,
      fvec_inner_product_ref_ppc x y array_size)
  else if run_func_flag .FVEC_L1_REF then
    .ok (E.base_fvec_L1_ref x y array_size, E.fvec_L1_ref_ppc x y array_size)
  else if run_func_flag .COSINE_DISTANCE_REF then
    .ok (E.base_cosine_distance_ref x y array_size, E.cosine_distance_ref_ppc x y array_size)
  else if run_func_flag .JACCARD_DISTANCE_REF then
    .ok (E.base_jaccard_distance_ref x y array_size,
      E.jaccard_distance_ref_ppc x y array_size)
  else
    .error (-1)

/-- The rest of the loop body, from `u.f = scalar; v.f = vector;` on: the ULP delta
`int sv_iulps = u.i - v.i;` (32-bit subtraction), the five trackers, the rows of
`custom_results_file`, `scalar_products_file` and `vector_products_file`, and under
`if (sv_iulps != 0)` the row of `mismatch_results_file`. -/
def custom_test_record (E : CustomTestEnv α) (x y : Nat → α) (array_size i : Nat)
    (scalar vector : α) (st : CustomTestState α) : CustomTestState α :=
  let u_i := E.float_bits scalar
  let v_i := E.float_bits vector
  let sv_iulps := wrap32 (u_i.val - v_i.val)
  let max_scalar := std_max st.max_scalar scalar
  let min_scalar := std_min st.min_scalar scalar
  let max_vector := std_max st.max_vector vector
  let min_vector := std_min st.min_vector vector
  let abs_diff := |scalar - vector|
  let row : ParityRecord α := ⟨i, u_i, v_i, scalar, vector, sv_iulps⟩
  { max_scalar := max_scalar
    min_scalar := min_scalar
    max_vector := max_vector
    min_vector := min_vector
    max_diff := if abs_diff > st.max_diff then abs_diff else st.max_diff
    max_diff_index := if abs_diff > st.max_diff then i else st.max_diff_index
    custom_results_file := st.custom_results_file ++ [row]
    scalar_products_file := st.scalar_products_file ++ [(i, u_i, scalar)]
    vector_products_file := st.vector_products_file ++ [(i, v_i, vector)]
    mismatch_results_file :=
      if sv_iulps ≠ 0 then
        st.mismatch_results_file ++
          [⟨row, (List.range array_size).map x, (List.range array_size).map y⟩]
      else st.mismatch_results_file }

/-- The body of the loop of the custom test for the pair that starts at vector `i`:
`x = custom_data[i].data()`, `y = custom_data[i + 1].data()`. -/
def custom_test_body (E : CustomTestEnv α) (run_func_flag : FuncId → Bool)
    (custom_data : Nat → Nat → α) (array_size i : Nat) (st : CustomTestState α) :
    Except Int (CustomTestState α) :=
  let x := custom_data i
  let y := custom_data (i + 1)
  match custom_test_values E run_func_flag x y array_size with
  | .error code => .error code
  | .ok (scalar, vector) => .ok (custom_test_record E x y array_size i scalar vector st)

/-- The loop `for (size_t i = 0; i + 1 < num_vectors; i += 2)` of the custom test, from the
state `custom_test_init`. The test `i + 1 < num_vectors` is `i < num_vectors - 1` with the
truncated subtraction of `Nat`; once the body has ended `main` with `return -1` no further
iteration changes the result. -/
def custom_test (E : CustomTestEnv α) (run_func_flag : FuncId → Bool)
    (custom_data : Nat → Nat → α) (num_vectors array_size : Nat) :
    Except Int (CustomTestState α) :=
  forLoop 0 (num_vectors - 1) 2
    (fun i r => r.bind (custom_test_body E run_func_flag custom_data array_size i))
    (.ok custom_test_init)

end CustomTest

/-- An environment over the integers for closed examples: the scalar references of the
squared distance and of the inner product are the original scalar loops, the functions of
the three other metrics are constant `0`, and the bit pattern of an integer is the integer
itself, reduced to 32 bits. -/
def example_env : CustomTestEnv ℤ :=
  { base_fvec_L2sqr_ref := fvec_L2sqr_ref_original
    base_fvec_inner_product_ref := fvec_inner_product_ref_original
    base_fvec_L1_ref := fun _ _ _ => 0
    fvec_L1_ref_ppc := fun _ _ _ => 0
    base_cosine_distance_ref := fun _ _ _ => 0
    cosine_distance_ref_ppc := fun _ _ _ => 0
    base_jaccard_distance_ref := fun _ _ _ => 0
    jaccard_distance_ref_ppc := fun _ _ _ => 0
    float_bits := fun z => ⟨wrap32 z, by unfold wrap32; omega⟩ }

/-- The flags of a run in which only the squared distance is selected. -/
def only_L2sqr : FuncId → Bool := fun f => decide (f = .FVEC_L2SQR_REF)

/-- A dataset of four vectors of dimension two: `(0,0)`, `(3,4)`, `(1,1)`, `(1,1)`. -/
def four_vectors : Nat → Nat → ℤ := fun i j =>
  if i = 1 then (if j = 0 then 3 else if j = 1 then 4 else 0)
  else if i = 2 ∨ i = 3 then (if j < 2 then 1 else 0)
  else 0

/-- The environment `example_env` over the rationals; the bit pattern of a rational is its
integer part, reduced to 32 bits. -/
def example_env_rat : CustomTestEnv ℚ :=
  { base_fvec_L2sqr_ref := fvec_L2sqr_ref_original
    base_fvec_inner_product_ref := fvec_inner_product_ref_original
    base_fvec_L1_ref := fun _ _ _ => 0
    fvec_L1_ref_ppc := fun _ _ _ => 0
    base_cosine_distance_ref := fun _ _ _ => 0
    cosine_distance_ref_ppc := fun _ _ _ => 0
    base_jaccard_distance_ref := fun _ _ _ => 0
    jaccard_distance_ref_ppc := fun _ _ _ => 0
    float_bits := fun q => ⟨wrap32 ⌊q⌋, by unfold wrap32; omega⟩ }

/-- The dataset `four_vectors` over the rationals. -/
def four_vectors_rat : Nat → Nat → ℚ := fun i j => (four_vectors i j : ℚ)

/-! ## Accumulators by lane -/

/-- The register whose lane `l` is `f l`. -/
def V4.ofFn {β : Type} (f : Nat → β) : V4 β := ⟨f 0, f 1, f 2, f 3⟩

/-- The accumulator set in which lane `l` of `vres k` is `f k l`. -/
def Acc4.ofFn {β : Type} (f : Nat → Nat → β) : Acc4 β :=
  ⟨V4.ofFn (f 0), V4.ofFn (f 1), V4.ofFn (f 2), V4.ofFn (f 3)⟩

/-- The accumulator set in which lane `l` of `vres k` is `f k l`. -/
def Acc8.ofFn {β : Type} (f : Nat → Nat → β) : Acc8 β :=
  ⟨V4.ofFn (f 0), V4.ofFn (f 1), V4.ofFn (f 2), V4.ofFn (f 3),
   V4.ofFn (f 4), V4.ofFn (f 5), V4.ofFn (f 6), V4.ofFn (f 7)⟩

/-- The accumulator set in which lane `l` of `vres k` is `f k l`. -/
def Acc16.ofFn {β : Type} (f : Nat → Nat → β) : Acc16 β :=
  ⟨V4.ofFn (f 0), V4.ofFn (f 1), V4.ofFn (f 2), V4.ofFn (f 3),
   V4.ofFn (f 4), V4.ofFn (f 5), V4.ofFn (f 6), V4.ofFn (f 7),
   V4.ofFn (f 8), V4.ofFn (f 9), V4.ofFn (f 10), V4.ofFn (f 11),
   V4.ofFn (f 12), V4.ofFn (f 13), V4.ofFn (f 14), V4.ofFn (f 15)⟩

/-- The element index that iteration `c` of the main loop of the branch with unroll factor
`u` assigns to lane `l` of accumulator `k`. -/
def lane_index (u c k l : Nat) : Nat := 4 * u * c + 4 * k + l

/-- The index sets of the lanes partition the main-loop range: after `n` iterations with
unroll factor `u`, every index below `4 * u * n` is the `lane_index` of some iteration
`c < n`, accumulator `k < u` and lane `l < 4`, and of one only. -/
def lanes_partition (u n : Nat) : Prop :=
  (∀ j, j < 4 * u * n ↔ ∃ c k l, c < n ∧ k < u ∧ l < 4 ∧ lane_index u c k l = j) ∧
  (∀ c k l c' k' l', k < u → l < 4 → k' < u → l' < 4 →
    lane_index u c k l = lane_index u c' k' l' → c = c' ∧ k = k' ∧ l = l')

/-! ## Integer kernels with overflow made visible -/

/-- Source function
`int32_t ivec_inner_product_ref_ippc(const int8_t* x, const int8_t* y, size_t d)` of
`intrinsic/innerproduct.cc`: `for (i = 0; i < d; i++) { res += (int32_t)x[i] * y[i]; }`
from `res = 0`, every `int32_t` operation wrapped. -/
def ivec_inner_product_ref_ippc (x y : Nat → int8_t) (d : Nat) : Int :=
  forLoop 0 d 1 (fun i res => wrap32 (res + wrap32 ((x i).val * (y i).val))) 0

/-- The result of an `int32_t` operation whose mathematical value is `z`: the value `z`
when it is representable, and no value when the operation overflows (undefined behaviour
of signed arithmetic in C). -/
def strict32 (z : Int) : Option Int :=
  if -2147483648 ≤ z ∧ z ≤ 2147483647 then some z else none

/-- The loop of `ivec_L2sqr_ref_ppc` with every `int32_t` operation read by `strict32`:
the result is a value only if neither the subtraction, nor the multiplication, nor the
addition of any iteration overflows. -/
def ivec_L2sqr_ref_ppc_strict (x y : Nat → int8_t) (d : Nat) : Option Int :=
  forLoop 0 d 1 (fun i res =>
    res.bind (fun res =>
      (strict32 ((x i).val - (y i).val)).bind (fun tmp =>
        (strict32 (tmp * tmp)).bind (fun sq => strict32 (res + sq))))) (some 0)

/-- The loop of `ivec_inner_product_ref_ppc` (and of `ivec_inner_product_ref_ippc`, which
has the same body) with every `int32_t` operation read by `strict32`. -/
def ivec_inner_product_ref_ppc_strict (x y : Nat → int8_t) (d : Nat) : Option Int :=
  forLoop 0 d 1 (fun i res =>
    res.bind (fun res =>
      (strict32 ((x i).val * (y i).val)).bind (fun prod => strict32 (res + prod)))) (some 0)

/-! ## Bitwise complement of a byte -/

/-- The bitwise complement of a byte, the byte `255 - a`: each of its eight bits is the
negation of the same bit of `a`. -/
def compl8 (a : uint8_t) : uint8_t := ⟨255 - a.val, by omega⟩

/-! ## Example vectors for the intrinsic kernel -/

/-- The vector `1, 2, 3, ..`. -/
def ramp_from_1 : Nat → ℤ := fun i => (i : ℤ) + 1

/-- The vector with every element `0`. -/
def zeros : Nat → ℤ := fun _ => 0

/-- The vector with `9` in the elements `0 .. 31` and `0` from element `32` on. -/
def nines_below_32 : Nat → ℤ := fun i => if i < 32 then 9 else 0

/-! ## Integer and byte kernels with bounds-checked reads

The integer kernels and the Hamming kernel have fixed element types, so their
bounds-checked runs are written out: the buffers are read through `checked_read`, and the
result is a value only if every element read was inside its buffer. -/

/-- The loop of `ivec_L2sqr_ref_ppc` with the reads `x[i]`, `y[i]` bounds-checked. -/
def ivec_L2sqr_ref_ppc_checked (x y : Nat → Checked int8_t) (d : Nat) : Checked Int :=
  forLoop 0 d 1 (fun i (res : Checked Int) =>
    Option.bind res (fun res =>
      Option.bind (x i) (fun xi =>
        Option.bind (y i) (fun yi =>
          let tmp := wrap32 (xi.val - yi.val)
          Checked.ok (wrap32 (res + wrap32 (tmp * tmp))))))) (Checked.ok 0)

/-- The loop of `ivec_inner_product_ref_ppc` with the reads `x[i]`, `y[i]`
bounds-checked. -/
def ivec_inner_product_ref_ppc_checked (x y : Nat → Checked int8_t) (d : Nat) :
    Checked Int :=
  forLoop 0 d 1 (fun i (res : Checked Int) =>
    Option.bind res (fun res =>
      Option.bind (x i) (fun xi =>
        Option.bind (y i) (fun yi =>
          Checked.ok (wrap32 (res + wrap32 (xi.val * yi.val))))))) (Checked.ok 0)

/-- Source function `hamming_distance_ref_ppc` with every byte read bounds-checked: lane `j`
of the load at `&vec[i]` is the read of `vec[i + j]`. -/
def hamming_distance_ref_ppc_checked (VEC_POPCNT_SUPPORTED : Bool)
    (vec1 vec2 : Nat → Checked uint8_t) (size : Nat) : Checked Nat :=
  if VEC_POPCNT_SUPPORTED then
    let base := (size / CHAR_VEC_SIZE) * CHAR_VEC_SIZE
    let distance := forLoop 0 base CHAR_VEC_SIZE (fun i (distance : Checked Nat) =>
      forLoop 0 CHAR_VEC_SIZE 1 (fun j (distance : Checked Nat) =>
        Option.bind distance (fun distance =>
          Option.bind (vec1 (i + j)) (fun a =>
            Option.bind (vec2 (i + j)) (fun b =>
              Checked.ok (distance + (popcnt8 (xor8 a b)).val))))) distance)
      (Checked.ok 0)
    forLoop base size 1 (fun i (distance : Checked Nat) =>
      Option.bind distance (fun distance =>
        Option.bind (vec1 i) (fun a =>
          Option.bind (vec2 i) (fun b =>
            Checked.ok (distance + builtin_popcount (xor8 a b)))))) distance
  else
    Checked.ok 0

/-- The memory in which every element has been read inside its buffer. -/
def all_ok {β : Type} (x : Nat → β) : Nat → Checked β := fun i => Checked.ok (x i)

/-- The buffer of no element: every read is out of bounds. -/
def no_element {β : Type} : Nat → Checked β := checked_read []

/-- The `int8_t` vector `126, 126, 122, 114, -23, 127, 127, ..`: against a vector of `-128`
its differences are `254, 254, 250, 242, 105, 255, 255, ..`. -/
def near_127 : Nat → int8_t := fun i =>
  if i = 0 then ⟨126, by decide⟩
  else if i = 1 then ⟨126, by decide⟩
  else if i = 2 then ⟨122, by decide⟩
  else if i = 3 then ⟨114, by decide⟩
  else if i = 4 then ⟨-23, by decide⟩
  else ⟨127, by decide⟩

/-- The line number that the message of a fatal error of the loader cites; the error of a
file that cannot be opened cites none. -/
def LoadError.line : LoadError → Option Nat
  | .could_not_open => none
  | .invalid_number_format line_number _ => some line_number
  | .number_out_of_range line_number _ => some line_number
  | .inconsistent_row_size line_number _ _ => some line_number

/-- The C function `isspace` in the default locale: space, `\t`, `\n`, `\v`, `\f`, `\r`. -/
def isspace (c : Char) : Bool :=
  c = ' ' || c = '\t' || c = '\n' || c = '\x0b' || c = '\x0c' || c = '\r'

/-- A file of one line, which holds a form feed only. -/
def csv_form_feed_line : List Char := "\x0c\n".toList

/-- The environment `example_env` with a scalar reference of the squared distance that is
off by `x[0]`: it agrees with the kernel on the pairs whose first vector starts with `0`
and differs from it on the others. -/
def example_env_off : CustomTestEnv ℤ :=
  { example_env with
    base_fvec_L2sqr_ref := fun x y d => fvec_L2sqr_ref_original x y d + x 0 }

/-! ## Loop lemmas -/

section LoopLemmas

variable {σ : Type}

lemma forLoopAux_exit (body : Nat → σ → σ) (bound step fuel i : Nat) (s : σ)
    (h : bound ≤ i) : forLoopAux body bound step fuel i s = s := by
  cases fuel with
  | zero => rfl
  | succ n => simp [forLoopAux, Nat.not_lt.mpr h]

/-- Any two fuels that are at least `bound - i` give the same result. -/
lemma forLoopAux_fuel (body : Nat → σ → σ) (bound step : Nat) (hstep : 0 < step) :
    ∀ (f1 f2 i : Nat) (s : σ), bound - i ≤ f1 → bound - i ≤ f2 →
      forLoopAux body bound step f1 i s = forLoopAux body bound step f2 i s := by
  intro f1
  induction f1 with
  | zero =>
    intro f2 i s h1 _
    rw [forLoopAux_exit body bound step 0 i s (by omega),
      forLoopAux_exit body bound step f2 i s (by omega)]
  | succ f1 ih =>
    intro f2 i s h1 h2
    by_cases hi : i < bound
    · obtain ⟨f2, rfl⟩ : ∃ k, f2 = k + 1 := ⟨f2 - 1, by omega⟩
      rw [forLoopAux, forLoopAux, if_pos hi, if_pos hi]
      exact ih f2 (i + step) (body i s) (by omega) (by omega)
    · rw [forLoopAux_exit body bound step _ i s (by omega),
        forLoopAux_exit body bound step f2 i s (by omega)]

/-- The fuel of `forLoop` suffices: for a positive step the loop satisfies the defining
equation of the C `for` loop. -/
lemma forLoop_unfold (body : Nat → σ → σ) (start bound step : Nat) (hstep : 0 < step)
    (init : σ) :
    forLoop start bound step body init =
      if start < bound then forLoop (start + step) bound step body (body start init)
      else init := by
  unfold forLoop
  split_ifs with h
  · obtain ⟨k, hk⟩ : ∃ k, bound - start = k + 1 := ⟨bound - start - 1, by omega⟩
    rw [hk, forLoopAux, if_pos h]
    exact forLoopAux_fuel body bound step hstep k (bound - (start + step)) (start + step)
      (body start init) (by omega) le_rfl
  · exact forLoopAux_exit body bound step _ start init (by omega)

/-- With enough fuel, a loop whose index reaches `bound` after exactly `m` steps runs its
body exactly `m` times. -/
lemma forLoopAux_eq_iterBody (body : Nat → σ → σ) (bound step : Nat) (hstep : 0 < step) :
    ∀ (m fuel i : Nat) (s : σ), m ≤ fuel → i + m * step = bound →
      forLoopAux body bound step fuel i s = iterBody body step m i s := by
  intro m
  induction m with
  | zero =>
    intro fuel i s _ hi
    rw [forLoopAux_exit body bound step fuel i s (by omega)]
    rfl
  | succ m ih =>
    intro fuel i s hf hi
    obtain ⟨fuel, rfl⟩ : ∃ k, fuel = k + 1 := ⟨fuel - 1, by omega⟩
    have hlt : i < bound := by
      have : 0 < (m + 1) * step := Nat.mul_pos (Nat.succ_pos m) hstep
      omega
    rw [forLoopAux, if_pos hlt, iterBody]
    exact ih fuel (i + step) (body i s) (by omega) (by rw [← hi]; ring)

/-- A loop from `0` to a multiple `n * step` of its step runs the body exactly `n` times. -/
lemma forLoop_mul_step (body : Nat → σ → σ) (n step : Nat) (hstep : 0 < step) (init : σ) :
    forLoop 0 (n * step) step body init = iterBody body step n 0 init := by
  unfold forLoop
  apply forLoopAux_eq_iterBody body (n * step) step hstep
  · exact Nat.le_mul_of_pos_right n hstep
  · simp

/-- A unit-step loop from `base` to `d ≥ base` runs the body exactly `d - base` times. -/
lemma forLoop_unit_step (body : Nat → σ → σ) (base d : Nat) (h : base ≤ d) (init : σ) :
    forLoop base d 1 body init = iterBody body 1 (d - base) base init := by
  unfold forLoop
  apply forLoopAux_eq_iterBody body d 1 Nat.one_pos
  · exact le_rfl
  · omega

/-- Sum invariant: if one execution of the body at index `i` adds the terms of
`[i, i + step)` to the measure `g` of the state, then `m` executions from `i` add the terms
of `[i, i + m * step)`. -/
lemma iterBody_sum {β : Type} [AddCommMonoid β] (body : Nat → σ → σ) (step : Nat)
    (g : σ → β) (f : Nat → β)
    (hbody : ∀ i s, g (body i s) = g s + ∑ j in Finset.Ico i (i + step), f j) :
    ∀ (m i : Nat) (s : σ),
      g (iterBody body step m i s) = g s + ∑ j in Finset.Ico i (i + m * step), f j := by
  intro m
  induction m with
  | zero => intro i s; simp [iterBody]
  | succ m ih =>
    intro i s
    rw [iterBody, ih, hbody, add_assoc]
    congr 1
    have h2 : i + step + m * step = i + (m + 1) * step := by ring
    rw [h2]
    exact Finset.sum_Ico_consecutive f (Nat.le_add_right i step) (by rw [← h2]; omega)

/-- The main loop of a kernel: from `0` to `n * step`, a body that adds the terms of
`[i, i + step)` to the measure `g` adds up the terms of `[0, n * step)`. -/
lemma forLoop_main_sum {β : Type} [AddCommMonoid β] (body : Nat → σ → σ) (n step : Nat)
    (hstep : 0 < step) (g : σ → β) (f : Nat → β)
    (hbody : ∀ i s, g (body i s) = g s + ∑ j in Finset.Ico i (i + step), f j) (init : σ) :
    g (forLoop 0 (n * step) step body init) =
      g init + ∑ j in Finset.range (n * step), f j := by
  rw [forLoop_mul_step body n step hstep, iterBody_sum body step g f hbody n 0 init,
    Nat.zero_add, Finset.range_eq_Ico]

/-- The scalar remainder loop: from `base` to `d`, a body that adds the term `f i` adds up
the terms of `[base, d)`. -/
lemma forLoop_tail_sum {β : Type} [AddCommMonoid β] (body : Nat → σ → σ) (base d : Nat)
    (h : base ≤ d) (g : σ → β) (f : Nat → β)
    (hbody : ∀ i s, g (body i s) = g s + f i) (init : σ) :
    g (forLoop base d 1 body init) = g init + ∑ j in Finset.Ico base d, f j := by
  rw [forLoop_unit_step body base d h,
    iterBody_sum body 1 g f (by intro i s; rw [hbody]; simp) (d - base) base init,
    Nat.mul_one, Nat.add_sub_cancel' h]

/-- A run of `u` consecutive blocks of `w` indices is the interval `[i, i + w * u)`. -/
lemma sum_Ico_blocks {β : Type} [AddCommMonoid β] (f : Nat → β) (w i : Nat) :
    ∀ u : Nat, ∑ k in Finset.range u, ∑ j in Finset.Ico (i + w * k) (i + w * k + w), f j =
      ∑ j in Finset.Ico i (i + w * u), f j := by
  intro u
  induction u with
  | zero => simp
  | succ u ih =>
    rw [Finset.sum_range_succ, ih]
    have h : i + w * u + w = i + w * (u + 1) := by ring
    rw [h]
    exact Finset.sum_Ico_consecutive f (Nat.le_add_right i _) (by rw [← h]; omega)

/-- Main loop and remainder loop together cover `[0, d)`. -/
lemma sum_range_add_tail {β : Type} [AddCommMonoid β] (f : Nat → β) (d factor : Nat) :
    ∑ j in Finset.range (d / factor * factor), f j +
      ∑ j in Finset.Ico (d / factor * factor) d, f j = ∑ j in Finset.range d, f j :=
  Finset.sum_range_add_sum_Ico f (Nat.div_mul_le_self d factor)

end LoopLemmas

/-! ## Lane lemmas -/

section LaneLemmas

variable {α : Type}

@[simp] lemma V4.add_e0 [Add α] (a b : V4 α) : (a + b).e0 = a.e0 + b.e0 := rfl
@[simp] lemma V4.add_e1 [Add α] (a b : V4 α) : (a + b).e1 = a.e1 + b.e1 := rfl
@[simp] lemma V4.add_e2 [Add α] (a b : V4 α) : (a + b).e2 = a.e2 + b.e2 := rfl
@[simp] lemma V4.add_e3 [Add α] (a b : V4 α) : (a + b).e3 = a.e3 + b.e3 := rfl
@[simp] lemma V4.sub_e0 [Sub α] (a b : V4 α) : (a - b).e0 = a.e0 - b.e0 := rfl
@[simp] lemma V4.sub_e1 [Sub α] (a b : V4 α) : (a - b).e1 = a.e1 - b.e1 := rfl
@[simp] lemma V4.sub_e2 [Sub α] (a b : V4 α) : (a - b).e2 = a.e2 - b.e2 := rfl
@[simp] lemma V4.sub_e3 [Sub α] (a b : V4 α) : (a - b).e3 = a.e3 - b.e3 := rfl
@[simp] lemma V4.mul_e0 [Mul α] (a b : V4 α) : (a * b).e0 = a.e0 * b.e0 := rfl
@[simp] lemma V4.mul_e1 [Mul α] (a b : V4 α) : (a * b).e1 = a.e1 * b.e1 := rfl
@[simp] lemma V4.mul_e2 [Mul α] (a b : V4 α) : (a * b).e2 = a.e2 * b.e2 := rfl
@[simp] lemma V4.mul_e3 [Mul α] (a b : V4 α) : (a * b).e3 = a.e3 * b.e3 := rfl
@[simp] lemma V4.zero_e0 [Zero α] : (V4.zero : V4 α).e0 = 0 := rfl
@[simp] lemma V4.zero_e1 [Zero α] : (V4.zero : V4 α).e1 = 0 := rfl
@[simp] lemma V4.zero_e2 [Zero α] : (V4.zero : V4 α).e2 = 0 := rfl
@[simp] lemma V4.zero_e3 [Zero α] : (V4.zero : V4 α).e3 = 0 := rfl
@[simp] lemma vload_e0 (x : Nat → α) (i : Nat) : (vload x i).e0 = x i := rfl
@[simp] lemma vload_e1 (x : Nat → α) (i : Nat) : (vload x i).e1 = x (i + 1) := rfl
@[simp] lemma vload_e2 (x : Nat → α) (i : Nat) : (vload x i).e2 = x (i + 2) := rfl
@[simp] lemma vload_e3 (x : Nat → α) (i : Nat) : (vload x i).e3 = x (i + 3) := rfl
@[simp] lemma vec_extract_zero (v : V4 α) : vec_extract v 0 = v.e0 := rfl
@[simp] lemma vec_extract_one (v : V4 α) : vec_extract v 1 = v.e1 := rfl
@[simp] lemma vec_extract_two (v : V4 α) : vec_extract v 2 = v.e2 := rfl
@[simp] lemma vec_extract_three (v : V4 α) : vec_extract v 3 = v.e3 := rfl

lemma V4.hsum_zero [AddMonoid α] : (V4.zero : V4 α).hsum = 0 := by simp [V4.hsum]

lemma V4.hsum_add [AddCommMonoid α] (a b : V4 α) : (a + b).hsum = a.hsum + b.hsum := by
  simp only [V4.hsum, V4.add_e0, V4.add_e1, V4.add_e2, V4.add_e3]
  abel

lemma Acc4_total_zero [AddMonoid α] : (Acc4.zero : Acc4 α).total = 0 := by
  simp [Acc4.total, Acc4.zero, V4.hsum_zero]

lemma Acc8_total_zero [AddMonoid α] : (Acc8.zero : Acc8 α).total = 0 := by
  simp [Acc8.total, Acc8.zero, V4.hsum_zero]

lemma Acc16_total_zero [AddMonoid α] : (Acc16.zero : Acc16 α).total = 0 := by
  simp [Acc16.total, Acc16.zero, V4.hsum_zero]

/-- The sum of the four terms of a block, lane by lane. -/
lemma sum_Ico_four [AddCommMonoid α] (f : Nat → α) (i : Nat) :
    ∑ j in Finset.Ico i (i + 4), f j = f i + f (i + 1) + f (i + 2) + f (i + 3) := by
  rw [Finset.sum_Ico_eq_sum_range]
  simp [Finset.sum_range_succ]

end LaneLemmas

/-! ## Squared Euclidean distance: the kernel and the scalar reference -/

section L2Proofs

variable {α : Type} [CommRing α]

/-- One accumulation `vres += vtmp * vtmp` with `vtmp = vx - vy` adds the four terms of the
block `[i, i + 4)` to the lane sum. -/
lemma hsum_sqdiff_step (a : V4 α) (x y : Nat → α) (i : Nat) :
    (a + (vload x i - vload y i) * (vload x i - vload y i)).hsum =
      a.hsum + ∑ j in Finset.Ico i (i + 4), (x j - y j) ^ 2 := by
  rw [sum_Ico_four]
  simp only [V4.hsum, V4.add_e0, V4.add_e1, V4.add_e2, V4.add_e3, V4.sub_e0, V4.sub_e1,
    V4.sub_e2, V4.sub_e3, V4.mul_e0, V4.mul_e1, V4.mul_e2, V4.mul_e3, vload_e0, vload_e1,
    vload_e2, vload_e3]
  ring

lemma L2sqr_tail_eq (x y : Nat → α) (base d : Nat) (h : base ≤ d) :
    L2sqr_tail x y base d = ∑ j in Finset.Ico base d, (x j - y j) ^ 2 := by
  unfold L2sqr_tail
  have := forLoop_tail_sum (fun i (res : α) => res + (x i - y i) * (x i - y i)) base d h id
    (fun j => (x j - y j) ^ 2) (by intro i s; simp [pow_two]) 0
  simpa using this

lemma L2sqr_main1_eq (x y : Nat → α) (n : Nat) :
    (forLoop 0 (n * FLOAT_VEC_SIZE) FLOAT_VEC_SIZE (L2sqr_body1 x y) V4.zero).hsum =
      ∑ j in Finset.range (n * FLOAT_VEC_SIZE), (x j - y j) ^ 2 := by
  rw [forLoop_main_sum (L2sqr_body1 x y) n FLOAT_VEC_SIZE (by decide) V4.hsum
    (fun j => (x j - y j) ^ 2) (fun i s => hsum_sqdiff_step s x y i), V4.hsum_zero, zero_add]

lemma L2sqr_main4_eq (x y : Nat → α) (n : Nat) :
    (forLoop 0 (n * (FLOAT_VEC_SIZE * 4)) (FLOAT_VEC_SIZE * 4) (L2sqr_body4 x y)
      Acc4.zero).total = ∑ j in Finset.range (n * (FLOAT_VEC_SIZE * 4)), (x j - y j) ^ 2 := by
  rw [forLoop_main_sum (L2sqr_body4 x y) n (FLOAT_VEC_SIZE * 4) (by decide) Acc4.total
    (fun j => (x j - y j) ^ 2) ?_, Acc4_total_zero, zero_add]
  intro i s
  have hb := sum_Ico_blocks (fun j => (x j - y j) ^ 2) 4 i 4
  simp only [Finset.sum_range_succ, Finset.sum_range_zero, zero_add] at hb
  simp only [L2sqr_body4, FLOAT_VEC_SIZE, Acc4.total, hsum_sqdiff_step]
  rw [← hb]
  ring

lemma L2sqr_main8_eq (x y : Nat → α) (n : Nat) :
    (forLoop 0 (n * (FLOAT_VEC_SIZE * 8)) (FLOAT_VEC_SIZE * 8) (L2sqr_body8 x y)
      Acc8.zero).total = ∑ j in Finset.range (n * (FLOAT_VEC_SIZE * 8)), (x j - y j) ^ 2 := by
  rw [forLoop_main_sum (L2sqr_body8 x y) n (FLOAT_VEC_SIZE * 8) (by decide) Acc8.total
    (fun j => (x j - y j) ^ 2) ?_, Acc8_total_zero, zero_add]
  intro i s
  have hb := sum_Ico_blocks (fun j => (x j - y j) ^ 2) 4 i 8
  simp only [Finset.sum_range_succ, Finset.sum_range_zero, zero_add] at hb
  simp only [L2sqr_body8, FLOAT_VEC_SIZE, Acc8.total, hsum_sqdiff_step]
  rw [← hb]
  ring

lemma L2sqr_main16_eq (x y : Nat → α) (n : Nat) :
    (forLoop 0 (n * (FLOAT_VEC_SIZE * 16)) (FLOAT_VEC_SIZE * 16) (L2sqr_body16 x y)
      Acc16.zero).total =
      ∑ j in Finset.range (n * (FLOAT_VEC_SIZE * 16)), (x j - y j) ^ 2 := by
  rw [forLoop_main_sum (L2sqr_body16 x y) n (FLOAT_VEC_SIZE * 16) (by decide) Acc16.total
    (fun j => (x j - y j) ^ 2) ?_, Acc16_total_zero, zero_add]
  intro i s
  have hb := sum_Ico_blocks (fun j => (x j - y j) ^ 2) 4 i 16
  simp only [Finset.sum_range_succ, Finset.sum_range_zero, zero_add] at hb
  simp only [L2sqr_body16, FLOAT_VEC_SIZE, Acc16.total, hsum_sqdiff_step]
  rw [← hb]
  ring

/-- The pairwise reduction of four accumulators followed by the lane sum is the sum of all
their lanes. -/
lemma reduce4_eq (a : Acc4 α) :
    (a.vres0 + a.vres1 + (a.vres2 + a.vres3)).hsum = a.total := by
  simp only [V4.hsum_add, Acc4.total]
  ring

lemma reduce8_eq (a : Acc8 α) :
    (a.vres0 + a.vres1 + (a.vres2 + a.vres3) +
      (a.vres4 + a.vres5 + (a.vres6 + a.vres7))).hsum = a.total := by
  simp only [V4.hsum_add, Acc8.total]
  ring

lemma reduce16_eq (a : Acc16 α) :
    (a.vres0 + a.vres1 + (a.vres2 + a.vres3) + (a.vres4 + a.vres5 + (a.vres6 + a.vres7)) +
      (a.vres8 + a.vres9 + (a.vres10 + a.vres11) +
        (a.vres12 + a.vres13 + (a.vres14 + a.vres15)))).hsum = a.total := by
  simp only [V4.hsum_add, Acc16.total]
  ring

/-- In every tier `fvec_L2sqr_ref_ppc` returns the sum of the squared differences. -/
lemma fvec_L2sqr_ref_ppc_eq_sum (x y : Nat → α) (d : Nat) :
    fvec_L2sqr_ref_ppc x y d = ∑ i in Finset.range d, (x i - y i) ^ 2 := by
  unfold fvec_L2sqr_ref_ppc
  split_ifs with h1 h2 h3
  · have hm := L2sqr_main1_eq x y (d / FLOAT_VEC_SIZE)
    have ht := L2sqr_tail_eq x y _ d (Nat.div_mul_le_self d FLOAT_VEC_SIZE)
    have hs := sum_range_add_tail (fun j => (x j - y j) ^ 2) d FLOAT_VEC_SIZE
    simp only [V4.hsum] at hm
    simp only [ht, ← hs, ← hm]
    ring
  · have hm := L2sqr_main4_eq x y (d / (FLOAT_VEC_SIZE * 4))
    have ht := L2sqr_tail_eq x y _ d (Nat.div_mul_le_self d (FLOAT_VEC_SIZE * 4))
    have hs := sum_range_add_tail (fun j => (x j - y j) ^ 2) d (FLOAT_VEC_SIZE * 4)
    rw [← reduce4_eq] at hm
    simp only [V4.hsum] at hm
    simp only [ht, ← hs, ← hm]
    ring
  · have hm := L2sqr_main8_eq x y (d / (FLOAT_VEC_SIZE * 8))
    have ht := L2sqr_tail_eq x y _ d (Nat.div_mul_le_self d (FLOAT_VEC_SIZE * 8))
    have hs := sum_range_add_tail (fun j => (x j - y j) ^ 2) d (FLOAT_VEC_SIZE * 8)
    rw [← reduce8_eq] at hm
    simp only [V4.hsum] at hm
    simp only [ht, ← hs, ← hm]
    ring
  · have hm := L2sqr_main16_eq x y (d / (FLOAT_VEC_SIZE * 16))
    have ht := L2sqr_tail_eq x y _ d (Nat.div_mul_le_self d (FLOAT_VEC_SIZE * 16))
    have hs := sum_range_add_tail (fun j => (x j - y j) ^ 2) d (FLOAT_VEC_SIZE * 16)
    rw [← reduce16_eq] at hm
    simp only [V4.hsum] at hm
    simp only [ht, ← hs, ← hm]
    ring

end L2Proofs

/-! ## Inner product: the optimized kernel and the scalar reference -/

section InnerProductProofs

variable {α : Type} [CommRing α]

/-- One accumulation `vres += vx * vy` adds the four products of the block `[i, i + 4)` to
the lane sum. -/
lemma hsum_mul_step (a : V4 α) (x y : Nat → α) (i : Nat) :
    (a + vload x i * vload y i).hsum = a.hsum + ∑ j in Finset.Ico i (i + 4), x j * y j := by
  rw [sum_Ico_four]
  simp only [V4.hsum, V4.add_e0, V4.add_e1, V4.add_e2, V4.add_e3, V4.mul_e0, V4.mul_e1,
    V4.mul_e2, V4.mul_e3, vload_e0, vload_e1, vload_e2, vload_e3]
  ring

lemma inner_product_tail_eq (x y : Nat → α) (base d : Nat) (h : base ≤ d) :
    inner_product_tail x y base d = ∑ j in Finset.Ico base d, x j * y j := by
  unfold inner_product_tail
  have := forLoop_tail_sum (fun i (res : α) => res + x i * y i) base d h id
    (fun j => x j * y j) (by intro i s; rfl) 0
  simpa using this

/-- The `d < 32` tier indexes whole registers: `nvec` iterations cover `[0, 4 * nvec)`. -/
lemma inner_product_main1_eq (x y : Nat → α) (nvec : Nat) :
    (forLoop 0 nvec 1 (fun i vres => vres + vidx x 0 i * vidx y 0 i) V4.zero).hsum =
      ∑ j in Finset.range (nvec * FLOAT_VEC_SIZE), x j * y j := by
  rw [forLoop_tail_sum (fun i (vres : V4 α) => vres + vidx x 0 i * vidx y 0 i) 0 nvec
    (Nat.zero_le _) V4.hsum
    (fun k => ∑ j in Finset.Ico (0 + 4 * k) (0 + 4 * k + 4), x j * y j)
    (fun i s => by simp only [vidx, FLOAT_VEC_SIZE, hsum_mul_step]),
    V4.hsum_zero, zero_add, ← Finset.range_eq_Ico, sum_Ico_blocks (fun j => x j * y j) 4 0 nvec,
    Nat.zero_add, Finset.range_eq_Ico, FLOAT_VEC_SIZE, Nat.mul_comm]

lemma inner_product_main4_eq (x y : Nat → α) (n : Nat) :
    (forLoop 0 (n * (FLOAT_VEC_SIZE * 4)) (FLOAT_VEC_SIZE * 4) (inner_product_body4 x y)
      Acc4.zero).total = ∑ j in Finset.range (n * (FLOAT_VEC_SIZE * 4)), x j * y j := by
  rw [forLoop_main_sum (inner_product_body4 x y) n (FLOAT_VEC_SIZE * 4) (by decide)
    Acc4.total (fun j => x j * y j) ?_, Acc4_total_zero, zero_add]
  intro i s
  have hb := sum_Ico_blocks (fun j => x j * y j) 4 i 4
  simp only [Finset.sum_range_succ, Finset.sum_range_zero, zero_add] at hb
  simp only [inner_product_body4, vidx, FLOAT_VEC_SIZE, Acc4.total, hsum_mul_step]
  rw [← hb]
  ring

lemma inner_product_main8_eq (x y : Nat → α) (n : Nat) :
    (forLoop 0 (n * (FLOAT_VEC_SIZE * 8)) (FLOAT_VEC_SIZE * 8) (inner_product_body8 x y)
      Acc8.zero).total = ∑ j in Finset.range (n * (FLOAT_VEC_SIZE * 8)), x j * y j := by
  rw [forLoop_main_sum (inner_product_body8 x y) n (FLOAT_VEC_SIZE * 8) (by decide)
    Acc8.total (fun j => x j * y j) ?_, Acc8_total_zero, zero_add]
  intro i s
  have hb := sum_Ico_blocks (fun j => x j * y j) 4 i 8
  simp only [Finset.sum_range_succ, Finset.sum_range_zero, zero_add] at hb
  simp only [inner_product_body8, vidx, FLOAT_VEC_SIZE, Acc8.total, hsum_mul_step]
  rw [← hb]
  ring

lemma inner_product_main16_eq (x y : Nat → α) (n : Nat) :
    (forLoop 0 (n * (FLOAT_VEC_SIZE * 16)) (FLOAT_VEC_SIZE * 16) (inner_product_body16 x y)
      Acc16.zero).total = ∑ j in Finset.range (n * (FLOAT_VEC_SIZE * 16)), x j * y j := by
  rw [forLoop_main_sum (inner_product_body16 x y) n (FLOAT_VEC_SIZE * 16) (by decide)
    Acc16.total (fun j => x j * y j) ?_, Acc16_total_zero, zero_add]
  intro i s
  have hb := sum_Ico_blocks (fun j => x j * y j) 4 i 16
  simp only [Finset.sum_range_succ, Finset.sum_range_zero, zero_add] at hb
  simp only [inner_product_body16, vidx, FLOAT_VEC_SIZE, Acc16.total, hsum_mul_step]
  rw [← hb]
  ring

/-- The one-by-one reduction `vres0 += vres1; ...; vres0 += vres7` followed by the lane sum
is the sum of all lanes. -/
lemma linear_reduce8_eq (a : Acc8 α) :
    (a.vres0 + a.vres1 + a.vres2 + a.vres3 + a.vres4 + a.vres5 + a.vres6 + a.vres7).hsum =
      a.total := by
  simp only [V4.hsum_add, Acc8.total]

lemma linear_reduce16_eq (a : Acc16 α) :
    (a.vres0 + a.vres1 + a.vres2 + a.vres3 + a.vres4 + a.vres5 + a.vres6 + a.vres7 +
      a.vres8 + a.vres9 + a.vres10 + a.vres11 + a.vres12 + a.vres13 + a.vres14 +
      a.vres15).hsum = a.total := by
  simp only [V4.hsum_add, Acc16.total]

/-- In every tier `fvec_inner_product_ref_ppc` returns the sum of the products. -/
lemma fvec_inner_product_ref_ppc_eq_sum (x y : Nat → α) (d : Nat) :
    fvec_inner_product_ref_ppc x y d = ∑ i in Finset.range d, x i * y i := by
  unfold fvec_inner_product_ref_ppc
  split_ifs with h1 h2 h3
  · have hm := inner_product_main1_eq x y (d / FLOAT_VEC_SIZE)
    have ht := inner_product_tail_eq x y _ d (Nat.div_mul_le_self d FLOAT_VEC_SIZE)
    have hs := sum_range_add_tail (fun j => x j * y j) d FLOAT_VEC_SIZE
    simp only [V4.hsum] at hm
    simp only [ht, ← hs, ← hm]
    ring
  · have hm := inner_product_main4_eq x y (d / (FLOAT_VEC_SIZE * 4))
    have ht := inner_product_tail_eq x y _ d (Nat.div_mul_le_self d (FLOAT_VEC_SIZE * 4))
    have hs := sum_range_add_tail (fun j => x j * y j) d (FLOAT_VEC_SIZE * 4)
    rw [← reduce4_eq] at hm
    simp only [V4.hsum] at hm
    simp only [ht, ← hs, ← hm]
    ring
  · have hm := inner_product_main8_eq x y (d / (FLOAT_VEC_SIZE * 8))
    have ht := inner_product_tail_eq x y _ d (Nat.div_mul_le_self d (FLOAT_VEC_SIZE * 8))
    have hs := sum_range_add_tail (fun j => x j * y j) d (FLOAT_VEC_SIZE * 8)
    rw [← linear_reduce8_eq] at hm
    simp only [V4.hsum] at hm
    simp only [ht, ← hs, ← hm]
    ring
  · have hm := inner_product_main16_eq x y (d / (FLOAT_VEC_SIZE * 16))
    have ht := inner_product_tail_eq x y _ d (Nat.div_mul_le_self d (FLOAT_VEC_SIZE * 16))
    have hs := sum_range_add_tail (fun j => x j * y j) d (FLOAT_VEC_SIZE * 16)
    rw [← linear_reduce16_eq] at hm
    simp only [V4.hsum] at hm
    simp only [ht, ← hs, ← hm]
    ring

end InnerProductProofs

/-! ## Batch-4 kernels -/

section BatchProofs

variable {α : Type} [CommRing α]

/-- The four accumulators of `fvec_L2sqr_batch_4_ref_ppc` after the vector loop. -/
lemma L2sqr_batch_4_main_eq (x y0 y1 y2 y3 : Nat → α) (n : Nat) :
    let v := forLoop 0 (n * FLOAT_VEC_SIZE) FLOAT_VEC_SIZE (L2sqr_batch_4_body x y0 y1 y2 y3)
      ⟨V4.zero, V4.zero, V4.zero, V4.zero⟩
    v.vd0.hsum = ∑ j in Finset.range (n * FLOAT_VEC_SIZE), (x j - y0 j) ^ 2 ∧
    v.vd1.hsum = ∑ j in Finset.range (n * FLOAT_VEC_SIZE), (x j - y1 j) ^ 2 ∧
    v.vd2.hsum = ∑ j in Finset.range (n * FLOAT_VEC_SIZE), (x j - y2 j) ^ 2 ∧
    v.vd3.hsum = ∑ j in Finset.range (n * FLOAT_VEC_SIZE), (x j - y3 j) ^ 2 := by
  refine ⟨?_, ?_, ?_, ?_⟩
  · rw [forLoop_main_sum (L2sqr_batch_4_body x y0 y1 y2 y3) n FLOAT_VEC_SIZE (by decide)
      (fun v => v.vd0.hsum) (fun j => (x j - y0 j) ^ 2)
      (fun i s => by simp only [L2sqr_batch_4_body, FLOAT_VEC_SIZE, hsum_sqdiff_step]),
      V4.hsum_zero, zero_add]
  · rw [forLoop_main_sum (L2sqr_batch_4_body x y0 y1 y2 y3) n FLOAT_VEC_SIZE (by decide)
      (fun v => v.vd1.hsum) (fun j => (x j - y1 j) ^ 2)
      (fun i s => by simp only [L2sqr_batch_4_body, FLOAT_VEC_SIZE, hsum_sqdiff_step]),
      V4.hsum_zero, zero_add]
  · rw [forLoop_main_sum (L2sqr_batch_4_body x y0 y1 y2 y3) n FLOAT_VEC_SIZE (by decide)
      (fun v => v.vd2.hsum) (fun j => (x j - y2 j) ^ 2)
      (fun i s => by simp only [L2sqr_batch_4_body, FLOAT_VEC_SIZE, hsum_sqdiff_step]),
      V4.hsum_zero, zero_add]
  · rw [forLoop_main_sum (L2sqr_batch_4_body x y0 y1 y2 y3) n FLOAT_VEC_SIZE (by decide)
      (fun v => v.vd3.hsum) (fun j => (x j - y3 j) ^ 2)
      (fun i s => by simp only [L2sqr_batch_4_body, FLOAT_VEC_SIZE, hsum_sqdiff_step]),
      V4.hsum_zero, zero_add]

/-- The four scalar accumulators of `fvec_L2sqr_batch_4_ref_ppc` after the scalar loop. -/
lemma L2sqr_batch_4_tail_eq (x y0 y1 y2 y3 : Nat → α) (base d : Nat) (h : base ≤ d) :
    let s := forLoop base d 1 (L2sqr_batch_4_tail_body x y0 y1 y2 y3) ⟨0, 0, 0, 0⟩
    s.d0 = ∑ j in Finset.Ico base d, (x j - y0 j) ^ 2 ∧
    s.d1 = ∑ j in Finset.Ico base d, (x j - y1 j) ^ 2 ∧
    s.d2 = ∑ j in Finset.Ico base d, (x j - y2 j) ^ 2 ∧
    s.d3 = ∑ j in Finset.Ico base d, (x j - y3 j) ^ 2 := by
  refine ⟨?_, ?_, ?_, ?_⟩
  · rw [forLoop_tail_sum (L2sqr_batch_4_tail_body x y0 y1 y2 y3) base d h (fun s => s.d0)
      (fun j => (x j - y0 j) ^ 2) (fun i s => by simp only [L2sqr_batch_4_tail_body, pow_two]),
      zero_add]
  · rw [forLoop_tail_sum (L2sqr_batch_4_tail_body x y0 y1 y2 y3) base d h (fun s => s.d1)
      (fun j => (x j - y1 j) ^ 2) (fun i s => by simp only [L2sqr_batch_4_tail_body, pow_two]),
      zero_add]
  · rw [forLoop_tail_sum (L2sqr_batch_4_tail_body x y0 y1 y2 y3) base d h (fun s => s.d2)
      (fun j => (x j - y2 j) ^ 2) (fun i s => by simp only [L2sqr_batch_4_tail_body, pow_two]),
      zero_add]
  · rw [forLoop_tail_sum (L2sqr_batch_4_tail_body x y0 y1 y2 y3) base d h (fun s => s.d3)
      (fun j => (x j - y3 j) ^ 2) (fun i s => by simp only [L2sqr_batch_4_tail_body, pow_two]),
      zero_add]

/-- Each output of `fvec_L2sqr_batch_4_ref_ppc` is the sum of the squared differences
between the query and the corresponding target. -/
lemma fvec_L2sqr_batch_4_ref_ppc_eq_sum (x y0 y1 y2 y3 : Nat → α) (d : Nat) :
    fvec_L2sqr_batch_4_ref_ppc x y0 y1 y2 y3 d =
      { dis0 := ∑ i in Finset.range d, (x i - y0 i) ^ 2
        dis1 := ∑ i in Finset.range d, (x i - y1 i) ^ 2
        dis2 := ∑ i in Finset.range d, (x i - y2 i) ^ 2
        dis3 := ∑ i in Finset.range d, (x i - y3 i) ^ 2 } := by
  obtain ⟨m0, m1, m2, m3⟩ := L2sqr_batch_4_main_eq x y0 y1 y2 y3 (d / FLOAT_VEC_SIZE)
  obtain ⟨t0, t1, t2, t3⟩ := L2sqr_batch_4_tail_eq x y0 y1 y2 y3 _ d
    (Nat.div_mul_le_self d FLOAT_VEC_SIZE)
  simp only [V4.hsum] at m0 m1 m2 m3
  simp only [fvec_L2sqr_batch_4_ref_ppc, m0, m1, m2, m3, t0, t1, t2, t3, sum_range_add_tail]

/-- The four accumulators of `fvec_inner_product_batch_4_ref_ppc` after the vector loop. -/
lemma inner_product_batch_4_main_eq (x y0 y1 y2 y3 : Nat → α) (n : Nat) :
    let v := forLoop 0 (n * FLOAT_VEC_SIZE) FLOAT_VEC_SIZE
      (inner_product_batch_4_body x y0 y1 y2 y3) ⟨V4.zero, V4.zero, V4.zero, V4.zero⟩
    v.vd0.hsum = ∑ j in Finset.range (n * FLOAT_VEC_SIZE), x j * y0 j ∧
    v.vd1.hsum = ∑ j in Finset.range (n * FLOAT_VEC_SIZE), x j * y1 j ∧
    v.vd2.hsum = ∑ j in Finset.range (n * FLOAT_VEC_SIZE), x j * y2 j ∧
    v.vd3.hsum = ∑ j in Finset.range (n * FLOAT_VEC_SIZE), x j * y3 j := by
  refine ⟨?_, ?_, ?_, ?_⟩
  · rw [forLoop_main_sum (inner_product_batch_4_body x y0 y1 y2 y3) n FLOAT_VEC_SIZE
      (by decide) (fun v => v.vd0.hsum) (fun j => x j * y0 j)
      (fun i s => by simp only [inner_product_batch_4_body, FLOAT_VEC_SIZE, hsum_mul_step]),
      V4.hsum_zero, zero_add]
  · rw [forLoop_main_sum (inner_product_batch_4_body x y0 y1 y2 y3) n FLOAT_VEC_SIZE
      (by decide) (fun v => v.vd1.hsum) (fun j => x j * y1 j)
      (fun i s => by simp only [inner_product_batch_4_body, FLOAT_VEC_SIZE, hsum_mul_step]),
      V4.hsum_zero, zero_add]
  · rw [forLoop_main_sum (inner_product_batch_4_body x y0 y1 y2 y3) n FLOAT_VEC_SIZE
      (by decide) (fun v => v.vd2.hsum) (fun j => x j * y2 j)
      (fun i s => by simp only [inner_product_batch_4_body, FLOAT_VEC_SIZE, hsum_mul_step]),
      V4.hsum_zero, zero_add]
  · rw [forLoop_main_sum (inner_product_batch_4_body x y0 y1 y2 y3) n FLOAT_VEC_SIZE
      (by decide) (fun v => v.vd3.hsum) (fun j => x j * y3 j)
      (fun i s => by simp only [inner_product_batch_4_body, FLOAT_VEC_SIZE, hsum_mul_step]),
      V4.hsum_zero, zero_add]

/-- The four scalar accumulators of `fvec_inner_product_batch_4_ref_ppc` after the scalar
loop. -/
lemma inner_product_batch_4_tail_eq (x y0 y1 y2 y3 : Nat → α) (base d : Nat) (h : base ≤ d) :
    let s := forLoop base d 1 (inner_product_batch_4_tail_body x y0 y1 y2 y3) ⟨0, 0, 0, 0⟩
    s.d0 = ∑ j in Finset.Ico base d, x j * y0 j ∧
    s.d1 = ∑ j in Finset.Ico base d, x j * y1 j ∧
    s.d2 = ∑ j in Finset.Ico base d, x j * y2 j ∧
    s.d3 = ∑ j in Finset.Ico base d, x j * y3 j := by
  refine ⟨?_, ?_, ?_, ?_⟩
  · rw [forLoop_tail_sum (inner_product_batch_4_tail_body x y0 y1 y2 y3) base d h
      (fun s => s.d0) (fun j => x j * y0 j) (fun i s => rfl), zero_add]
  · rw [forLoop_tail_sum (inner_product_batch_4_tail_body x y0 y1 y2 y3) base d h
      (fun s => s.d1) (fun j => x j * y1 j) (fun i s => rfl), zero_add]
  · rw [forLoop_tail_sum (inner_product_batch_4_tail_body x y0 y1 y2 y3) base d h
      (fun s => s.d2) (fun j => x j * y2 j) (fun i s => rfl), zero_add]
  · rw [forLoop_tail_sum (inner_product_batch_4_tail_body x y0 y1 y2 y3) base d h
      (fun s => s.d3) (fun j => x j * y3 j) (fun i s => rfl), zero_add]

/-- Each output of `fvec_inner_product_batch_4_ref_ppc` is the sum of the products of the
query with the corresponding target, whether or not the remainder branch is taken. -/
lemma fvec_inner_product_batch_4_ref_ppc_eq_sum (x y0 y1 y2 y3 : Nat → α) (d : Nat) :
    fvec_inner_product_batch_4_ref_ppc x y0 y1 y2 y3 d =
      { dis0 := ∑ i in Finset.range d, x i * y0 i
        dis1 := ∑ i in Finset.range d, x i * y1 i
        dis2 := ∑ i in Finset.range d, x i * y2 i
        dis3 := ∑ i in Finset.range d, x i * y3 i } := by
  obtain ⟨m0, m1, m2, m3⟩ := inner_product_batch_4_main_eq x y0 y1 y2 y3 (d / FLOAT_VEC_SIZE)
  obtain ⟨t0, t1, t2, t3⟩ := inner_product_batch_4_tail_eq x y0 y1 y2 y3 _ d
    (Nat.div_mul_le_self d FLOAT_VEC_SIZE)
  simp only [V4.hsum] at m0 m1 m2 m3
  unfold fvec_inner_product_batch_4_ref_ppc
  by_cases hr : d % FLOAT_VEC_SIZE = 0
  · have hbase : d / FLOAT_VEC_SIZE * FLOAT_VEC_SIZE = d := Nat.div_mul_cancel
      (Nat.dvd_of_mod_eq_zero hr)
    rw [hbase] at m0 m1 m2 m3
    simp only [hr, ne_eq, not_true_eq_false, if_false, hbase, m0, m1, m2, m3]
  · simp only [hr, ne_eq, not_false_eq_true, if_true, m0, m1, m2, m3, t0, t1, t2, t3,
      sum_range_add_tail]

end BatchProofs

/-! ## Transposed batch distance -/

section TransposedProofs

variable {α : Type} [CommRing α]

/-- The unrolled loop and its scalar remainder accumulate the whole dot product. -/
lemma transposed_dp_eq (x y : Nat → α) (d d_offset i : Nat) :
    transposed_dp x y d d_offset i = ∑ j in Finset.range d, x j * y (i + j * d_offset) := by
  unfold transposed_dp
  have hmain := forLoop_main_sum (transposed_dp_body x y d_offset i) (d / 16) 16 (by decide)
    (fun s => s) (fun j => x j * y (i + j * d_offset))
    (by
      intro j s
      rw [Finset.sum_Ico_eq_sum_range]
      simp only [transposed_dp_body, Nat.add_sub_cancel_left, Finset.sum_range_succ,
        Finset.sum_range_zero, Nat.add_zero, zero_add]
      ring)
    0
  have htail := forLoop_tail_sum (fun j (dp : α) => dp + x j * y (i + j * d_offset))
    (d / 16 * 16) d (Nat.div_mul_le_self d 16) (fun s => s)
    (fun j => x j * y (i + j * d_offset)) (fun j s => rfl)
  simp only [htail, hmain, zero_add]
  exact sum_range_add_tail _ d 16

/-- The squared norm of `x` as the kernel computes it: the main loop covers
`[0, base)`, the scalar loop adds `x[j + base]^2` for `j` in `[base, d)`. -/
lemma transposed_x_sqlen_eq (x : Nat → α) (d : Nat) :
    transposed_x_sqlen x d =
      ∑ j in Finset.range (d / FLOAT_VEC_SIZE * FLOAT_VEC_SIZE), x j * x j +
      ∑ j in Finset.Ico (d / FLOAT_VEC_SIZE * FLOAT_VEC_SIZE) d,
        x (j + d / FLOAT_VEC_SIZE * FLOAT_VEC_SIZE) * x (j + d / FLOAT_VEC_SIZE * FLOAT_VEC_SIZE) := by
  unfold transposed_x_sqlen
  have hmain := forLoop_main_sum (fun i (v : V4 α) => v + vload x i * vload x i)
    (d / FLOAT_VEC_SIZE) FLOAT_VEC_SIZE (by decide) V4.hsum (fun j => x j * x j)
    (fun i s => hsum_mul_step s x x i) V4.zero
  have htail := forLoop_tail_sum
    (fun j (s : α) => s + x (j + d / FLOAT_VEC_SIZE * FLOAT_VEC_SIZE) *
      x (j + d / FLOAT_VEC_SIZE * FLOAT_VEC_SIZE))
    (d / FLOAT_VEC_SIZE * FLOAT_VEC_SIZE) d (Nat.div_mul_le_self d FLOAT_VEC_SIZE)
    (fun s => s)
    (fun j => x (j + d / FLOAT_VEC_SIZE * FLOAT_VEC_SIZE) *
      x (j + d / FLOAT_VEC_SIZE * FLOAT_VEC_SIZE)) (fun j s => rfl)
  rw [V4.hsum_zero, zero_add] at hmain
  simp only [V4.hsum] at hmain
  simp only [htail, hmain]

/-- Storing `val i` into `dis[i]` for `i = start, start + 1, ...`, `m` times. -/
lemma iterBody_update {β : Type} (val : Nat → β) :
    ∀ (m start : Nat) (dis : Nat → β) (k : Nat),
      iterBody (fun i dis => Function.update dis i (val i)) 1 m start dis k =
        if start ≤ k ∧ k < start + m then val k else dis k := by
  intro m
  induction m with
  | zero =>
    intro start dis k
    rw [iterBody, if_neg (by omega)]
  | succ m ih =>
    intro start dis k
    rw [iterBody, ih]
    by_cases hk : k = start
    · subst hk
      simp
    · rw [Function.update_noteq hk]
      have h : (start + 1 ≤ k ∧ k < start + 1 + m) ↔ (start ≤ k ∧ k < start + (m + 1)) := by
        omega
      simp only [h]

/-- What `fvec_L2sqr_ny_transposed_ref_ppc` leaves in `dis`: entry `k < ny` holds
`x_sqlen + y_sqlen[k] - 2 * (x . y_k)` with the kernel's `x_sqlen`, every other entry is
unchanged. -/
lemma fvec_L2sqr_ny_transposed_ref_ppc_eq (dis x y y_sqlen : Nat → α) (d d_offset ny k : Nat) :
    fvec_L2sqr_ny_transposed_ref_ppc dis x y y_sqlen d d_offset ny k =
      if k < ny then
        transposed_x_sqlen x d + y_sqlen k -
          2 * ∑ j in Finset.range d, x j * y (k + j * d_offset)
      else dis k := by
  unfold fvec_L2sqr_ny_transposed_ref_ppc
  simp only [transposed_dp_eq]
  rw [forLoop_unit_step _ 0 ny (Nat.zero_le _),
    iterBody_update (fun i => transposed_x_sqlen x d + y_sqlen i -
      2 * ∑ j in Finset.range d, x j * y (i + j * d_offset))]
  simp

/-- Where the scalar loop of `x_sqlen` is not entered (`d` a multiple of four) or starts at
`base = 0` (`d < 4`), the kernel returns the squared Euclidean distances, provided
`y_sqlen` holds the squared norms of the targets. -/
lemma fvec_L2sqr_ny_transposed_ref_ppc_eq_L2sqr (dis x y y_sqlen : Nat → α)
    (d d_offset ny i : Nat) (hd : d % 4 = 0 ∨ d < 4) (hi : i < ny)
    (hy : y_sqlen i = ∑ j in Finset.range d, y (i + j * d_offset) ^ 2) :
    fvec_L2sqr_ny_transposed_ref_ppc dis x y y_sqlen d d_offset ny i =
      ∑ j in Finset.range d, (x j - y (i + j * d_offset)) ^ 2 := by
  have hx : transposed_x_sqlen x d = ∑ j in Finset.range d, x j * x j := by
    rw [transposed_x_sqlen_eq]
    rcases hd with hd | hd
    · have hbase : d / FLOAT_VEC_SIZE * FLOAT_VEC_SIZE = d :=
        Nat.div_mul_cancel (Nat.dvd_of_mod_eq_zero hd)
      simp [hbase]
    · have hbase : d / FLOAT_VEC_SIZE * FLOAT_VEC_SIZE = 0 := by
        simp [FLOAT_VEC_SIZE, Nat.div_eq_of_lt hd]
      simp [hbase]
  rw [fvec_L2sqr_ny_transposed_ref_ppc_eq, if_pos hi, hx, hy, Finset.mul_sum,
    ← Finset.sum_add_distrib, ← Finset.sum_sub_distrib]
  apply Finset.sum_congr rfl
  intro j _
  ring

end TransposedProofs

/-! ## The intrinsic kernel `fvec_inner_product_ref_ippc` -/

section IntrinsicProofs

variable {α : Type} [CommRing α]

/-- The fused step `vec_madd(vx, vy, vres)` adds the four products of the block. -/
lemma hsum_madd_step (a : V4 α) (x y : Nat → α) (i : Nat) :
    (vec_madd (vload x i) (vload y i) a).hsum =
      a.hsum + ∑ j in Finset.Ico i (i + 4), x j * y j := by
  rw [sum_Ico_four]
  simp only [vec_madd, V4.hsum, V4.add_e0, V4.add_e1, V4.add_e2, V4.add_e3, V4.mul_e0,
    V4.mul_e1, V4.mul_e2, V4.mul_e3, vload_e0, vload_e1, vload_e2, vload_e3]
  ring

/-- The fused step `vec_madd(diff, diff, vres)` with `diff = vec_sub(vx, vy)` adds the four
squared differences of the block. -/
lemma hsum_madd_diff_step (a : V4 α) (x y : Nat → α) (i : Nat) :
    (vec_madd (vec_sub (vload x i) (vload y i)) (vec_sub (vload x i) (vload y i)) a).hsum =
      a.hsum + ∑ j in Finset.Ico i (i + 4), (x j - y j) ^ 2 := by
  rw [sum_Ico_four]
  simp only [vec_madd, vec_sub, V4.hsum, V4.add_e0, V4.add_e1, V4.add_e2, V4.add_e3,
    V4.sub_e0, V4.sub_e1, V4.sub_e2, V4.sub_e3, V4.mul_e0, V4.mul_e1, V4.mul_e2, V4.mul_e3,
    vload_e0, vload_e1, vload_e2, vload_e3]
  ring

lemma ippc_tail_eq (x y : Nat → α) (base d : Nat) (h : base ≤ d) :
    ippc_tail x y base d = ∑ j in Finset.Ico base d, (x j - y j) ^ 2 :=
  L2sqr_tail_eq x y base d h

lemma ippc_main1_eq (x y : Nat → α) (n : Nat) :
    (forLoop 0 (n * 4) 4 (ippc_body1 x y) V4.zero).hsum =
      ∑ j in Finset.range (n * 4), (x j - y j) ^ 2 := by
  rw [forLoop_main_sum (ippc_body1 x y) n 4 (by decide) V4.hsum
    (fun j => (x j - y j) ^ 2) (fun i s => hsum_madd_diff_step s x y i), V4.hsum_zero,
    zero_add]

/-- The factor-4 main loop accumulates `x[j] * x[j]`. -/
lemma ippc_main4_eq (x y : Nat → α) (n : Nat) :
    (forLoop 0 (n * 16) 16 (ippc_body4 x y) Acc4.zero).total =
      ∑ j in Finset.range (n * 16), x j * x j := by
  rw [forLoop_main_sum (ippc_body4 x y) n 16 (by decide) Acc4.total
    (fun j => x j * x j) ?_, Acc4_total_zero, zero_add]
  intro i s
  have hb := sum_Ico_blocks (fun j => x j * x j) 4 i 4
  simp only [Finset.sum_range_succ, Finset.sum_range_zero, zero_add, Nat.reduceMul,
    Nat.add_zero] at hb
  simp only [ippc_body4, Acc4.total, hsum_madd_step, Nat.add_zero]
  rw [← hb]
  ring

/-- The factor-8 main loop accumulates `x[j] * x[j]`. -/
lemma ippc_main8_eq (x y : Nat → α) (n : Nat) :
    (forLoop 0 (n * 32) 32 (ippc_body8 x y) Acc8.zero).total =
      ∑ j in Finset.range (n * 32), x j * x j := by
  rw [forLoop_main_sum (ippc_body8 x y) n 32 (by decide) Acc8.total
    (fun j => x j * x j) ?_, Acc8_total_zero, zero_add]
  intro i s
  have hb := sum_Ico_blocks (fun j => x j * x j) 4 i 8
  simp only [Finset.sum_range_succ, Finset.sum_range_zero, zero_add, Nat.reduceMul,
    Nat.add_zero] at hb
  simp only [ippc_body8, Acc8.total, hsum_madd_step, Nat.add_zero]
  rw [← hb]
  ring

/-- The factor-16 main loop accumulates `x[j] * y[j]`. -/
lemma ippc_main16_eq (x y : Nat → α) (n : Nat) :
    (forLoop 0 (n * 64) 64 (ippc_body16 x y) Acc16.zero).total =
      ∑ j in Finset.range (n * 64), x j * y j := by
  rw [forLoop_main_sum (ippc_body16 x y) n 64 (by decide) Acc16.total
    (fun j => x j * y j) ?_, Acc16_total_zero, zero_add]
  intro i s
  have hb := sum_Ico_blocks (fun j => x j * y j) 4 i 16
  simp only [Finset.sum_range_succ, Finset.sum_range_zero, zero_add, Nat.reduceMul,
    Nat.add_zero] at hb
  simp only [ippc_body16, Acc16.total, hsum_madd_step, Nat.add_zero]
  rw [← hb]
  ring

/-- What `fvec_inner_product_ref_ippc` returns, tier by tier: the squared distance for
`d < 32`; for `32 ≤ d < 128` the squared norm of the main-loop part of `x` plus the squared
distance of the remainder; for `d ≥ 128` the inner product of the main-loop part plus the
squared distance of the remainder. -/
lemma fvec_inner_product_ref_ippc_eq (x y : Nat → α) (d : Nat) :
    fvec_inner_product_ref_ippc x y d =
      if d < 32 then ∑ j in Finset.range d, (x j - y j) ^ 2
      else if d < 64 then
        ∑ j in Finset.range (d / 16 * 16), x j * x j +
          ∑ j in Finset.Ico (d / 16 * 16) d, (x j - y j) ^ 2
      else if d < 128 then
        ∑ j in Finset.range (d / 32 * 32), x j * x j +
          ∑ j in Finset.Ico (d / 32 * 32) d, (x j - y j) ^ 2
      else
        ∑ j in Finset.range (d / 64 * 64), x j * y j +
          ∑ j in Finset.Ico (d / 64 * 64) d, (x j - y j) ^ 2 := by
  unfold fvec_inner_product_ref_ippc
  have h48 : (d < 64 ∨ d = 48) ↔ d < 64 := by omega
  simp only [h48]
  split_ifs with h1 h2 h3
  · have hm := ippc_main1_eq x y (d / 4)
    have ht := ippc_tail_eq x y _ d (Nat.div_mul_le_self d 4)
    have hs := sum_range_add_tail (fun j => (x j - y j) ^ 2) d 4
    simp only [V4.hsum] at hm
    simp only [vec_extract_zero, vec_extract_one, vec_extract_two, vec_extract_three, ht,
      ← hs, ← hm]
    ring
  · have hm := ippc_main4_eq x y (d / 16)
    have ht := ippc_tail_eq x y _ d (Nat.div_mul_le_self d 16)
    rw [← reduce4_eq] at hm
    simp only [V4.hsum] at hm
    simp only [vec_extract_zero, vec_extract_one, vec_extract_two, vec_extract_three, vec_add,
      ht, ← hm]
    ring
  · have hm := ippc_main8_eq x y (d / 32)
    have ht := ippc_tail_eq x y _ d (Nat.div_mul_le_self d 32)
    rw [← reduce8_eq] at hm
    simp only [V4.hsum] at hm
    simp only [vec_extract_zero, vec_extract_one, vec_extract_two, vec_extract_three, vec_add,
      ht, ← hm]
    ring
  · have hm := ippc_main16_eq x y (d / 64)
    have ht := ippc_tail_eq x y _ d (Nat.div_mul_le_self d 64)
    rw [← reduce16_eq] at hm
    simp only [V4.hsum] at hm
    simp only [vec_extract_zero, vec_extract_one, vec_extract_two, vec_extract_three, vec_add,
      ht, ← hm]
    ring

end IntrinsicProofs

/-! ## Hamming distance -/

section HammingProofs

lemma popcount_zero_arg : ∀ w : Nat, popcount w 0 = 0
  | 0 => rfl
  | w + 1 => by rw [popcount, Nat.zero_div, popcount_zero_arg w]

lemma popcount_le : ∀ w n : Nat, popcount w n ≤ w
  | 0, _ => le_rfl
  | w + 1, n => by
    rw [popcount]
    have := popcount_le w (n / 2)
    have := Nat.mod_lt n (show 0 < 2 by decide)
    omega

/-- Bits above the width of the argument do not count. -/
lemma popcount_of_lt : ∀ (w k n : Nat), n < 2 ^ w → popcount (w + k) n = popcount w n
  | 0, k, n, h => by
    have : n = 0 := by simpa using h
    subst this
    rw [popcount_zero_arg, popcount_zero_arg]
  | w + 1, k, n, h => by
    have h2 : n / 2 < 2 ^ w := by
      rw [Nat.div_lt_iff_lt_mul (by decide)]
      rw [pow_succ] at h
      exact h
    rw [show w + 1 + k = (w + k) + 1 by ring, popcount, popcount, popcount_of_lt w k _ h2]

/-- The function `popcount w` counts the one bits among the low `w` bits. -/
lemma popcount_eq_sum : ∀ w n : Nat,
    popcount w n = ∑ j in Finset.range w, if n.testBit j then 1 else 0
  | 0, _ => by simp [popcount]
  | w + 1, n => by
    rw [popcount, Finset.sum_range_succ', popcount_eq_sum w (n / 2), Nat.testBit_zero,
      add_comm]
    congr 1
    · apply Finset.sum_congr rfl
      intro j _
      rw [Nat.testBit_add_one]
    · rcases Nat.mod_two_eq_zero_or_one n with h | h <;> simp [h]

lemma xor8_val (a b : uint8_t) : (xor8 a b).val = a.val ^^^ b.val := by
  have h : a.val ^^^ b.val < 2 ^ 8 := Nat.xor_lt_two_pow a.isLt b.isLt
  simp only [xor8]
  exact Nat.mod_eq_of_lt h

lemma popcnt8_val (a : uint8_t) : (popcnt8 a).val = popcount 8 a.val := by
  have := popcount_le 8 a.val
  simp only [popcnt8]
  exact Nat.mod_eq_of_lt (by omega)

lemma builtin_popcount_eq (a : uint8_t) : builtin_popcount a = popcount 8 a.val :=
  popcount_of_lt 8 24 a.val a.isLt

/-- With `vec_popcnt`, `hamming_distance_ref_ppc` is the sum over the bytes of the bit
count of the byte-wise exclusive or, whatever the split into blocks and tail. -/
lemma hamming_distance_ref_ppc_eq_sum (v w : Nat → uint8_t) (size : Nat) :
    hamming_distance_ref_ppc true v w size =
      ∑ i in Finset.range size, popcount 8 ((v i).val ^^^ (w i).val) := by
  have hmain := forLoop_main_sum
    (fun i distance =>
      forLoop 0 CHAR_VEC_SIZE 1
        (fun j distance =>
          distance + (vec_popcnt (vxor16 (vload16 v i) (vload16 w i)) j).val) distance)
    (size / CHAR_VEC_SIZE) CHAR_VEC_SIZE (by decide) (fun s => s)
    (fun j => popcount 8 ((v j).val ^^^ (w j).val))
    (by
      intro i s
      beta_reduce
      rw [forLoop_tail_sum _ 0 CHAR_VEC_SIZE (Nat.zero_le _) (fun s => s)
        (fun j => (vec_popcnt (vxor16 (vload16 v i) (vload16 w i)) j).val)
        (fun j s => rfl), Finset.sum_Ico_eq_sum_range, Finset.sum_Ico_eq_sum_range]
      simp only [vec_popcnt, vxor16, vload16, popcnt8_val, xor8_val, Nat.sub_zero,
        Nat.zero_add, Nat.add_sub_cancel_left])
    0
  have htail := forLoop_tail_sum
    (fun i distance => distance + builtin_popcount (xor8 (v i) (w i)))
    (size / CHAR_VEC_SIZE * CHAR_VEC_SIZE) size (Nat.div_mul_le_self _ _) (fun s => s)
    (fun j => popcount 8 ((v j).val ^^^ (w j).val))
    (by intro i s; simp only [builtin_popcount_eq, xor8_val])
  simp only [hamming_distance_ref_ppc, if_true, htail, hmain, zero_add]
  exact sum_range_add_tail _ size CHAR_VEC_SIZE

/-- The number of differing bit positions is the sum over the bytes of the bit count of
the byte-wise exclusive or. -/
lemma differing_bits_eq_sum (v w : Nat → uint8_t) (size : Nat) :
    differing_bits v w size =
      ∑ i in Finset.range size, popcount 8 ((v i).val ^^^ (w i).val) := by
  unfold differing_bits
  have hb := sum_Ico_blocks (fun p => if bitAt v p ≠ bitAt w p then 1 else 0) 8 0 size
  rw [Nat.zero_add, ← Finset.range_eq_Ico] at hb
  rw [Finset.card_filter, ← hb]
  apply Finset.sum_congr rfl
  intro i _
  rw [Finset.sum_Ico_eq_sum_range, popcount_eq_sum]
  simp only [Nat.add_sub_cancel_left]
  apply Finset.sum_congr rfl
  intro j hj
  have hj8 : j < 8 := Finset.mem_range.mp hj
  have h1 : (0 + 8 * i + j) / 8 = i := by omega
  have h2 : (0 + 8 * i + j) % 8 = j := by omega
  simp only [bitAt, h1, h2, Nat.testBit_xor]
  cases (v i).val.testBit j <;> cases (w i).val.testBit j <;> rfl

end HammingProofs

/-! ## The scalar references -/

section Originals

variable {α : Type} [CommRing α]

lemma fvec_L2sqr_ref_original_eq_sum (x y : Nat → α) (d : Nat) :
    fvec_L2sqr_ref_original x y d = ∑ i in Finset.range d, (x i - y i) ^ 2 := by
  have := L2sqr_tail_eq x y 0 d (Nat.zero_le d)
  rw [← Finset.range_eq_Ico] at this
  exact this

lemma fvec_inner_product_ref_original_eq_sum (x y : Nat → α) (d : Nat) :
    fvec_inner_product_ref_original x y d = ∑ i in Finset.range d, x i * y i := by
  have := inner_product_tail_eq x y 0 d (Nat.zero_le d)
  rw [← Finset.range_eq_Ico] at this
  exact this

end Originals

set_option maxRecDepth 100000

/-! ## Integer kernels -/

section IntegerProofs

/-- A value in the `int32_t` range is not changed by wrapping. -/
lemma wrap32_of_range (z : Int) (h1 : -2147483648 ≤ z) (h2 : z < 2147483648) :
    wrap32 z = z := by
  unfold wrap32
  omega

/-- Wrapping the operands of an addition does not change the wrapped sum. -/
lemma wrap32_add_wrap32 (a b : Int) : wrap32 (wrap32 a + wrap32 b) = wrap32 (a + b) := by
  unfold wrap32
  omega

lemma wrap32_wrap32 (a : Int) : wrap32 (wrap32 a) = wrap32 a := by
  unfold wrap32
  omega

/-- A wrapped accumulation `res = wrap32 (res + wrap32 (t i))` is the wrapped sum. -/
lemma iterBody_wrap32_sum (t : Nat → Int) :
    ∀ (m i : Nat) (s : Int),
      iterBody (fun i res => wrap32 (res + wrap32 (t i))) 1 m i (wrap32 s) =
        wrap32 (s + ∑ j in Finset.Ico i (i + m), t j) := by
  intro m
  induction m with
  | zero => intro i s; simp [iterBody]
  | succ m ih =>
    intro i s
    have hstep : wrap32 (wrap32 s + wrap32 (t i)) = wrap32 (s + t i) := wrap32_add_wrap32 s (t i)
    have hidx : i + 1 + m = i + (m + 1) := by omega
    rw [iterBody, hstep, ih, Finset.sum_eq_sum_Ico_succ_bot (by omega : i < i + (m + 1)),
      hidx, add_assoc]

/-- The difference of two `int8_t` values fits an `int32_t`. -/
lemma wrap32_int8_sub (a b : int8_t) : wrap32 (a.val - b.val) = a.val - b.val := by
  have ha := a.property
  have hb := b.property
  exact wrap32_of_range _ (by omega) (by omega)

/-- The `int32_t` result of `ivec_L2sqr_ref_ppc` is the wrapped sum of the squared
differences. -/
lemma ivec_L2sqr_ref_ppc_eq_wrap (x y : Nat → int8_t) (d : Nat) :
    ivec_L2sqr_ref_ppc x y d =
      wrap32 (∑ i in Finset.range d, ((x i).val - (y i).val) * ((x i).val - (y i).val)) := by
  unfold ivec_L2sqr_ref_ppc
  rw [forLoop_unit_step _ 0 d (Nat.zero_le d)]
  have h := iterBody_wrap32_sum (fun i => ((x i).val - (y i).val) * ((x i).val - (y i).val))
    (d - 0) 0 0
  simp only [wrap32_int8_sub]
  rw [show wrap32 0 = 0 by decide] at h
  rw [h, Nat.sub_zero, Nat.zero_add, zero_add, Finset.range_eq_Ico]

/-- The `int32_t` result of `ivec_inner_product_ref_ppc` is the wrapped sum of the
products. -/
lemma ivec_inner_product_ref_ppc_eq_wrap (x y : Nat → int8_t) (d : Nat) :
    ivec_inner_product_ref_ppc x y d =
      wrap32 (∑ i in Finset.range d, (x i).val * (y i).val) := by
  unfold ivec_inner_product_ref_ppc
  rw [forLoop_unit_step _ 0 d (Nat.zero_le d)]
  have h := iterBody_wrap32_sum (fun i => (x i).val * (y i).val) (d - 0) 0 0
  rw [show wrap32 0 = 0 by decide] at h
  rw [h, Nat.sub_zero, Nat.zero_add, zero_add, Finset.range_eq_Ico]

/-- The square of a difference of two `int8_t` values is between `0` and `255^2`. -/
lemma int8_sqdiff_bounds (a b : int8_t) :
    0 ≤ (a.val - b.val) * (a.val - b.val) ∧ (a.val - b.val) * (a.val - b.val) ≤ 65025 := by
  have ha := a.property
  have hb := b.property
  constructor
  · exact mul_self_nonneg _
  · nlinarith

/-- The sum of `d` squared differences of `int8_t` values is between `0` and `65025 * d`. -/
lemma int8_sqdiff_sum_bounds (x y : Nat → int8_t) (d : Nat) :
    0 ≤ ∑ i in Finset.range d, ((x i).val - (y i).val) * ((x i).val - (y i).val) ∧
      ∑ i in Finset.range d, ((x i).val - (y i).val) * ((x i).val - (y i).val) ≤ 65025 * d := by
  constructor
  · exact Finset.sum_nonneg (fun i _ => (int8_sqdiff_bounds (x i) (y i)).1)
  · have h := Finset.sum_le_sum
      (fun i (_ : i ∈ Finset.range d) => (int8_sqdiff_bounds (x i) (y i)).2)
    simp only [Finset.sum_const, Finset.card_range, nsmul_eq_mul] at h
    linarith

/-- A sum over `[0, d)` does not change when the indices are permuted. -/
lemma sum_range_permute_vec {β : Type} (d : Nat) (p : Equiv.Perm (Fin d)) (x y : Nat → β)
    (f : β → β → Int) :
    ∑ i in Finset.range d, f (permute_vec d p x i) (permute_vec d p y i) =
      ∑ i in Finset.range d, f (x i) (y i) := by
  rw [Finset.sum_range, Finset.sum_range]
  have h : ∀ i : Fin d, f (permute_vec d p x i.val) (permute_vec d p y i.val) =
      f (x (p i).val) (y (p i).val) := by
    intro i
    simp [permute_vec, i.isLt]
  simp only [h]
  exact Equiv.sum_comp p (fun j => f (x j.val) (y j.val))

end IntegerProofs

/-! ## Squared norm -/

section NormProofs

variable {α : Type} [CommRing α]

/-- Sum of the lanes of the odd and the even accumulator. -/
lemma norm_L2sqr_body_total (x : Nat → α) (i : Nat) (a : NormAcc α) :
    (norm_L2sqr_body x i a).vreso.e0 + (norm_L2sqr_body x i a).vreso.e1 +
        (norm_L2sqr_body x i a).vrese.e0 + (norm_L2sqr_body x i a).vrese.e1 =
      a.vreso.e0 + a.vreso.e1 + a.vrese.e0 + a.vrese.e1 +
        ∑ j in Finset.Ico i (i + FLOAT_VEC_SIZE), x j * x j := by
  rw [FLOAT_VEC_SIZE, sum_Ico_four]
  show (a.vreso.e0 + x (i + 1) * x (i + 1)) + (a.vreso.e1 + x (i + 3) * x (i + 3)) +
      (a.vrese.e0 + x i * x i) + (a.vrese.e1 + x (i + 2) * x (i + 2)) = _
  ring

/-- The kernel `fvec_norm_L2sqr_ref_ppc` returns the sum of the squares. -/
lemma fvec_norm_L2sqr_ref_ppc_eq_sum (x : Nat → α) (d : Nat) :
    fvec_norm_L2sqr_ref_ppc x d = ∑ i in Finset.range d, x i * x i := by
  unfold fvec_norm_L2sqr_ref_ppc
  have hmain := forLoop_main_sum (norm_L2sqr_body x) (d / FLOAT_VEC_SIZE) FLOAT_VEC_SIZE
    (by decide) (fun a => a.vreso.e0 + a.vreso.e1 + a.vrese.e0 + a.vrese.e1)
    (fun j => x j * x j) (fun i s => norm_L2sqr_body_total x i s) ⟨⟨0, 0⟩, ⟨0, 0⟩⟩
  have htail := forLoop_tail_sum (fun i (res : α) => res + x i * x i)
    (d / FLOAT_VEC_SIZE * FLOAT_VEC_SIZE) d (Nat.div_mul_le_self d FLOAT_VEC_SIZE)
    (fun s => s) (fun j => x j * x j) (fun i s => rfl) 0
  have hs := sum_range_add_tail (fun j => x j * x j) d FLOAT_VEC_SIZE
  simp only [add_zero, zero_add] at hmain htail
  simp only [htail, ← hs, ← hmain]
  ring

lemma fvec_norm_L2sqr_ref_original_eq_sum (x : Nat → α) (d : Nat) :
    fvec_norm_L2sqr_ref_original x d = ∑ i in Finset.range d, x i * x i := by
  unfold fvec_norm_L2sqr_ref_original
  have htail := forLoop_tail_sum (fun i (res : α) => res + x i * x i) 0 d (Nat.zero_le d)
    (fun s => s) (fun j => x j * x j) (fun i s => rfl) 0
  rw [htail, zero_add, Finset.range_eq_Ico]

end NormProofs

/-! ## Intrinsic batch-4 inner product -/

section IntrinsicBatchProofs

variable {α : Type} [CommRing α]

/-- The load at byte offset `i * sizeof(float)` is the load of elements `i .. i + 3`. -/
lemma vec_xl_eq_vload {β : Type} (x : Nat → β) (i : Nat) :
    vec_xl (i * sizeof_float) x = vload x i := by
  unfold vec_xl
  rw [Nat.mul_div_cancel i (by decide : 0 < sizeof_float)]

/-- The four accumulators of `fvec_inner_product_batch_4_ref_ippc` after the vector loop. -/
lemma ippc_batch_4_main_eq (x y0 y1 y2 y3 : Nat → α) (n : Nat) :
    let v := forLoop 0 (n * FLOAT_VEC_SIZE) FLOAT_VEC_SIZE
      (ippc_batch_4_body x y0 y1 y2 y3) ⟨V4.zero, V4.zero, V4.zero, V4.zero⟩
    v.vd0.hsum = ∑ j in Finset.range (n * FLOAT_VEC_SIZE), x j * y0 j ∧
    v.vd1.hsum = ∑ j in Finset.range (n * FLOAT_VEC_SIZE), x j * y1 j ∧
    v.vd2.hsum = ∑ j in Finset.range (n * FLOAT_VEC_SIZE), x j * y2 j ∧
    v.vd3.hsum = ∑ j in Finset.range (n * FLOAT_VEC_SIZE), x j * y3 j := by
  refine ⟨?_, ?_, ?_, ?_⟩
  · rw [forLoop_main_sum (ippc_batch_4_body x y0 y1 y2 y3) n FLOAT_VEC_SIZE
      (by decide) (fun v => v.vd0.hsum) (fun j => x j * y0 j)
      (fun i s => by
        simp only [ippc_batch_4_body, vec_xl_eq_vload, FLOAT_VEC_SIZE, hsum_madd_step]),
      V4.hsum_zero, zero_add]
  · rw [forLoop_main_sum (ippc_batch_4_body x y0 y1 y2 y3) n FLOAT_VEC_SIZE
      (by decide) (fun v => v.vd1.hsum) (fun j => x j * y1 j)
      (fun i s => by
        simp only [ippc_batch_4_body, vec_xl_eq_vload, FLOAT_VEC_SIZE, hsum_madd_step]),
      V4.hsum_zero, zero_add]
  · rw [forLoop_main_sum (ippc_batch_4_body x y0 y1 y2 y3) n FLOAT_VEC_SIZE
      (by decide) (fun v => v.vd2.hsum) (fun j => x j * y2 j)
      (fun i s => by
        simp only [ippc_batch_4_body, vec_xl_eq_vload, FLOAT_VEC_SIZE, hsum_madd_step]),
      V4.hsum_zero, zero_add]
  · rw [forLoop_main_sum (ippc_batch_4_body x y0 y1 y2 y3) n FLOAT_VEC_SIZE
      (by decide) (fun v => v.vd3.hsum) (fun j => x j * y3 j)
      (fun i s => by
        simp only [ippc_batch_4_body, vec_xl_eq_vload, FLOAT_VEC_SIZE, hsum_madd_step]),
      V4.hsum_zero, zero_add]

/-- Each output of `fvec_inner_product_batch_4_ref_ippc` is the sum of the products of the
query with the corresponding target, whether or not the remainder branch is taken. -/
lemma fvec_inner_product_batch_4_ref_ippc_eq_sum (x y0 y1 y2 y3 : Nat → α) (d : Nat) :
    fvec_inner_product_batch_4_ref_ippc x y0 y1 y2 y3 d =
      { dis0 := ∑ i in Finset.range d, x i * y0 i
        dis1 := ∑ i in Finset.range d, x i * y1 i
        dis2 := ∑ i in Finset.range d, x i * y2 i
        dis3 := ∑ i in Finset.range d, x i * y3 i } := by
  obtain ⟨m0, m1, m2, m3⟩ := ippc_batch_4_main_eq x y0 y1 y2 y3 (d / FLOAT_VEC_SIZE)
  obtain ⟨t0, t1, t2, t3⟩ := inner_product_batch_4_tail_eq x y0 y1 y2 y3 _ d
    (Nat.div_mul_le_self d FLOAT_VEC_SIZE)
  simp only [V4.hsum] at m0 m1 m2 m3
  unfold fvec_inner_product_batch_4_ref_ippc
  by_cases hr : d % FLOAT_VEC_SIZE = 0
  · have hbase : d / FLOAT_VEC_SIZE * FLOAT_VEC_SIZE = d := Nat.div_mul_cancel
      (Nat.dvd_of_mod_eq_zero hr)
    rw [hbase] at m0 m1 m2 m3
    simp only [hr, ne_eq, not_true_eq_false, if_false, hbase, m0, m1, m2, m3]
  · simp only [hr, ne_eq, not_false_eq_true, if_true, m0, m1, m2, m3, t0, t1, t2, t3,
      sum_range_add_tail]

/-- The documented original loops of the batch-4 inner product. -/
lemma fvec_inner_product_batch_4_ref_original_eq_sum (x y0 y1 y2 y3 : Nat → α) (d : Nat) :
    fvec_inner_product_batch_4_ref_original x y0 y1 y2 y3 d =
      { dis0 := ∑ i in Finset.range d, x i * y0 i
        dis1 := ∑ i in Finset.range d, x i * y1 i
        dis2 := ∑ i in Finset.range d, x i * y2 i
        dis3 := ∑ i in Finset.range d, x i * y3 i } := by
  obtain ⟨t0, t1, t2, t3⟩ := inner_product_batch_4_tail_eq x y0 y1 y2 y3 0 d (Nat.zero_le d)
  simp only [fvec_inner_product_batch_4_ref_original, t0, t1, t2, t3, Finset.range_eq_Ico]

end IntrinsicBatchProofs

/-! ## Tier selection and loop coverage -/

section TierProofs

/-- The selected unroll factor as a table: the clause `d == 48` changes nothing. -/
lemma L2sqr_unroll_factor_eq (d : Nat) :
    L2sqr_unroll_factor d =
      if d < 32 then 1 else if d < 64 then 4 else if d < 128 then 8 else 16 := by
  unfold L2sqr_unroll_factor
  have h48 : (d < 64 ∨ d = 48) ↔ d < 64 := by omega
  simp only [h48]

lemma ippc_unroll_factor_eq (d : Nat) :
    ippc_unroll_factor d =
      if d < 32 then 1 else if d < 64 then 4 else if d < 128 then 8 else 16 := by
  unfold ippc_unroll_factor
  have h48 : (d < 64 ∨ d = 48) ↔ d < 64 := by omega
  simp only [h48]

/-- The kernel `fvec_L2sqr_ref_ppc` runs the branch of its selected unroll factor. -/
lemma fvec_L2sqr_ref_ppc_eq_tier {α : Type} [Zero α] [Add α] [Sub α] [Mul α]
    (x y : Nat → α) (d : Nat) :
    fvec_L2sqr_ref_ppc x y d = L2sqr_tier (L2sqr_unroll_factor d) x y d := by
  unfold fvec_L2sqr_ref_ppc L2sqr_tier L2sqr_unroll_factor
  split_ifs <;> first | rfl | omega

lemma fvec_inner_product_ref_ppc_eq_tier {α : Type} [Zero α] [Add α] [Mul α]
    (x y : Nat → α) (d : Nat) :
    fvec_inner_product_ref_ppc x y d =
      inner_product_tier (inner_product_unroll_factor d) x y d := by
  unfold fvec_inner_product_ref_ppc inner_product_tier inner_product_unroll_factor
  split_ifs <;> first | rfl | omega

lemma fvec_inner_product_ref_ippc_eq_tier {α : Type} [Zero α] [Add α] [Sub α] [Mul α]
    (x y : Nat → α) (d : Nat) :
    fvec_inner_product_ref_ippc x y d = ippc_tier (ippc_unroll_factor d) x y d := by
  unfold fvec_inner_product_ref_ippc ippc_tier ippc_unroll_factor
  split_ifs <;> first | rfl | omega

/-- Trip counts of the two loops of a tier with chunk size `c`: the main loop
`for (i = 0; i < base; i += c)` with `base = (d / c) * c` runs its body exactly `d / c`
times, at `0, c, 2c, ..`, and `base = d - d % c`; the remainder loop
`for (i = base; i < d; i++)` runs its body exactly `d % c < c` times, at
`base, base + 1, ..`. -/
lemma tier_loops_trip_counts {σ τ : Type} (c d : Nat) (hc : 0 < c)
    (main : Nat → σ → σ) (init : σ) (tail : Nat → τ → τ) (res : τ) :
    forLoop 0 (d / c * c) c main init = iterBody main c (d / c) 0 init ∧
    d / c * c = d - d % c ∧
    forLoop (d / c * c) d 1 tail res = iterBody tail 1 (d % c) (d / c * c) res ∧
    d % c < c := by
  have hbase : d / c * c = d - d % c := by
    have := Nat.div_add_mod d c
    rw [Nat.mul_comm] at this
    omega
  have hle : d / c * c ≤ d := Nat.div_mul_le_self d c
  refine ⟨forLoop_mul_step main (d / c) c hc init, hbase, ?_, Nat.mod_lt d hc⟩
  rw [forLoop_unit_step tail _ d hle]
  congr 1
  have := Nat.mod_le d c
  omega

end TierProofs

/-! ## The CSV loader -/

section LoaderProofs

variable {α : Type}

lemma takeUntil_length_le (delim : Char) :
    ∀ s : List Char, (takeUntil delim s).2.length ≤ s.length
  | [] => le_rfl
  | c :: cs => by
    unfold takeUntil
    split_ifs
    · simp
    · have := takeUntil_length_le delim cs
      simp only [List.length_cons]
      omega

/-- The first string that `getline` extracts, followed by the strings of the remaining
stream, are the strings of the stream. -/
lemma split_on_cons (delim : Char) :
    ∀ (c : Char) (cs : List Char),
      split_on delim (c :: cs) =
        (takeUntil delim (c :: cs)).1 :: split_on delim (takeUntil delim (c :: cs)).2 := by
  intro c cs
  induction cs generalizing c with
  | nil =>
    unfold split_on takeUntil
    split_ifs <;> simp [split_on, takeUntil]
  | cons c' cs ih =>
    rw [split_on, takeUntil]
    split_ifs with h
    · rfl
    · rw [ih c']

/-- With fuel for every character, the `getline` loop runs its body over the strings of
the stream, in order, until the first error. -/
lemma whileGetline_eq_runStrings {σ ε : Type} (delim : Char)
    (body : List Char → σ → Except ε σ) :
    ∀ (fuel : Nat) (s : List Char) (st : σ), s.length ≤ fuel →
      whileGetline delim body fuel s st = runStrings body (split_on delim s) st := by
  intro fuel
  induction fuel with
  | zero =>
    intro s st h
    have : s = [] := List.length_eq_zero.mp (Nat.le_zero.mp h)
    subst this
    rfl
  | succ fuel ih =>
    intro s st h
    cases s with
    | nil => rfl
    | cons c cs =>
      rw [whileGetline, split_on_cons, runStrings]
      simp only [getline]
      cases hb : body (takeUntil delim (c :: cs)).1 st with
      | error e => rfl
      | ok st' =>
        simp only
        apply ih
        have h1 : (takeUntil delim (c :: cs)).2.length ≤ cs.length := by
          unfold takeUntil
          split_ifs
          · exact le_rfl
          · exact takeUntil_length_le delim cs
        simp only [List.length_cons] at h
        omega

/-- The loader runs `load_line` over the physical lines of the file. -/
lemma load_vectors_from_csv_safe_eq (stof : List Char → Except StofException α)
    (content : List Char) :
    load_vectors_from_csv_safe stof (some content) =
      match runStrings (load_line stof) (file_lines content) ⟨[], 0, 0⟩ with
      | .error e => .error e
      | .ok st => .ok (st.data, st.vector_dim) := by
  have h := whileGetline_eq_runStrings '\n' (load_line stof) content.length content
    ⟨[], 0, 0⟩ le_rfl
  simp only [load_vectors_from_csv_safe, file_lines, h]

end LoaderProofs
section LoaderInvariants

variable {α : Type}

/-- A skipped line only advances the line counter. -/
lemma load_line_blank (stof : List Char → Except StofException α) (line : List Char)
    (st : LoadState α) (h : is_blank line = true) :
    load_line stof line st = .ok { st with line_number := st.line_number + 1 } := by
  unfold load_line
  simp only [h, if_true]

end LoaderInvariants
section LoaderForward

variable {α : Type}

/-- The loader skips a line exactly when all its characters are among space, tab, carriage
return and line feed. -/
lemma is_blank_iff (line : List Char) :
    is_blank line = true ↔ ∀ c ∈ line, c = ' ' ∨ c = '\t' ∨ c = '\r' ∨ c = '\n' := by
  have key : ∀ l : List Char, (find_first_not_of [' ', '\t', '\r', '\n'] l).isNone = true ↔
      ∀ c ∈ l, c = ' ' ∨ c = '\t' ∨ c = '\r' ∨ c = '\n' := by
    intro l
    induction l with
    | nil => simp [find_first_not_of]
    | cons c cs ih =>
      rw [find_first_not_of]
      by_cases hc : c ∈ [' ', '\t', '\r', '\n']
      · rw [if_pos hc]
        have hc' : c = ' ' ∨ c = '\t' ∨ c = '\r' ∨ c = '\n' := by simpa using hc
        simp only [List.mem_cons, forall_eq_or_imp, hc', true_and]
        rw [← ih]
        cases find_first_not_of [' ', '\t', '\r', '\n'] cs <;> simp
      · rw [if_neg hc]
        have hc' : ¬ (c = ' ' ∨ c = '\t' ∨ c = '\r' ∨ c = '\n') := by simpa using hc
        simp only [Option.isNone_some, Bool.false_eq_true, List.mem_cons, forall_eq_or_imp,
          hc', false_and]
  unfold is_blank
  cases line with
  | nil => simp
  | cons c cs =>
    simp only [List.isEmpty_cons, Bool.false_or]
    exact key (c :: cs)

/-- A run over blank lines only advances the line counter. -/
lemma runStrings_load_line_blank (stof : List Char → Except StofException α) :
    ∀ (ls : List (List Char)) (st : LoadState α), (∀ l ∈ ls, is_blank l = true) →
      runStrings (load_line stof) ls st =
        .ok { st with line_number := st.line_number + ls.length } := by
  intro ls
  induction ls with
  | nil => intro st _; rfl
  | cons l ls ih =>
    intro st h
    rw [runStrings, load_line_blank stof l st (h l (List.mem_cons_self _ _))]
    simp only
    rw [ih _ (fun l' hl' => h l' (List.mem_cons_of_mem _ hl'))]
    simp only [List.length_cons, Except.ok.injEq, LoadState.mk.injEq, true_and, and_true]
    omega

end LoaderForward

/-! ## More loop lemmas -/

section MoreLoopLemmas

variable {σ : Type}

/-- A loop whose index passes `bound` after exactly `m` steps runs its body `m` times; the
bound need not be a multiple of the step. -/
lemma forLoop_eq_iterBody (body : Nat → σ → σ) (bound step : Nat) (hstep : 0 < step) :
    ∀ (m start : Nat) (s : σ), bound ≤ start + m * step →
      (∀ k, k < m → start + k * step < bound) →
      forLoop start bound step body s = iterBody body step m start s := by
  intro m
  induction m with
  | zero =>
    intro start s h _
    rw [forLoop_unfold body start bound step hstep, if_neg (by omega)]
    rfl
  | succ m ih =>
    intro start s h hk
    have h0 : start < bound := by simpa using hk 0 (Nat.succ_pos m)
    rw [forLoop_unfold body start bound step hstep, if_pos h0, iterBody]
    apply ih
    · have e : start + step + m * step = start + (m + 1) * step := by ring
      rw [e]
      exact h
    · intro k hkm
      have e : start + step + k * step = start + (k + 1) * step := by ring
      rw [e]
      exact hk (k + 1) (by omega)

/-- The last of `m + 1` executions of a body is the one at index `i + m * step`. -/
lemma iterBody_succ_last (body : Nat → σ → σ) (step : Nat) :
    ∀ (m i : Nat) (s : σ),
      iterBody body step (m + 1) i s = body (i + m * step) (iterBody body step m i s) := by
  intro m
  induction m with
  | zero => intro i s; simp [iterBody]
  | succ m ih =>
    intro i s
    rw [iterBody, ih (i + step) (body i s)]
    have h : i + step + m * step = i + (m + 1) * step := by ring
    rw [h]
    rfl

/-- Executions of a body one after the other. -/
lemma iterBody_add (body : Nat → σ → σ) (step : Nat) :
    ∀ (a b i : Nat) (s : σ),
      iterBody body step (a + b) i s =
        iterBody body step b (i + a * step) (iterBody body step a i s) := by
  intro a
  induction a with
  | zero => intro b i s; simp [iterBody]
  | succ a ih =>
    intro b i s
    have h : a + 1 + b = (a + b) + 1 := by omega
    rw [h, iterBody, ih b (i + step) (body i s), iterBody]
    have h2 : i + step + a * step = i + (a + 1) * step := by ring
    rw [h2]

/-- A body that is `c` executions of a unit-step body, run `n` times with step `c`, is
`n * c` executions of the unit-step body. -/
lemma iterBody_blocks (big small : Nat → σ → σ) (c : Nat)
    (h : ∀ i s, big i s = iterBody small 1 c i s) :
    ∀ (n i : Nat) (s : σ), iterBody big c n i s = iterBody small 1 (n * c) i s := by
  intro n
  induction n with
  | zero => intro i s; simp [iterBody]
  | succ n ih =>
    intro i s
    have hc : (n + 1) * c = c + n * c := by ring
    rw [iterBody, ih, h, hc, iterBody_add small 1 c (n * c) i s, Nat.mul_one]

/-- A unit-step run of a body as a left fold over the indices. -/
lemma iterBody_eq_foldl (body : Nat → σ → σ) :
    ∀ (m i : Nat) (s : σ),
      iterBody body 1 m i s = (List.range m).foldl (fun s k => body (i + k) s) s := by
  intro m
  induction m with
  | zero => intro i s; rfl
  | succ m ih =>
    intro i s
    rw [iterBody_succ_last, ih, List.range_succ, List.foldl_append]
    simp

/-- A loop over results that may have failed, with a body that never fails. -/
lemma iterBody_bind_ok {ε : Type} (g : Nat → σ → σ) (step : Nat) :
    ∀ (m i : Nat) (s : σ),
      iterBody (fun i (r : Except ε σ) => r.bind (fun st => Except.ok (g i st))) step m i
        (Except.ok s) = Except.ok (iterBody g step m i s) := by
  intro m
  induction m with
  | zero => intro i s; rfl
  | succ m ih =>
    intro i s
    rw [iterBody, iterBody]
    exact ih (i + step) (g i s)

end MoreLoopLemmas

/-! ## The dot product of the transposed kernel, without laws of arithmetic -/

lemma transposed_dp_body_eq_iterBody {α : Type} [Add α] [Mul α] (x y : Nat → α)
    (d_offset i j : Nat) (dp : α) :
    transposed_dp_body x y d_offset i j dp =
      iterBody (fun j dp => dp + x j * y (i + j * d_offset)) 1 16 j dp := rfl

section TransposedOrder

variable {α : Type} [Zero α] [Add α] [Mul α]

/-- The unrolled dot product is the plain loop, whatever `+` and `*` are. -/
lemma transposed_dp_eq_naive (x y : Nat → α) (d d_offset i : Nat) :
    transposed_dp x y d d_offset i = transposed_dp_naive x y d d_offset i := by
  simp only [transposed_dp, transposed_dp_naive]
  have hle : d / 16 * 16 ≤ d := Nat.div_mul_le_self d 16
  rw [forLoop_mul_step _ (d / 16) 16 (by decide), forLoop_unit_step _ _ d hle,
    forLoop_unit_step _ 0 d (Nat.zero_le d),
    iterBody_blocks _ _ 16 (transposed_dp_body_eq_iterBody x y d_offset i)]
  have hd : d - 0 = d / 16 * 16 + (d - d / 16 * 16) := by omega
  rw [hd, iterBody_add, Nat.mul_one, Nat.zero_add]

lemma transposed_dp_naive_eq_foldl (x y : Nat → α) (d d_offset i : Nat) :
    transposed_dp_naive x y d d_offset i =
      (List.range d).foldl (fun dp j => dp + x j * y (i + j * d_offset)) 0 := by
  unfold transposed_dp_naive
  rw [forLoop_unit_step _ 0 d (Nat.zero_le d), iterBody_eq_foldl]
  simp

end TransposedOrder

/-! ## Bounds-checked runs of the kernels -/

section CheckedProofs

/-- Two loops whose bodies preserve a relation between their states, at every index that the
loop reaches, end in related states. -/
lemma forLoop_rel {σ τ : Type} (R : σ → τ → Prop) (bound step : Nat) (hstep : 0 < step)
    (body : Nat → σ → σ) (body' : Nat → τ → τ)
    (hb : ∀ i s s', i < bound → i % step = 0 → R s s' → R (body i s) (body' i s')) :
    ∀ (n start : Nat) (s : σ) (s' : τ), bound - start ≤ n → start % step = 0 → R s s' →
      R (forLoop start bound step body s) (forLoop start bound step body' s') := by
  intro n
  induction n with
  | zero =>
    intro start s s' hn _ h
    rw [forLoop_unfold body start bound step hstep, forLoop_unfold body' start bound step hstep,
      if_neg (by omega), if_neg (by omega)]
    exact h
  | succ n ih =>
    intro start s s' hn hmod h
    rw [forLoop_unfold body start bound step hstep, forLoop_unfold body' start bound step hstep]
    split_ifs with hlt
    · exact ih (start + step) _ _ (by omega) (by simp [Nat.add_mod, hmod]) (hb start s s' hlt hmod h)
    · exact h

variable {β : Type}

lemma checked_read_ok [Zero β] (xs : List β) (i : Nat) (h : i < xs.length) :
    checked_read xs i = Checked.ok (unchecked_read xs i) := by
  simp [checked_read, unchecked_read, Checked.ok, List.getD, h]

lemma vload_checked [Zero β] (xs : List β) (i : Nat) (h : i + 3 < xs.length) :
    vload (checked_read xs) i = (vload (unchecked_read xs) i).map Checked.ok := by
  simp only [vload, V4.map]
  rw [checked_read_ok xs i (by omega), checked_read_ok xs (i + 1) (by omega),
    checked_read_ok xs (i + 2) (by omega), checked_read_ok xs (i + 3) (by omega)]

end CheckedProofs

section CheckedL2

variable {β : Type} [Zero β] [Add β] [Sub β] [Mul β]

lemma L2sqr_tail_checked (xs ys : List β) (base d : Nat) (hx : d ≤ xs.length)
    (hy : d ≤ ys.length) :
    L2sqr_tail (checked_read xs) (checked_read ys) base d =
      Checked.ok (L2sqr_tail (unchecked_read xs) (unchecked_read ys) base d) := by
  unfold L2sqr_tail
  refine forLoop_rel (fun s s' => s = Checked.ok s') d 1 Nat.one_pos _ _ ?_ (d - base) base
    _ _ le_rfl (Nat.mod_one _) rfl
  intro i s s' hi _ hs
  rw [hs, checked_read_ok xs i (by omega), checked_read_ok ys i (by omega)]
  rfl

lemma L2sqr_body1_checked (xs ys : List β) (i : Nat) (hx : i + 4 ≤ xs.length)
    (hy : i + 4 ≤ ys.length) (a : V4 β) :
    L2sqr_body1 (checked_read xs) (checked_read ys) i (a.map Checked.ok) =
      (L2sqr_body1 (unchecked_read xs) (unchecked_read ys) i a).map Checked.ok := by
  simp only [L2sqr_body1]
  simp (disch := omega) only [vload_checked]
  rfl

lemma L2sqr_body4_checked (xs ys : List β) (i : Nat) (hx : i + 16 ≤ xs.length)
    (hy : i + 16 ≤ ys.length) (a : Acc4 β) :
    L2sqr_body4 (checked_read xs) (checked_read ys) i (a.map Checked.ok) =
      (L2sqr_body4 (unchecked_read xs) (unchecked_read ys) i a).map Checked.ok := by
  simp only [L2sqr_body4, vidx, FLOAT_VEC_SIZE]
  simp (disch := omega) only [vload_checked]
  rfl

lemma L2sqr_body8_checked (xs ys : List β) (i : Nat) (hx : i + 32 ≤ xs.length)
    (hy : i + 32 ≤ ys.length) (a : Acc8 β) :
    L2sqr_body8 (checked_read xs) (checked_read ys) i (a.map Checked.ok) =
      (L2sqr_body8 (unchecked_read xs) (unchecked_read ys) i a).map Checked.ok := by
  simp only [L2sqr_body8, vidx, FLOAT_VEC_SIZE]
  simp (disch := omega) only [vload_checked]
  rfl

lemma L2sqr_body16_checked (xs ys : List β) (i : Nat) (hx : i + 64 ≤ xs.length)
    (hy : i + 64 ≤ ys.length) (a : Acc16 β) :
    L2sqr_body16 (checked_read xs) (checked_read ys) i (a.map Checked.ok) =
      (L2sqr_body16 (unchecked_read xs) (unchecked_read ys) i a).map Checked.ok := by
  simp only [L2sqr_body16, vidx, FLOAT_VEC_SIZE]
  simp (disch := omega) only [vload_checked]
  rfl

/-- The branch without unrolling of `fvec_L2sqr_ref_ppc`, bounds-checked. -/
lemma L2sqr_tier1_checked (xs ys : List β) (d : Nat) (hx : d ≤ xs.length)
    (hy : d ≤ ys.length) :
    L2sqr_tier1 (checked_read xs) (checked_read ys) d =
      Checked.ok (L2sqr_tier1 (unchecked_read xs) (unchecked_read ys) d) := by
  have hmain : forLoop 0 (d / 4 * 4) 4 (L2sqr_body1 (checked_read xs) (checked_read ys))
      V4.zero = (forLoop 0 (d / 4 * 4) 4
        (L2sqr_body1 (unchecked_read xs) (unchecked_read ys)) V4.zero).map Checked.ok := by
    refine forLoop_rel (fun (s : V4 (Checked β)) (s' : V4 β) => s = s'.map Checked.ok) _ 4
      (by decide) _ _ ?_ (d / 4 * 4) 0 _ _ le_rfl rfl rfl
    intro i s s' hi hmod hs
    rw [hs]
    exact L2sqr_body1_checked xs ys i (by omega) (by omega) s'
  simp only [L2sqr_tier1, FLOAT_VEC_SIZE, hmain, L2sqr_tail_checked xs ys _ d hx hy]
  rfl

/-- The unroll-factor-4 branch of `fvec_L2sqr_ref_ppc`, bounds-checked. -/
lemma L2sqr_tier4_checked (xs ys : List β) (d : Nat) (hx : d ≤ xs.length)
    (hy : d ≤ ys.length) :
    L2sqr_tier4 (checked_read xs) (checked_read ys) d =
      Checked.ok (L2sqr_tier4 (unchecked_read xs) (unchecked_read ys) d) := by
  have hmain : forLoop 0 (d / 16 * 16) 16 (L2sqr_body4 (checked_read xs) (checked_read ys))
      Acc4.zero = (forLoop 0 (d / 16 * 16) 16
        (L2sqr_body4 (unchecked_read xs) (unchecked_read ys)) Acc4.zero).map Checked.ok := by
    refine forLoop_rel (fun (s : Acc4 (Checked β)) (s' : Acc4 β) => s = s'.map Checked.ok) _ 16
      (by decide) _ _ ?_ (d / 16 * 16) 0 _ _ le_rfl rfl rfl
    intro i s s' hi hmod hs
    rw [hs]
    exact L2sqr_body4_checked xs ys i (by omega) (by omega) s'
  simp only [L2sqr_tier4, FLOAT_VEC_SIZE, Nat.reduceMul, hmain,
    L2sqr_tail_checked xs ys _ d hx hy]
  rfl

/-- The unroll-factor-8 branch of `fvec_L2sqr_ref_ppc`, bounds-checked. -/
lemma L2sqr_tier8_checked (xs ys : List β) (d : Nat) (hx : d ≤ xs.length)
    (hy : d ≤ ys.length) :
    L2sqr_tier8 (checked_read xs) (checked_read ys) d =
      Checked.ok (L2sqr_tier8 (unchecked_read xs) (unchecked_read ys) d) := by
  have hmain : forLoop 0 (d / 32 * 32) 32 (L2sqr_body8 (checked_read xs) (checked_read ys))
      Acc8.zero = (forLoop 0 (d / 32 * 32) 32
        (L2sqr_body8 (unchecked_read xs) (unchecked_read ys)) Acc8.zero).map Checked.ok := by
    refine forLoop_rel (fun (s : Acc8 (Checked β)) (s' : Acc8 β) => s = s'.map Checked.ok) _ 32
      (by decide) _ _ ?_ (d / 32 * 32) 0 _ _ le_rfl rfl rfl
    intro i s s' hi hmod hs
    rw [hs]
    exact L2sqr_body8_checked xs ys i (by omega) (by omega) s'
  simp only [L2sqr_tier8, FLOAT_VEC_SIZE, Nat.reduceMul, hmain,
    L2sqr_tail_checked xs ys _ d hx hy]
  rfl

/-- The unroll-factor-16 branch of `fvec_L2sqr_ref_ppc`, bounds-checked. -/
lemma L2sqr_tier16_checked (xs ys : List β) (d : Nat) (hx : d ≤ xs.length)
    (hy : d ≤ ys.length) :
    L2sqr_tier16 (checked_read xs) (checked_read ys) d =
      Checked.ok (L2sqr_tier16 (unchecked_read xs) (unchecked_read ys) d) := by
  have hmain : forLoop 0 (d / 64 * 64) 64 (L2sqr_body16 (checked_read xs) (checked_read ys))
      Acc16.zero = (forLoop 0 (d / 64 * 64) 64
        (L2sqr_body16 (unchecked_read xs) (unchecked_read ys)) Acc16.zero).map Checked.ok := by
    refine forLoop_rel (fun (s : Acc16 (Checked β)) (s' : Acc16 β) => s = s'.map Checked.ok) _ 64
      (by decide) _ _ ?_ (d / 64 * 64) 0 _ _ le_rfl rfl rfl
    intro i s s' hi hmod hs
    rw [hs]
    exact L2sqr_body16_checked xs ys i (by omega) (by omega) s'
  simp only [L2sqr_tier16, FLOAT_VEC_SIZE, Nat.reduceMul, hmain,
    L2sqr_tail_checked xs ys _ d hx hy]
  rfl

/-- The kernel `fvec_L2sqr_ref_ppc` with every read bounds-checked: on buffers of at least
`d` elements no read is out of bounds, and the value is that of the unchecked run. -/
lemma fvec_L2sqr_ref_ppc_checked (xs ys : List β) (d : Nat) (hx : d ≤ xs.length)
    (hy : d ≤ ys.length) :
    fvec_L2sqr_ref_ppc (checked_read xs) (checked_read ys) d =
      Checked.ok (fvec_L2sqr_ref_ppc (unchecked_read xs) (unchecked_read ys) d) := by
  rw [fvec_L2sqr_ref_ppc_eq_tier, fvec_L2sqr_ref_ppc_eq_tier]
  unfold L2sqr_tier
  split_ifs
  · exact L2sqr_tier1_checked xs ys d hx hy
  · exact L2sqr_tier4_checked xs ys d hx hy
  · exact L2sqr_tier8_checked xs ys d hx hy
  · exact L2sqr_tier16_checked xs ys d hx hy

end CheckedL2

section CheckedInnerProduct

variable {β : Type} [Zero β] [Add β] [Mul β]

lemma inner_product_tail_checked (xs ys : List β) (base d : Nat) (hx : d ≤ xs.length)
    (hy : d ≤ ys.length) :
    inner_product_tail (checked_read xs) (checked_read ys) base d =
      Checked.ok (inner_product_tail (unchecked_read xs) (unchecked_read ys) base d) := by
  unfold inner_product_tail
  refine forLoop_rel (fun s s' => s = Checked.ok s') d 1 Nat.one_pos _ _ ?_ (d - base) base
    _ _ le_rfl (Nat.mod_one _) rfl
  intro i s s' hi _ hs
  rw [hs, checked_read_ok xs i (by omega), checked_read_ok ys i (by omega)]
  rfl

lemma inner_product_body4_checked (xs ys : List β) (i : Nat) (hx : i + 16 ≤ xs.length)
    (hy : i + 16 ≤ ys.length) (a : Acc4 β) :
    inner_product_body4 (checked_read xs) (checked_read ys) i (a.map Checked.ok) =
      (inner_product_body4 (unchecked_read xs) (unchecked_read ys) i a).map Checked.ok := by
  simp only [inner_product_body4, vidx, FLOAT_VEC_SIZE]
  simp (disch := omega) only [vload_checked]
  rfl

lemma inner_product_body8_checked (xs ys : List β) (i : Nat) (hx : i + 32 ≤ xs.length)
    (hy : i + 32 ≤ ys.length) (a : Acc8 β) :
    inner_product_body8 (checked_read xs) (checked_read ys) i (a.map Checked.ok) =
      (inner_product_body8 (unchecked_read xs) (unchecked_read ys) i a).map Checked.ok := by
  simp only [inner_product_body8, vidx, FLOAT_VEC_SIZE]
  simp (disch := omega) only [vload_checked]
  rfl

lemma inner_product_body16_checked (xs ys : List β) (i : Nat) (hx : i + 64 ≤ xs.length)
    (hy : i + 64 ≤ ys.length) (a : Acc16 β) :
    inner_product_body16 (checked_read xs) (checked_read ys) i (a.map Checked.ok) =
      (inner_product_body16 (unchecked_read xs) (unchecked_read ys) i a).map Checked.ok := by
  simp only [inner_product_body16, vidx, FLOAT_VEC_SIZE]
  simp (disch := omega) only [vload_checked]
  rfl

/-- The branch without unrolling of `fvec_inner_product_ref_ppc`, bounds-checked. -/
lemma inner_product_tier1_checked (xs ys : List β) (d : Nat) (hx : d ≤ xs.length)
    (hy : d ≤ ys.length) :
    inner_product_tier1 (checked_read xs) (checked_read ys) d =
      Checked.ok (inner_product_tier1 (unchecked_read xs) (unchecked_read ys) d) := by
  have hmain : forLoop 0 (d / 4) 1
      (fun i vres => vres + vidx (checked_read xs) 0 i * vidx (checked_read ys) 0 i)
      V4.zero = (forLoop 0 (d / 4) 1
        (fun i vres => vres + vidx (unchecked_read xs) 0 i * vidx (unchecked_read ys) 0 i)
        V4.zero).map Checked.ok := by
    refine forLoop_rel (fun (s : V4 (Checked β)) (s' : V4 β) => s = s'.map Checked.ok) _ 1
      (by decide) _ _ ?_ (d / 4) 0 _ _ le_rfl rfl rfl
    intro i s s' hi hmod hs
    simp only [hs, vidx, FLOAT_VEC_SIZE]
    simp (disch := omega) only [vload_checked]
    rfl
  simp only [inner_product_tier1, FLOAT_VEC_SIZE, hmain,
    inner_product_tail_checked xs ys _ d hx hy]
  rfl

/-- The unroll-factor-4 branch of `fvec_inner_product_ref_ppc`, bounds-checked. -/
lemma inner_product_tier4_checked (xs ys : List β) (d : Nat) (hx : d ≤ xs.length)
    (hy : d ≤ ys.length) :
    inner_product_tier4 (checked_read xs) (checked_read ys) d =
      Checked.ok (inner_product_tier4 (unchecked_read xs) (unchecked_read ys) d) := by
  have hmain : forLoop 0 (d / 16 * 16) 16 (inner_product_body4 (checked_read xs) (checked_read ys))
      Acc4.zero = (forLoop 0 (d / 16 * 16) 16
        (inner_product_body4 (unchecked_read xs) (unchecked_read ys)) Acc4.zero).map Checked.ok := by
    refine forLoop_rel (fun (s : Acc4 (Checked β)) (s' : Acc4 β) => s = s'.map Checked.ok) _ 16
      (by decide) _ _ ?_ (d / 16 * 16) 0 _ _ le_rfl rfl rfl
    intro i s s' hi hmod hs
    rw [hs]
    exact inner_product_body4_checked xs ys i (by omega) (by omega) s'
  simp only [inner_product_tier4, FLOAT_VEC_SIZE, Nat.reduceMul, hmain,
    inner_product_tail_checked xs ys _ d hx hy]
  rfl

/-- The unroll-factor-8 branch of `fvec_inner_product_ref_ppc`, bounds-checked. -/
lemma inner_product_tier8_checked (xs ys : List β) (d : Nat) (hx : d ≤ xs.length)
    (hy : d ≤ ys.length) :
    inner_product_tier8 (checked_read xs) (checked_read ys) d =
      Checked.ok (inner_product_tier8 (unchecked_read xs) (unchecked_read ys) d) := by
  have hmain : forLoop 0 (d / 32 * 32) 32 (inner_product_body8 (checked_read xs) (checked_read ys))
      Acc8.zero = (forLoop 0 (d / 32 * 32) 32
        (inner_product_body8 (unchecked_read xs) (unchecked_read ys)) Acc8.zero).map Checked.ok := by
    refine forLoop_rel (fun (s : Acc8 (Checked β)) (s' : Acc8 β) => s = s'.map Checked.ok) _ 32
      (by decide) _ _ ?_ (d / 32 * 32) 0 _ _ le_rfl rfl rfl
    intro i s s' hi hmod hs
    rw [hs]
    exact inner_product_body8_checked xs ys i (by omega) (by omega) s'
  simp only [inner_product_tier8, FLOAT_VEC_SIZE, Nat.reduceMul, hmain,
    inner_product_tail_checked xs ys _ d hx hy]
  rfl

/-- The unroll-factor-16 branch of `fvec_inner_product_ref_ppc`, bounds-checked. -/
lemma inner_product_tier16_checked (xs ys : List β) (d : Nat) (hx : d ≤ xs.length)
    (hy : d ≤ ys.length) :
    inner_product_tier16 (checked_read xs) (checked_read ys) d =
      Checked.ok (inner_product_tier16 (unchecked_read xs) (unchecked_read ys) d) := by
  have hmain : forLoop 0 (d / 64 * 64) 64 (inner_product_body16 (checked_read xs) (checked_read ys))
      Acc16.zero = (forLoop 0 (d / 64 * 64) 64
        (inner_product_body16 (unchecked_read xs) (unchecked_read ys)) Acc16.zero).map Checked.ok := by
    refine forLoop_rel (fun (s : Acc16 (Checked β)) (s' : Acc16 β) => s = s'.map Checked.ok) _ 64
      (by decide) _ _ ?_ (d / 64 * 64) 0 _ _ le_rfl rfl rfl
    intro i s s' hi hmod hs
    rw [hs]
    exact inner_product_body16_checked xs ys i (by omega) (by omega) s'
  simp only [inner_product_tier16, FLOAT_VEC_SIZE, Nat.reduceMul, hmain,
    inner_product_tail_checked xs ys _ d hx hy]
  rfl

/-- The kernel `fvec_inner_product_ref_ppc` with every read bounds-checked. -/
lemma fvec_inner_product_ref_ppc_checked (xs ys : List β) (d : Nat)
    (hx : d ≤ xs.length) (hy : d ≤ ys.length) :
    fvec_inner_product_ref_ppc (checked_read xs) (checked_read ys) d =
      Checked.ok (fvec_inner_product_ref_ppc (unchecked_read xs) (unchecked_read ys) d) := by
  rw [fvec_inner_product_ref_ppc_eq_tier, fvec_inner_product_ref_ppc_eq_tier]
  unfold inner_product_tier
  split_ifs
  · exact inner_product_tier1_checked xs ys d hx hy
  · exact inner_product_tier4_checked xs ys d hx hy
  · exact inner_product_tier8_checked xs ys d hx hy
  · exact inner_product_tier16_checked xs ys d hx hy

end CheckedInnerProduct

/-! ## Kernels on an explicit memory -/

section MemProofs

variable {B : Type} [DecidableEq B] {α : Type}

lemma Mem.store_cell_ne (m : Mem B α) (b c : B) (i : Nat) (v : α) (h : c ≠ b) :
    (m.store b i v).cell c = m.cell c := by
  simp [Mem.store, h]

lemma Mem.store_cell_self (m : Mem B α) (b : B) (i : Nat) (v : α) :
    (m.store b i v).cell b = Function.update (m.cell b) i v := by
  simp [Mem.store]

lemma Mem.store_stores (m : Mem B α) (b : B) (i : Nat) (v : α) :
    (m.store b i v).stores = m.stores ++ [(b, i)] := rfl

/-- What `n` iterations of a loop that stores `val i` to `dis[i]`, and reads only other
buffers, do to the memory: the other buffers keep their contents, `dis` is updated at the
`n` indices from `i0` on, and these stores are logged in order. -/
lemma iterBody_store (b : B) (val : Mem B α → Nat → α)
    (hval : ∀ (m : Mem B α) (i j : Nat) (v : α), val (m.store b i v) j = val m j) :
    ∀ (n i0 : Nat) (m : Mem B α),
      let m' := iterBody (fun i m => m.store b i (val m i)) 1 n i0 m
      (∀ c, c ≠ b → m'.cell c = m.cell c) ∧
      (∀ k, m'.cell b k = if i0 ≤ k ∧ k < i0 + n then val m k else m.cell b k) ∧
      m'.stores = m.stores ++ (List.range n).map (fun k => (b, i0 + k)) := by
  intro n
  induction n with
  | zero =>
    intro i0 m
    refine ⟨fun _ _ => rfl, fun k => ?_, ?_⟩
    · rw [if_neg (by omega)]
      rfl
    · simp [iterBody]
  | succ n ih =>
    intro i0 m
    simp only [iterBody]
    obtain ⟨h1, h2, h3⟩ := ih (i0 + 1) (m.store b i0 (val m i0))
    refine ⟨fun c hc => ?_, fun k => ?_, ?_⟩
    · rw [h1 c hc, Mem.store_cell_ne m b c i0 _ hc]
    · rw [h2 k, Mem.store_cell_self]
      by_cases hk : k = i0
      · subst hk
        rw [if_neg (by omega), if_pos (by omega), Function.update_same]
      · rw [Function.update_noteq hk]
        by_cases hr : i0 + 1 ≤ k ∧ k < i0 + 1 + n
        · rw [if_pos hr, if_pos (by omega), hval]
        · rw [if_neg hr, if_neg (by omega)]
    · rw [h3, Mem.store_stores, List.append_assoc, List.range_succ_eq_map, List.map_cons,
        List.map_map]
      simp only [List.singleton_append, Nat.add_zero, List.cons.injEq, true_and,
        List.append_cancel_left_eq]
      apply List.map_congr_left
      intro k _
      simp only [Function.comp, Nat.succ_eq_add_one]
      congr 1
      omega

end MemProofs

/-! ## The custom test -/

section HarnessProofs

lemma std_max_eq_max {β : Type} [LinearOrder β] (a b : β) : std_max a b = max a b := by
  unfold std_max
  split_ifs with h
  · exact (max_eq_right h.le).symm
  · exact (max_eq_left (not_lt.mp h)).symm

lemma std_min_eq_min {β : Type} [LinearOrder β] (a b : β) : std_min a b = min a b := by
  unfold std_min
  split_ifs with h
  · exact (min_eq_right h.le).symm
  · exact (min_eq_left (not_lt.mp h)).symm

/-- The 32-bit difference of two `int32_t` values is zero exactly when they are equal. -/
lemma wrap32_sub_eq_zero_iff (a b : int32_t) : wrap32 (a.val - b.val) = 0 ↔ a = b := by
  obtain ⟨a, ha1, ha2⟩ := a
  obtain ⟨b, hb1, hb2⟩ := b
  simp only [Subtype.mk.injEq]
  unfold wrap32
  constructor
  · intro h
    omega
  · intro h
    subst h
    omega

variable {α : Type} [LinearOrderedRing α]

/-- The loop test `i + 1 < num_vectors` as a bound on `i`. -/
lemma custom_test_loop_test (i num_vectors : Nat) :
    i + 1 < num_vectors ↔ i < num_vectors - 1 := by omega

/-- With a function selected, the custom test is `num_vectors / 2` executions of
`custom_test_record`, for the pairs that start at the vectors `0, 2, 4, ..`. -/
lemma custom_test_eq (E : CustomTestEnv α) (run_func_flag : FuncId → Bool)
    (custom_data : Nat → Nat → α) (num_vectors array_size : Nat)
    (sc vc : (Nat → α) → (Nat → α) → α)
    (hval : ∀ x y, custom_test_values E run_func_flag x y array_size =
      Except.ok (sc x y, vc x y)) :
    custom_test E run_func_flag custom_data num_vectors array_size =
      Except.ok (iterBody (fun i st =>
        custom_test_record E (custom_data i) (custom_data (i + 1)) array_size i
          (sc (custom_data i) (custom_data (i + 1)))
          (vc (custom_data i) (custom_data (i + 1))) st) 2 (num_vectors / 2) 0
        custom_test_init) := by
  unfold custom_test
  rw [forLoop_eq_iterBody _ (num_vectors - 1) 2 (by decide) (num_vectors / 2) 0 _
    (by omega) (by intro k hk; omega)]
  have hbody : (fun i (r : Except Int (CustomTestState α)) =>
      r.bind (custom_test_body E run_func_flag custom_data array_size i)) =
      (fun i (r : Except Int (CustomTestState α)) => r.bind (fun st => Except.ok
        (custom_test_record E (custom_data i) (custom_data (i + 1)) array_size i
          (sc (custom_data i) (custom_data (i + 1)))
          (vc (custom_data i) (custom_data (i + 1))) st))) := by
    funext i r
    congr 1
    funext st
    simp only [custom_test_body, hval]
  rw [hbody]
  exact iterBody_bind_ok _ 2 (num_vectors / 2) 0 custom_test_init

/-- The rows written by `m` executions of the loop body: one parity record per execution,
and a mismatch record for exactly those whose `sv_iulps` is not zero. -/
lemma custom_test_files (E : CustomTestEnv α) (X Y : Nat → Nat → α) (array_size : Nat)
    (S V : Nat → α) :
    ∀ m : Nat,
      (iterBody (fun i st => custom_test_record E (X i) (Y i) array_size i (S i) (V i) st)
        2 m 0 custom_test_init).custom_results_file =
        (List.range m).map (fun k => (⟨2 * k, E.float_bits (S (2 * k)),
          E.float_bits (V (2 * k)), S (2 * k), V (2 * k),
          wrap32 ((E.float_bits (S (2 * k))).val - (E.float_bits (V (2 * k))).val)⟩ :
          ParityRecord α)) ∧
      (iterBody (fun i st => custom_test_record E (X i) (Y i) array_size i (S i) (V i) st)
        2 m 0 custom_test_init).mismatch_results_file =
        ((List.range m).filter (fun k => decide (wrap32 ((E.float_bits (S (2 * k))).val -
          (E.float_bits (V (2 * k))).val) ≠ 0))).map
          (fun k => (⟨⟨2 * k, E.float_bits (S (2 * k)), E.float_bits (V (2 * k)),
            S (2 * k), V (2 * k),
            wrap32 ((E.float_bits (S (2 * k))).val - (E.float_bits (V (2 * k))).val)⟩,
            (List.range array_size).map (X (2 * k)),
            (List.range array_size).map (Y (2 * k))⟩ : MismatchRecord α)) := by
  intro m
  induction m with
  | zero => exact ⟨rfl, rfl⟩
  | succ m ih =>
    obtain ⟨h1, h2⟩ := ih
    have hm : 0 + m * 2 = 2 * m := by omega
    rw [iterBody_succ_last, hm]
    generalize iterBody (fun i st =>
      custom_test_record E (X i) (Y i) array_size i (S i) (V i) st) 2 m 0
      custom_test_init = st at h1 h2
    simp only [custom_test_record, h1, h2, List.range_succ, List.map_append,
      List.map_cons, List.map_nil, List.filter_append, true_and]
    by_cases hne : wrap32 ((E.float_bits (S (2 * m))).val - (E.float_bits (V (2 * m))).val) = 0
    · simp [hne]
    · simp [hne]

/-- The trackers after one execution of the rest of the loop body. -/
lemma custom_test_record_trackers (E : CustomTestEnv α) (x y : Nat → α) (array_size i : Nat)
    (scalar vector : α) (st : CustomTestState α) :
    (custom_test_record E x y array_size i scalar vector st).max_scalar =
      max st.max_scalar (scalar : WithBot α) ∧
    (custom_test_record E x y array_size i scalar vector st).min_scalar =
      min st.min_scalar (scalar : WithTop α) ∧
    (custom_test_record E x y array_size i scalar vector st).max_vector =
      max st.max_vector (vector : WithBot α) ∧
    (custom_test_record E x y array_size i scalar vector st).min_vector =
      min st.min_vector (vector : WithTop α) ∧
    (custom_test_record E x y array_size i scalar vector st).max_diff =
      (if st.max_diff < |scalar - vector| then |scalar - vector| else st.max_diff) ∧
    (custom_test_record E x y array_size i scalar vector st).max_diff_index =
      (if st.max_diff < |scalar - vector| then i else st.max_diff_index) := by
  simp only [custom_test_record, std_max_eq_max, std_min_eq_min, gt_iff_lt, and_self]

/-- The trackers after `m` executions of the loop body. -/
lemma custom_test_trackers (E : CustomTestEnv α) (X Y : Nat → Nat → α) (array_size : Nat)
    (S V : Nat → α) :
    ∀ m : Nat,
      let st := iterBody (fun i st =>
        custom_test_record E (X i) (Y i) array_size i (S i) (V i) st) 2 m 0 custom_test_init
      ((∀ k, k < m → (S (2 * k) : WithBot α) ≤ st.max_scalar) ∧
        (0 < m → ∃ k, k < m ∧ st.max_scalar = (S (2 * k) : WithBot α))) ∧
      ((∀ k, k < m → st.min_scalar ≤ (S (2 * k) : WithTop α)) ∧
        (0 < m → ∃ k, k < m ∧ st.min_scalar = (S (2 * k) : WithTop α))) ∧
      ((∀ k, k < m → (V (2 * k) : WithBot α) ≤ st.max_vector) ∧
        (0 < m → ∃ k, k < m ∧ st.max_vector = (V (2 * k) : WithBot α))) ∧
      ((∀ k, k < m → st.min_vector ≤ (V (2 * k) : WithTop α)) ∧
        (0 < m → ∃ k, k < m ∧ st.min_vector = (V (2 * k) : WithTop α))) ∧
      (∀ k, k < m → |S (2 * k) - V (2 * k)| ≤ st.max_diff) ∧
      (m = 0 → st.max_diff = 0 ∧ st.max_diff_index = 0) ∧
      (0 < m → ∃ k0, k0 < m ∧ st.max_diff_index = 2 * k0 ∧
        |S (2 * k0) - V (2 * k0)| = st.max_diff ∧
        ∀ k, k < k0 → |S (2 * k) - V (2 * k)| < st.max_diff) := by
  intro m
  induction m with
  | zero =>
    intro st
    refine ⟨⟨?_, ?_⟩, ⟨?_, ?_⟩, ⟨?_, ?_⟩, ⟨?_, ?_⟩, ?_, ?_, ?_⟩ <;>
      first
        | (intro k hk; omega)
        | (intro h; exact absurd h (lt_irrefl 0))
        | (intro _; exact ⟨rfl, rfl⟩)
  | succ m ih =>
    intro st
    obtain ⟨⟨a1, a2⟩, ⟨b1, b2⟩, ⟨c1, c2⟩, ⟨d1, d2⟩, e1, e2, e3⟩ := ih
    have hm : 0 + m * 2 = 2 * m := by omega
    have hst : st = custom_test_record E (X (2 * m)) (Y (2 * m)) array_size (2 * m)
        (S (2 * m)) (V (2 * m)) (iterBody (fun i st =>
          custom_test_record E (X i) (Y i) array_size i (S i) (V i) st) 2 m 0
          custom_test_init) := by
      show iterBody _ 2 (m + 1) 0 custom_test_init = _
      rw [iterBody_succ_last, hm]
    have hinit : m = 0 → iterBody (fun i st =>
        custom_test_record E (X i) (Y i) array_size i (S i) (V i) st) 2 m 0
        custom_test_init = custom_test_init := by
      intro h
      subst h
      rfl
    generalize iterBody (fun i st =>
      custom_test_record E (X i) (Y i) array_size i (S i) (V i) st) 2 m 0
      custom_test_init = st0 at a1 a2 b1 b2 c1 c2 d1 d2 e1 e2 e3 hst hinit
    obtain ⟨p1, p2, p3, p4, p5, p6⟩ := custom_test_record_trackers E (X (2 * m)) (Y (2 * m))
      array_size (2 * m) (S (2 * m)) (V (2 * m)) st0
    rw [← hst] at p1 p2 p3 p4 p5 p6
    refine ⟨⟨?_, ?_⟩, ⟨?_, ?_⟩, ⟨?_, ?_⟩, ⟨?_, ?_⟩, ?_, ?_, ?_⟩
    · intro k hk
      rw [p1]
      rcases Nat.lt_succ_iff_lt_or_eq.mp hk with h | h
      · exact le_trans (a1 k h) (le_max_left _ _)
      · rw [h]; exact le_max_right _ _
    · intro _
      rw [p1]
      rcases le_total st0.max_scalar (S (2 * m) : WithBot α) with h | h
      · exact ⟨m, Nat.lt_succ_self m, max_eq_right h⟩
      · rcases Nat.eq_zero_or_pos m with h0 | h0
        · subst h0
          exact ⟨0, Nat.succ_pos 0, max_eq_right (by rw [hinit rfl]; exact bot_le)⟩
        · obtain ⟨k, hk, hk2⟩ := a2 h0
          exact ⟨k, Nat.lt_succ_of_lt hk, by rw [max_eq_left h, hk2]⟩
    · intro k hk
      rw [p2]
      rcases Nat.lt_succ_iff_lt_or_eq.mp hk with h | h
      · exact le_trans (min_le_left _ _) (b1 k h)
      · rw [h]; exact min_le_right _ _
    · intro _
      rw [p2]
      rcases le_total st0.min_scalar (S (2 * m) : WithTop α) with h | h
      · rcases Nat.eq_zero_or_pos m with h0 | h0
        · subst h0
          exact ⟨0, Nat.succ_pos 0, min_eq_right (by rw [hinit rfl]; exact le_top)⟩
        · obtain ⟨k, hk, hk2⟩ := b2 h0
          exact ⟨k, Nat.lt_succ_of_lt hk, by rw [min_eq_left h, hk2]⟩
      · exact ⟨m, Nat.lt_succ_self m, min_eq_right h⟩
    · intro k hk
      rw [p3]
      rcases Nat.lt_succ_iff_lt_or_eq.mp hk with h | h
      · exact le_trans (c1 k h) (le_max_left _ _)
      · rw [h]; exact le_max_right _ _
    · intro _
      rw [p3]
      rcases le_total st0.max_vector (V (2 * m) : WithBot α) with h | h
      · exact ⟨m, Nat.lt_succ_self m, max_eq_right h⟩
      · rcases Nat.eq_zero_or_pos m with h0 | h0
        · subst h0
          exact ⟨0, Nat.succ_pos 0, max_eq_right (by rw [hinit rfl]; exact bot_le)⟩
        · obtain ⟨k, hk, hk2⟩ := c2 h0
          exact ⟨k, Nat.lt_succ_of_lt hk, by rw [max_eq_left h, hk2]⟩
    · intro k hk
      rw [p4]
      rcases Nat.lt_succ_iff_lt_or_eq.mp hk with h | h
      · exact le_trans (min_le_left _ _) (d1 k h)
      · rw [h]; exact min_le_right _ _
    · intro _
      rw [p4]
      rcases le_total st0.min_vector (V (2 * m) : WithTop α) with h | h
      · rcases Nat.eq_zero_or_pos m with h0 | h0
        · subst h0
          exact ⟨0, Nat.succ_pos 0, min_eq_right (by rw [hinit rfl]; exact le_top)⟩
        · obtain ⟨k, hk, hk2⟩ := d2 h0
          exact ⟨k, Nat.lt_succ_of_lt hk, by rw [min_eq_left h, hk2]⟩
      · exact ⟨m, Nat.lt_succ_self m, min_eq_right h⟩
    · intro k hk
      rw [p5]
      rcases Nat.lt_succ_iff_lt_or_eq.mp hk with h | h
      · split_ifs with hgt
        · exact le_trans (e1 k h) (le_of_lt hgt)
        · exact e1 k h
      · rw [h]
        split_ifs with hgt
        · exact le_rfl
        · exact not_lt.mp hgt
    · intro h
      exact absurd h (Nat.succ_ne_zero m)
    · intro _
      rw [p5, p6]
      split_ifs with hgt
      · exact ⟨m, Nat.lt_succ_self m, rfl, rfl, fun k hk => lt_of_le_of_lt (e1 k hk) hgt⟩
      · rcases Nat.eq_zero_or_pos m with h0 | h0
        · subst h0
          obtain ⟨z1, z2⟩ := e2 rfl
          refine ⟨0, Nat.succ_pos 0, z2, ?_, fun k hk => absurd hk (Nat.not_lt_zero k)⟩
          have h1 := not_lt.mp hgt
          rw [z1] at h1 ⊢
          exact le_antisymm h1 (abs_nonneg _)
        · obtain ⟨k0, hk0, i1, i2, i3⟩ := e3 h0
          exact ⟨k0, Nat.lt_succ_of_lt hk0, i1, i2, i3⟩

end HarnessProofs

/-! ## The accumulators of `fvec_L2sqr_ref_ppc`, lane by lane -/

section AccumulatorProofs

variable {α : Type} [CommRing α]

/-- One `vres += vtmp * vtmp` with `vtmp` the difference of the loads at `j = g n`, on a
register whose lane `l` holds the sum of the squared differences at `g c + l`, `c < n`. -/
lemma sqdiff_register_step (x y : Nat → α) (g : Nat → Nat) (n j : Nat) (hj : j = g n) :
    V4.ofFn (fun l => ∑ c in Finset.range n, (x (g c + l) - y (g c + l)) ^ 2) +
        (vload x j - vload y j) * (vload x j - vload y j) =
      V4.ofFn (fun l => ∑ c in Finset.range (n + 1), (x (g c + l) - y (g c + l)) ^ 2) := by
  subst hj
  simp only [V4.ofFn, Finset.sum_range_succ, sq, Nat.add_zero]
  rfl

lemma L2sqr_body1_lanes (x y : Nat → α) :
    ∀ n : Nat, iterBody (L2sqr_body1 x y) FLOAT_VEC_SIZE n 0 V4.zero =
      V4.ofFn (fun l => ∑ c in Finset.range n,
        (x (lane_index 1 c 0 l) - y (lane_index 1 c 0 l)) ^ 2) := by
  intro n
  induction n with
  | zero => simp [iterBody, V4.ofFn, V4.zero]
  | succ n ih =>
    rw [iterBody_succ_last, ih]
    simp only [L2sqr_body1, lane_index]
    exact sqdiff_register_step x y (fun c => 4 * 1 * c + 4 * 0) n _
      (by simp only [FLOAT_VEC_SIZE]; omega)

lemma L2sqr_body4_lanes (x y : Nat → α) :
    ∀ n : Nat, iterBody (L2sqr_body4 x y) (FLOAT_VEC_SIZE * 4) n 0 Acc4.zero =
      Acc4.ofFn (fun k l => ∑ c in Finset.range n,
        (x (lane_index 4 c k l) - y (lane_index 4 c k l)) ^ 2) := by
  intro n
  induction n with
  | zero => simp [iterBody, Acc4.ofFn, V4.ofFn, Acc4.zero, V4.zero]
  | succ n ih =>
    rw [iterBody_succ_last, ih]
    simp only [L2sqr_body4, lane_index, Acc4.ofFn, Acc4.mk.injEq]
    refine ⟨?_, ?_, ?_, ?_⟩ <;>
      exact sqdiff_register_step x y (fun c => 4 * 4 * c + 4 * _) n _
        (by simp only [FLOAT_VEC_SIZE]; omega)

lemma L2sqr_body8_lanes (x y : Nat → α) :
    ∀ n : Nat, iterBody (L2sqr_body8 x y) (FLOAT_VEC_SIZE * 8) n 0 Acc8.zero =
      Acc8.ofFn (fun k l => ∑ c in Finset.range n,
        (x (lane_index 8 c k l) - y (lane_index 8 c k l)) ^ 2) := by
  intro n
  induction n with
  | zero => simp [iterBody, Acc8.ofFn, V4.ofFn, Acc8.zero, V4.zero]
  | succ n ih =>
    rw [iterBody_succ_last, ih]
    simp only [L2sqr_body8, lane_index, Acc8.ofFn, Acc8.mk.injEq]
    refine ⟨?_, ?_, ?_, ?_, ?_, ?_, ?_, ?_⟩ <;>
      exact sqdiff_register_step x y (fun c => 4 * 8 * c + 4 * _) n _
        (by simp only [FLOAT_VEC_SIZE]; omega)

lemma L2sqr_body16_lanes (x y : Nat → α) :
    ∀ n : Nat, iterBody (L2sqr_body16 x y) (FLOAT_VEC_SIZE * 16) n 0 Acc16.zero =
      Acc16.ofFn (fun k l => ∑ c in Finset.range n,
        (x (lane_index 16 c k l) - y (lane_index 16 c k l)) ^ 2) := by
  intro n
  induction n with
  | zero => simp [iterBody, Acc16.ofFn, V4.ofFn, Acc16.zero, V4.zero]
  | succ n ih =>
    rw [iterBody_succ_last, ih]
    simp only [L2sqr_body16, lane_index, Acc16.ofFn, Acc16.mk.injEq]
    refine ⟨?_, ?_, ?_, ?_, ?_, ?_, ?_, ?_, ?_, ?_, ?_, ?_, ?_, ?_, ?_, ?_⟩ <;>
      exact sqdiff_register_step x y (fun c => 4 * 16 * c + 4 * _) n _
        (by simp only [FLOAT_VEC_SIZE]; omega)

end AccumulatorProofs

lemma lanes_partition_1 (n : Nat) : lanes_partition 1 n := by
  unfold lanes_partition lane_index
  refine ⟨fun j => ⟨fun h => ⟨j / 4, 0, j % 4, by omega, by omega, by omega, by omega⟩, ?_⟩, ?_⟩
  · rintro ⟨c, k, l, hc, hk, hl, rfl⟩
    omega
  · intro c k l c' k' l' hk hl hk' hl' h
    omega

lemma lanes_partition_4 (n : Nat) : lanes_partition 4 n := by
  unfold lanes_partition lane_index
  refine ⟨fun j => ⟨fun h => ⟨j / 16, j % 16 / 4, j % 4, by omega, by omega, by omega,
    by omega⟩, ?_⟩, ?_⟩
  · rintro ⟨c, k, l, hc, hk, hl, rfl⟩
    omega
  · intro c k l c' k' l' hk hl hk' hl' h
    omega

lemma lanes_partition_8 (n : Nat) : lanes_partition 8 n := by
  unfold lanes_partition lane_index
  refine ⟨fun j => ⟨fun h => ⟨j / 32, j % 32 / 4, j % 4, by omega, by omega, by omega,
    by omega⟩, ?_⟩, ?_⟩
  · rintro ⟨c, k, l, hc, hk, hl, rfl⟩
    omega
  · intro c k l c' k' l' hk hl hk' hl' h
    omega

lemma lanes_partition_16 (n : Nat) : lanes_partition 16 n := by
  unfold lanes_partition lane_index
  refine ⟨fun j => ⟨fun h => ⟨j / 64, j % 64 / 4, j % 4, by omega, by omega, by omega,
    by omega⟩, ?_⟩, ?_⟩
  · rintro ⟨c, k, l, hc, hk, hl, rfl⟩
    omega
  · intro c k l c' k' l' hk hl hk' hl' h
    omega

/-! ## Integer kernels: no overflow within the bounds -/

section StrictProofs

lemma strict32_of_range (z : Int) (h1 : -2147483648 ≤ z) (h2 : z ≤ 2147483647) :
    strict32 z = some z := by
  unfold strict32
  rw [if_pos ⟨h1, h2⟩]

lemma strict32_eq_some (z r : Int) (h : strict32 z = some r) :
    r = z ∧ -2147483648 ≤ z ∧ z ≤ 2147483647 := by
  unfold strict32 at h
  split_ifs at h with hr
  · exact ⟨(Option.some.inj h).symm, hr.1, hr.2⟩

/-- A strict accumulation `res = res + t i` whose partial sums are all representable
returns the sum. -/
lemma iterBody_strict_sum (t : Nat → Int) :
    ∀ (m i : Nat) (s : Int),
      (∀ k, 1 ≤ k → k ≤ m → -2147483648 ≤ s + ∑ j in Finset.Ico i (i + k), t j ∧
        s + ∑ j in Finset.Ico i (i + k), t j ≤ 2147483647) →
      iterBody (fun i (res : Option Int) => res.bind (fun r => strict32 (r + t i))) 1 m i
        (some s) = some (s + ∑ j in Finset.Ico i (i + m), t j) := by
  intro m
  induction m with
  | zero => intro i s _; simp [iterBody]
  | succ m ih =>
    intro i s h
    rw [iterBody_succ_last, ih i s (fun k h1 h2 => h k h1 (by omega))]
    have hk := h (m + 1) (by omega) le_rfl
    have hsum : ∑ j in Finset.Ico i (i + (m + 1)), t j =
        ∑ j in Finset.Ico i (i + m), t j + t (i + m) := by
      rw [show i + (m + 1) = (i + m) + 1 by omega, Finset.sum_Ico_succ_top (by omega)]
    rw [hsum, ← add_assoc] at hk
    simp only [Option.some_bind, Nat.mul_one]
    rw [strict32_of_range _ hk.1 hk.2, hsum, ← add_assoc]

/-- A strict accumulation that returns a value returns the sum, and the sum is
representable. -/
lemma iterBody_strict_some (t : Nat → Int) :
    ∀ (m i : Nat) (s r : Int),
      iterBody (fun i (res : Option Int) => res.bind (fun r => strict32 (r + t i))) 1 m i
        (some s) = some r →
      r = s + ∑ j in Finset.Ico i (i + m), t j ∧
        (1 ≤ m → -2147483648 ≤ r ∧ r ≤ 2147483647) := by
  intro m
  induction m with
  | zero =>
    intro i s r h
    simp only [iterBody, Option.some.injEq] at h
    simp [h]
  | succ m ih =>
    intro i s r h
    rw [iterBody_succ_last] at h
    cases hprev : iterBody (fun i (res : Option Int) => res.bind (fun r => strict32 (r + t i)))
        1 m i (some s) with
    | none =>
      rw [hprev] at h
      simp at h
    | some r' =>
      rw [hprev] at h
      simp only [Option.some_bind, Nat.mul_one] at h
      obtain ⟨h1, h2, h3⟩ := strict32_eq_some _ _ h
      obtain ⟨h4, _⟩ := ih i s r' hprev
      have hsum : ∑ j in Finset.Ico i (i + (m + 1)), t j =
          ∑ j in Finset.Ico i (i + m), t j + t (i + m) := by
        rw [show i + (m + 1) = (i + m) + 1 by omega, Finset.sum_Ico_succ_top (by omega)]
      refine ⟨by rw [h1, h4, hsum, add_assoc], fun _ => ?_⟩
      rw [h1]
      exact ⟨h2, h3⟩

/-- The product of two `int8_t` values is between `-16384` and `16384`. -/
lemma int8_mul_bounds (a b : int8_t) :
    -16384 ≤ a.val * b.val ∧ a.val * b.val ≤ 16384 := by
  have ha := a.property
  have hb := b.property
  constructor <;> nlinarith

/-- The sum of `d` products of `int8_t` values is between `-16384 * d` and `16384 * d`. -/
lemma int8_mul_sum_bounds (x y : Nat → int8_t) (d : Nat) :
    -16384 * (d : Int) ≤ ∑ i in Finset.range d, (x i).val * (y i).val ∧
      ∑ i in Finset.range d, (x i).val * (y i).val ≤ 16384 * d := by
  constructor
  · have h := Finset.sum_le_sum
      (fun i (_ : i ∈ Finset.range d) => (int8_mul_bounds (x i) (y i)).1)
    simp only [Finset.sum_const, Finset.card_range, nsmul_eq_mul] at h
    linarith
  · have h := Finset.sum_le_sum
      (fun i (_ : i ∈ Finset.range d) => (int8_mul_bounds (x i) (y i)).2)
    simp only [Finset.sum_const, Finset.card_range, nsmul_eq_mul] at h
    linarith

/-- The strict loop of `ivec_L2sqr_ref_ppc` as a strict accumulation of the squared
differences: the subtraction and the multiplication never overflow. -/
lemma ivec_L2sqr_ref_ppc_strict_eq (x y : Nat → int8_t) (d : Nat) :
    ivec_L2sqr_ref_ppc_strict x y d =
      iterBody (fun i (res : Option Int) => res.bind (fun r =>
        strict32 (r + ((x i).val - (y i).val) * ((x i).val - (y i).val)))) 1 d 0 (some 0) := by
  unfold ivec_L2sqr_ref_ppc_strict
  rw [forLoop_unit_step _ 0 d (Nat.zero_le d), Nat.sub_zero]
  congr 1
  funext i res
  congr 1
  funext r
  have ha := (x i).property
  have hb := (y i).property
  have hsq := int8_sqdiff_bounds (x i) (y i)
  rw [strict32_of_range ((x i).val - (y i).val) (by omega) (by omega), Option.some_bind,
    strict32_of_range _ (by linarith [hsq.1]) (by linarith [hsq.2]), Option.some_bind]

/-- The strict loop of `ivec_inner_product_ref_ppc` as a strict accumulation of the
products: the multiplication never overflows. -/
lemma ivec_inner_product_ref_ppc_strict_eq (x y : Nat → int8_t) (d : Nat) :
    ivec_inner_product_ref_ppc_strict x y d =
      iterBody (fun i (res : Option Int) => res.bind (fun r =>
        strict32 (r + (x i).val * (y i).val))) 1 d 0 (some 0) := by
  unfold ivec_inner_product_ref_ppc_strict
  rw [forLoop_unit_step _ 0 d (Nat.zero_le d), Nat.sub_zero]
  congr 1
  funext i res
  congr 1
  funext r
  have hm := int8_mul_bounds (x i) (y i)
  rw [strict32_of_range _ (by linarith [hm.1]) (by linarith [hm.2]), Option.some_bind]

end StrictProofs

/-! ## Hamming distance: triangle inequality and largest value -/

section HammingBounds

/-- The bit count of an exclusive or obeys the triangle inequality. -/
lemma popcount_xor_triangle (w a b c : Nat) :
    popcount w (a ^^^ c) ≤ popcount w (a ^^^ b) + popcount w (b ^^^ c) := by
  rw [popcount_eq_sum, popcount_eq_sum, popcount_eq_sum, ← Finset.sum_add_distrib]
  apply Finset.sum_le_sum
  intro j _
  simp only [Nat.testBit_xor]
  cases a.testBit j <;> cases b.testBit j <;> cases c.testBit j <;> decide

/-- Among the bytes, only `255` has eight one bits. -/
lemma popcount_eq_eight_iff (n : uint8_t) : popcount 8 n.val = 8 ↔ n.val = 255 := by
  revert n
  decide

/-- The complement of a byte is its exclusive or with `255`. -/
lemma compl8_val_eq_xor (a : uint8_t) : (compl8 a).val = a.val ^^^ 255 := by
  revert a
  decide

/-- Bit `j < 8` of the complement of a byte is the negation of bit `j` of the byte. -/
lemma compl8_testBit (a : uint8_t) (j : Nat) (hj : j < 8) :
    (compl8 a).val.testBit j = !a.val.testBit j := by
  rw [compl8_val_eq_xor, Nat.testBit_xor]
  have h : (255 : Nat).testBit j = true := by
    interval_cases j <;> rfl
  rw [h, Bool.xor_true]

/-- Two bytes differ in all eight bits exactly when one is the complement of the other. -/
lemma popcount_xor_eq_eight_iff (a b : uint8_t) :
    popcount 8 (a.val ^^^ b.val) = 8 ↔ b = compl8 a := by
  have hlt : a.val ^^^ b.val < 256 := Nat.xor_lt_two_pow (n := 8) a.isLt b.isLt
  have h := popcount_eq_eight_iff ⟨a.val ^^^ b.val, hlt⟩
  simp only at h
  rw [h, Fin.ext_iff, compl8_val_eq_xor]
  constructor
  · intro hx
    rw [← hx, ← Nat.xor_assoc, Nat.xor_self, Nat.zero_xor]
  · intro hx
    rw [hx, ← Nat.xor_assoc, Nat.xor_self, Nat.zero_xor]

end HammingBounds

/-! ## The intrinsic kernel and the elements of `y` -/

/-- Two loops whose bodies agree at every index that the loop reaches give the same
result. -/
lemma forLoop_congr {σ : Type} (bound step : Nat) (hstep : 0 < step)
    (body body' : Nat → σ → σ) :
    ∀ (n start : Nat) (s : σ), bound - start ≤ n →
      (∀ i, start ≤ i → i < bound → ∀ s, body i s = body' i s) →
      forLoop start bound step body s = forLoop start bound step body' s := by
  intro n
  induction n with
  | zero =>
    intro start s hn _
    rw [forLoop_unfold body start bound step hstep, forLoop_unfold body' start bound step hstep,
      if_neg (by omega), if_neg (by omega)]
  | succ n ih =>
    intro start s hn h
    rw [forLoop_unfold body start bound step hstep, forLoop_unfold body' start bound step hstep]
    split_ifs with hlt
    · rw [h start le_rfl hlt s]
      exact ih (start + step) _ (by omega) (fun i hi hb => h i (by omega) hb)
    · rfl

section IntrinsicDataFlow

variable {α : Type} [Zero α] [Add α] [Sub α] [Mul α]

/-- The remainder loop of the intrinsic kernel reads `y` on `[base, d)` only. -/
lemma ippc_tail_congr (x y y' : Nat → α) (base d : Nat)
    (hy : ∀ i, base ≤ i → i < d → y i = y' i) :
    ippc_tail x y base d = ippc_tail x y' base d := by
  unfold ippc_tail
  apply forLoop_congr d 1 Nat.one_pos _ _ (d - base) base 0 le_rfl
  intro i h1 h2 s
  simp only [hy i h1 h2]

end IntrinsicDataFlow

/-- The main loop of the factor-4 branch of the intrinsic kernel does not use `y`. -/
lemma ippc_body4_ignores_y {α : Type} [Add α] [Mul α] (x y y' : Nat → α) :
    ippc_body4 x y = ippc_body4 x y' := rfl

/-- The main loop of the factor-8 branch of the intrinsic kernel does not use `y`. -/
lemma ippc_body8_ignores_y {α : Type} [Add α] [Mul α] (x y y' : Nat → α) :
    ippc_body8 x y = ippc_body8 x y' := rfl

/-! ## The loader: errors of the cell loop -/

section LoaderErrors

variable {α : Type}

end LoaderErrors

/-! ## Bounds-checked runs of the integer and byte kernels -/

section CheckedIntegerProofs

/-- On memories of which every element is inside its buffer, the bounds-checked run of
`ivec_L2sqr_ref_ppc` returns the value of the kernel. -/
lemma ivec_L2sqr_ref_ppc_checked_all_ok (x y : Nat → int8_t) (d : Nat) :
    ivec_L2sqr_ref_ppc_checked (all_ok x) (all_ok y) d =
      Checked.ok (ivec_L2sqr_ref_ppc x y d) := by
  unfold ivec_L2sqr_ref_ppc_checked ivec_L2sqr_ref_ppc
  refine forLoop_rel (fun (s : Checked Int) (s' : Int) => s = Checked.ok s') d 1 Nat.one_pos
    _ _ ?_ d 0 _ _ (by omega) (Nat.mod_one _) rfl
  intro i s s' _ _ hs
  rw [hs]
  rfl

lemma ivec_inner_product_ref_ppc_checked_all_ok (x y : Nat → int8_t) (d : Nat) :
    ivec_inner_product_ref_ppc_checked (all_ok x) (all_ok y) d =
      Checked.ok (ivec_inner_product_ref_ppc x y d) := by
  unfold ivec_inner_product_ref_ppc_checked ivec_inner_product_ref_ppc
  refine forLoop_rel (fun (s : Checked Int) (s' : Int) => s = Checked.ok s') d 1 Nat.one_pos
    _ _ ?_ d 0 _ _ (by omega) (Nat.mod_one _) rfl
  intro i s s' _ _ hs
  rw [hs]
  rfl

lemma hamming_distance_ref_ppc_checked_all_ok (b : Bool) (v w : Nat → uint8_t)
    (size : Nat) :
    hamming_distance_ref_ppc_checked b (all_ok v) (all_ok w) size =
      Checked.ok (hamming_distance_ref_ppc b v w size) := by
  cases b
  · simp only [hamming_distance_ref_ppc_checked, hamming_distance_ref_ppc,
      Bool.false_eq_true, if_false]
  · simp only [hamming_distance_ref_ppc_checked, hamming_distance_ref_ppc, if_true]
    refine forLoop_rel (fun (s : Checked Nat) (s' : Nat) => s = Checked.ok s') size 1
      Nat.one_pos _ _ ?_ size _ _ _ (by omega) (Nat.mod_one _) ?_
    · intro i s s' _ _ hs
      rw [hs]
      rfl
    · refine forLoop_rel (fun (s : Checked Nat) (s' : Nat) => s = Checked.ok s') _
        CHAR_VEC_SIZE (by decide) _ _ ?_ (size / CHAR_VEC_SIZE * CHAR_VEC_SIZE) 0 _ _
        (by omega) rfl rfl
      intro i s s' _ _ hs
      refine forLoop_rel (fun (s : Checked Nat) (s' : Nat) => s = Checked.ok s')
        CHAR_VEC_SIZE 1 Nat.one_pos _ _ ?_ CHAR_VEC_SIZE 0 _ _ (by omega) rfl hs
      intro j t t' _ _ ht
      rw [ht]
      rfl

end CheckedIntegerProofs

/-! ## The reductions of the optimized inner product -/

/-- The shapes of the reductions of the optimized `fvec_inner_product_ref_ppc`: for a `+`
of which no law is assumed, the factor-4 branch collapses its accumulators by the balanced tree
`(a0 + a1) + (a2 + a3)` (2 combining stages), and the factor-8 and factor-16 branches
collapse theirs by the linear fold `(..((a0 + a1) + a2) + ..) + a(N-1)`; the kernel runs
the branch of its unroll factor, and each branch returns the remainder sum plus the four
lanes of that register. -/
lemma fvec_inner_product_ref_ppc_reduction_shapes {α : Type} [Zero α] [Add α] [Mul α]
    (x y : Nat → α) (d : Nat) :
    (∀ a : Acc4 α,
      inner_product_reduce4 a = (a.vres0 + a.vres1) + (a.vres2 + a.vres3) ∧
      reduction_tree (· + ·) 2 a.toList = [inner_product_reduce4 a]) ∧
    (∀ a : Acc8 α,
      inner_product_reduce8 a =
        ((((((a.vres0 + a.vres1) + a.vres2) + a.vres3) + a.vres4) + a.vres5) + a.vres6) +
          a.vres7 ∧
      linear_fold (· + ·) a.toList = [inner_product_reduce8 a]) ∧
    (∀ a : Acc16 α,
      inner_product_reduce16 a =
        ((((((((((((((a.vres0 + a.vres1) + a.vres2) + a.vres3) + a.vres4) + a.vres5) +
          a.vres6) + a.vres7) + a.vres8) + a.vres9) + a.vres10) + a.vres11) + a.vres12) +
          a.vres13) + a.vres14) + a.vres15 ∧
      linear_fold (· + ·) a.toList = [inner_product_reduce16 a]) ∧
    fvec_inner_product_ref_ppc x y d =
      inner_product_tier (inner_product_unroll_factor d) x y d ∧
    inner_product_tier4 x y d = inner_product_tail x y (d / 16 * 16) d +
      (inner_product_reduce4
        (forLoop 0 (d / 16 * 16) 16 (inner_product_body4 x y) Acc4.zero)).hsum ∧
    inner_product_tier8 x y d = inner_product_tail x y (d / 32 * 32) d +
      (inner_product_reduce8
        (forLoop 0 (d / 32 * 32) 32 (inner_product_body8 x y) Acc8.zero)).hsum ∧
    inner_product_tier16 x y d = inner_product_tail x y (d / 64 * 64) d +
      (inner_product_reduce16
        (forLoop 0 (d / 64 * 64) 64 (inner_product_body16 x y) Acc16.zero)).hsum :=
  ⟨fun _ => ⟨rfl, rfl⟩, fun _ => ⟨rfl, rfl⟩, fun _ => ⟨rfl, rfl⟩,
    fvec_inner_product_ref_ppc_eq_tier x y d, rfl, rfl, rfl⟩

/-! ## Claims -/

/-- C1: for every dimension `d` and all `x`, `y`, in exact commutative-ring arithmetic
`fvec_L2sqr_ref_ppc x y d` equals the scalar reference, the sum over `i < d` of
`(x[i] - y[i])^2` (which is also the value of the documented original loop); `d` ranges
over all four unroll tiers. -/
theorem C1_fvec_L2sqr_ref_ppc_eq_scalar_reference {α : Type} [CommRing α]
    (x y : Nat → α) (d : Nat) :
    fvec_L2sqr_ref_ppc x y d = ∑ i in Finset.range d, (x i - y i) ^ 2 ∧
      fvec_L2sqr_ref_ppc x y d = fvec_L2sqr_ref_original x y d := by
  rw [fvec_L2sqr_ref_ppc_eq_sum, fvec_L2sqr_ref_original_eq_sum]
  exact ⟨rfl, rfl⟩

/-- C2: for every dimension `d` and all `x`, `y`, in exact commutative-ring arithmetic
the optimized `fvec_inner_product_ref_ppc x y d` equals the scalar reference, the sum over
`i < d` of `x[i] * y[i]` (which is also the value of the documented original loop); `d`
ranges over all four unroll tiers. -/
theorem C2_fvec_inner_product_ref_ppc_eq_scalar_reference {α : Type} [CommRing α]
    (x y : Nat → α) (d : Nat) :
    fvec_inner_product_ref_ppc x y d = ∑ i in Finset.range d, x i * y i ∧
      fvec_inner_product_ref_ppc x y d = fvec_inner_product_ref_original x y d := by
  rw [fvec_inner_product_ref_ppc_eq_sum, fvec_inner_product_ref_original_eq_sum]
  exact ⟨rfl, rfl⟩

/-- C3 (evaluation of the code where the claim fails): the intrinsic kernel
`fvec_inner_product_ref_ippc` does not return the inner product. With every element of
`x` and of `y` equal to `1` it returns `0` for `d = 1` (the `d < 32` tier squares the
difference) and `128` for `d = 129` (the remainder loop of the last tier squares the
difference); with `x` all ones and `y` all zeros it returns `32` for `d = 32` and `64` for
`d = 64` (the main loops of the two middle tiers multiply `x` by itself). The inner
products are `1`, `129`, `0` and `0`. -/
theorem C3_fvec_inner_product_ref_ippc_not_inner_product :
    fvec_inner_product_ref_ippc (fun _ => (1 : ℤ)) (fun _ => 1) 1 = 0 ∧
    fvec_inner_product_ref_ippc (fun _ => (1 : ℤ)) (fun _ => 0) 32 = 32 ∧
    fvec_inner_product_ref_ippc (fun _ => (1 : ℤ)) (fun _ => 0) 64 = 64 ∧
    fvec_inner_product_ref_ippc (fun _ => (1 : ℤ)) (fun _ => 1) 129 = 128 ∧
    fvec_inner_product_ref_original (fun _ => (1 : ℤ)) (fun _ => 1) 1 = 1 ∧
    fvec_inner_product_ref_original (fun _ => (1 : ℤ)) (fun _ => 0) 32 = 0 ∧
    fvec_inner_product_ref_original (fun _ => (1 : ℤ)) (fun _ => 0) 64 = 0 ∧
    fvec_inner_product_ref_original (fun _ => (1 : ℤ)) (fun _ => 1) 129 = 129 := by
  refine ⟨?_, ?_, ?_, ?_, ?_, ?_, ?_, ?_⟩ <;> decide

/-- C4: for every `d` and all `x`, `y0 .. y3`, in exact commutative-ring arithmetic the
four outputs of `fvec_L2sqr_batch_4_ref_ppc` are `fvec_L2sqr_ref_ppc x yk d` for
`k = 0 .. 3`, and output `k` does not change when the other three targets are replaced. -/
theorem C4_fvec_L2sqr_batch_4_ref_ppc_eq_single_calls {α : Type} [CommRing α]
    (x y0 y1 y2 y3 : Nat → α) (d : Nat) :
    (fvec_L2sqr_batch_4_ref_ppc x y0 y1 y2 y3 d).dis0 = fvec_L2sqr_ref_ppc x y0 d ∧
    (fvec_L2sqr_batch_4_ref_ppc x y0 y1 y2 y3 d).dis1 = fvec_L2sqr_ref_ppc x y1 d ∧
    (fvec_L2sqr_batch_4_ref_ppc x y0 y1 y2 y3 d).dis2 = fvec_L2sqr_ref_ppc x y2 d ∧
    (fvec_L2sqr_batch_4_ref_ppc x y0 y1 y2 y3 d).dis3 = fvec_L2sqr_ref_ppc x y3 d ∧
    ∀ z0 z1 z2 z3 : Nat → α,
      (fvec_L2sqr_batch_4_ref_ppc x y0 z1 z2 z3 d).dis0 =
        (fvec_L2sqr_batch_4_ref_ppc x y0 y1 y2 y3 d).dis0 ∧
      (fvec_L2sqr_batch_4_ref_ppc x z0 y1 z2 z3 d).dis1 =
        (fvec_L2sqr_batch_4_ref_ppc x y0 y1 y2 y3 d).dis1 ∧
      (fvec_L2sqr_batch_4_ref_ppc x z0 z1 y2 z3 d).dis2 =
        (fvec_L2sqr_batch_4_ref_ppc x y0 y1 y2 y3 d).dis2 ∧
      (fvec_L2sqr_batch_4_ref_ppc x z0 z1 z2 y3 d).dis3 =
        (fvec_L2sqr_batch_4_ref_ppc x y0 y1 y2 y3 d).dis3 := by
  simp only [fvec_L2sqr_batch_4_ref_ppc_eq_sum, fvec_L2sqr_ref_ppc_eq_sum, true_and,
    implies_true]

/-- C5: for every `d` and all `x`, `y0 .. y3`, in exact commutative-ring arithmetic the
four outputs of the optimized `fvec_inner_product_batch_4_ref_ppc` are
`fvec_inner_product_ref_ppc x yk d` for `k = 0 .. 3`; `d` is arbitrary, so this covers
both `d % 4 = 0` (remainder branch skipped) and `d % 4 ≠ 0`. -/
theorem C5_fvec_inner_product_batch_4_ref_ppc_eq_single_calls {α : Type} [CommRing α]
    (x y0 y1 y2 y3 : Nat → α) (d : Nat) :
    (fvec_inner_product_batch_4_ref_ppc x y0 y1 y2 y3 d).dis0 =
      fvec_inner_product_ref_ppc x y0 d ∧
    (fvec_inner_product_batch_4_ref_ppc x y0 y1 y2 y3 d).dis1 =
      fvec_inner_product_ref_ppc x y1 d ∧
    (fvec_inner_product_batch_4_ref_ppc x y0 y1 y2 y3 d).dis2 =
      fvec_inner_product_ref_ppc x y2 d ∧
    (fvec_inner_product_batch_4_ref_ppc x y0 y1 y2 y3 d).dis3 =
      fvec_inner_product_ref_ppc x y3 d := by
  simp only [fvec_inner_product_batch_4_ref_ppc_eq_sum, fvec_inner_product_ref_ppc_eq_sum,
    and_self]

/-- C6 (evaluation of the code where the claim fails): for `d = 5`, `ny = 1`,
`d_offset = 1`, the query `(1, 1, 1, 1, 1)`, the target equal to the query and
`y_sqlen[0] = 5` (the squared norm of the target), `fvec_L2sqr_ny_transposed_ref_ppc` sets
`dis[0]` to `-1` when the query is followed in memory by zeros and to `8` when `x[8]` is
`3`, while the squared distance, and `fvec_L2sqr_ref_ppc` on the same vectors, is `0`: the
scalar loop over the leftover elements of `x` reads `x[j + base]`, here `x[8]`, instead of
`x[j]`. -/
theorem C6_fvec_L2sqr_ny_transposed_ref_ppc_wrong_for_d_5 :
    (5 : ℤ) = ∑ j in Finset.range 5, ones5 (0 + j * 1) ^ 2 ∧
    fvec_L2sqr_ny_transposed_ref_ppc (fun _ => 0) ones5 ones5 (fun _ => 5) 5 1 1 0 = -1 ∧
    fvec_L2sqr_ny_transposed_ref_ppc (fun _ => 0) ones5_then3 ones5 (fun _ => 5) 5 1 1 0
      = 8 ∧
    (∀ i, i < 5 → ones5_then3 i = ones5 i) ∧
    ∑ j in Finset.range 5, (ones5 j - ones5 (0 + j * 1)) ^ 2 = 0 ∧
    fvec_L2sqr_ref_ppc ones5 ones5 5 = 0 ∧
    fvec_L2sqr_ref_ppc ones5_then3 ones5 5 = 0 := by
  refine ⟨by decide, by decide, by decide, by decide, by decide, by decide, by decide⟩

/-- C7: with `VEC_POPCNT_SUPPORTED`, for every `size` and all byte vectors `v`, `w`,
`hamming_distance_ref_ppc` returns the number of bit positions, among the `8 * size` bits,
in which `v` and `w` differ, which is the sum over `i < size` of the bit count of
`v[i] xor w[i]`; `size` is arbitrary, so every split into 16-byte blocks and scalar tail is
covered. -/
theorem C7_hamming_distance_ref_ppc_counts_differing_bits (v w : Nat → uint8_t)
    (size : Nat) :
    hamming_distance_ref_ppc true v w size = differing_bits v w size ∧
    hamming_distance_ref_ppc true v w size =
      ∑ i in Finset.range size, popcount 8 ((v i).val ^^^ (w i).val) := by
  rw [hamming_distance_ref_ppc_eq_sum, differing_bits_eq_sum]
  exact ⟨rfl, rfl⟩

/-- C8: for every `size` and every byte vector `v`, `hamming_distance_ref_ppc v v size` is
`0`, both in the `VEC_POPCNT_SUPPORTED` build and in the fallback build. -/
theorem C8_hamming_distance_ref_ppc_self (VEC_POPCNT_SUPPORTED : Bool)
    (v : Nat → uint8_t) (size : Nat) :
    hamming_distance_ref_ppc VEC_POPCNT_SUPPORTED v v size = 0 := by
  cases VEC_POPCNT_SUPPORTED
  · simp only [hamming_distance_ref_ppc, Bool.false_eq_true, if_false]
  · rw [hamming_distance_ref_ppc_eq_sum]
    simp [Nat.xor_self, popcount_zero_arg]

/-- C9: for every `size` and all byte vectors `v`, `w`, `hamming_distance_ref_ppc v w size`
equals `hamming_distance_ref_ppc w v size` (in either build). -/
theorem C9_hamming_distance_ref_ppc_symmetric (VEC_POPCNT_SUPPORTED : Bool)
    (v w : Nat → uint8_t) (size : Nat) :
    hamming_distance_ref_ppc VEC_POPCNT_SUPPORTED v w size =
      hamming_distance_ref_ppc VEC_POPCNT_SUPPORTED w v size := by
  cases VEC_POPCNT_SUPPORTED
  · simp only [hamming_distance_ref_ppc, Bool.false_eq_true, if_false]
  · rw [hamming_distance_ref_ppc_eq_sum, hamming_distance_ref_ppc_eq_sum]
    apply Finset.sum_congr rfl
    intro i _
    rw [Nat.xor_comm]

/-- C10: over a linearly ordered field (exact arithmetic), for every `d` and all `x`, `y`,
`fvec_L2sqr_ref_ppc x y d` is non-negative, and it is zero if and only if `x[i] = y[i]` for
every `i < d`. -/
theorem C10_fvec_L2sqr_ref_ppc_nonneg_and_zero_iff {α : Type} [LinearOrderedField α]
    (x y : Nat → α) (d : Nat) :
    0 ≤ fvec_L2sqr_ref_ppc x y d ∧
      (fvec_L2sqr_ref_ppc x y d = 0 ↔ ∀ i, i < d → x i = y i) := by
  rw [fvec_L2sqr_ref_ppc_eq_sum]
  refine ⟨Finset.sum_nonneg (fun i _ => sq_nonneg _), ?_⟩
  rw [Finset.sum_eq_zero_iff_of_nonneg (fun i _ => sq_nonneg _)]
  constructor
  · intro h i hi
    have := h i (Finset.mem_range.mpr hi)
    exact sub_eq_zero.mp (pow_eq_zero_iff (two_ne_zero) |>.mp this)
  · intro h i hi
    rw [h i (Finset.mem_range.mp hi), sub_self]
    exact zero_pow two_ne_zero

/-- C11 (the claim fails as stated): with 33026 elements, every `x[i] = 127` and every
`y[i] = -128`, the sum of the squared differences is `33026 * 65025 = 2147515650`, above
`2^31 - 1`, and the wrapped `int32_t` result of `ivec_L2sqr_ref_ppc` is negative; with
66052 elements, `x = (126, 126, 122, 114, -23, 127, 127, ..)` and every `y[i] = -128`, the
sum of the squared differences is `2^32` and the wrapped result is `0`, although the
vectors differ. -/
theorem C11_ivec_L2sqr_ref_ppc_negative_at_33026_zero_at_66052 :
    ivec_L2sqr_ref_ppc all_127 all_neg128 33026 = -2147451646 ∧
    ¬ (0 ≤ ivec_L2sqr_ref_ppc all_127 all_neg128 33026) ∧
    ∑ i in Finset.range 66052,
      ((near_127 i).val - (all_neg128 i).val) * ((near_127 i).val - (all_neg128 i).val) =
      4294967296 ∧
    ivec_L2sqr_ref_ppc near_127 all_neg128 66052 = 0 ∧
    ¬ (∀ i, i < 66052 → near_127 i = all_neg128 i) := by
  have h : ivec_L2sqr_ref_ppc all_127 all_neg128 33026 = -2147451646 := by
    rw [ivec_L2sqr_ref_ppc_eq_wrap]
    simp only [all_127, all_neg128, Finset.sum_const, Finset.card_range, nsmul_eq_mul]
    decide
  have hsum : ∑ i in Finset.range 66052,
      ((near_127 i).val - (all_neg128 i).val) * ((near_127 i).val - (all_neg128 i).val) =
      4294967296 := by
    rw [← Finset.sum_range_add_sum_Ico _ (show 5 ≤ 66052 by decide)]
    have htail : ∑ i in Finset.Ico 5 66052,
        ((near_127 i).val - (all_neg128 i).val) * ((near_127 i).val - (all_neg128 i).val) =
        ∑ _i in Finset.Ico 5 66052, (65025 : Int) := by
      apply Finset.sum_congr rfl
      intro i hi
      rw [Finset.mem_Ico] at hi
      have h0 : i ≠ 0 := by omega
      have h1 : i ≠ 1 := by omega
      have h2 : i ≠ 2 := by omega
      have h3 : i ≠ 3 := by omega
      have h4 : i ≠ 4 := by omega
      simp only [near_127, all_neg128, if_neg h0, if_neg h1, if_neg h2, if_neg h3, if_neg h4]
      decide
    rw [htail, Finset.sum_const, Nat.card_Ico, nsmul_eq_mul]
    decide
  refine ⟨h, ?_, hsum, ?_, ?_⟩
  · rw [h]
    decide
  · rw [ivec_L2sqr_ref_ppc_eq_wrap, hsum]
    decide
  · intro hall
    have := hall 0 (by decide)
    exact absurd this (by decide)

/-- C11 (amended): for all `int8_t` vectors `x`, `y`, the `int32_t` result of
`ivec_L2sqr_ref_ppc x y d` is non-negative for every `d ≤ 33025`, and for every
`d ≤ 66051` it is zero if and only if `x[i] = y[i]` for every `i < d`. -/
theorem C11_ivec_L2sqr_ref_ppc_nonneg_and_zero_iff (x y : Nat → int8_t) (d : Nat) :
    (d ≤ 33025 → 0 ≤ ivec_L2sqr_ref_ppc x y d) ∧
    (d ≤ 66051 → (ivec_L2sqr_ref_ppc x y d = 0 ↔ ∀ i, i < d → x i = y i)) := by
  obtain ⟨h0, h1⟩ := int8_sqdiff_sum_bounds x y d
  constructor
  · intro hd
    have hd' : (d : Int) ≤ 33025 := by exact_mod_cast hd
    rw [ivec_L2sqr_ref_ppc_eq_wrap, wrap32_of_range _ (by omega) (by omega)]
    exact h0
  · intro hd
    have hd' : (d : Int) ≤ 66051 := by exact_mod_cast hd
    have hw : wrap32 (∑ i in Finset.range d,
        ((x i).val - (y i).val) * ((x i).val - (y i).val)) = 0 ↔
        ∑ i in Finset.range d, ((x i).val - (y i).val) * ((x i).val - (y i).val) = 0 := by
      unfold wrap32
      constructor
      · intro h
        omega
      · intro h
        rw [h]
        decide
    rw [ivec_L2sqr_ref_ppc_eq_wrap, hw,
      Finset.sum_eq_zero_iff_of_nonneg (fun i _ => (int8_sqdiff_bounds (x i) (y i)).1)]
    constructor
    · intro h i hi
      have := h i (Finset.mem_range.mpr hi)
      exact Subtype.ext (sub_eq_zero.mp (mul_self_eq_zero.mp this))
    · intro h i hi
      rw [h i (Finset.mem_range.mp hi), sub_self, mul_zero]

/-- C11 (amended), at `d = 3`, `x = (0, 1, 2)`, `y = (1, 1, 1)`. -/
theorem C11_ivec_L2sqr_ref_ppc_nonneg_and_zero_iff_witness :
    3 ≤ 33025 ∧ 3 ≤ 66051 ∧ 0 ≤ ivec_L2sqr_ref_ppc ramp3 all_1 3 ∧
      (ivec_L2sqr_ref_ppc ramp3 all_1 3 = 0 ↔ ∀ i, i < 3 → ramp3 i = all_1 i) :=
  ⟨by decide, by decide,
    (C11_ivec_L2sqr_ref_ppc_nonneg_and_zero_iff ramp3 all_1 3).1 (by decide),
    (C11_ivec_L2sqr_ref_ppc_nonneg_and_zero_iff ramp3 all_1 3).2 (by decide)⟩

/-- C12: for every `d`, all `int8_t` vectors `x`, `y` and every permutation `p` of the
indices below `d`, `ivec_inner_product_ref_ppc` on the permuted vectors
`(x[p(i)], y[p(i)])` returns the same `int32_t` (overflow wrapping modulo `2^32`) as on
`(x, y)`, and so does `ivec_L2sqr_ref_ppc`. -/
theorem C12_ivec_kernels_order_independent (d : Nat) (p : Equiv.Perm (Fin d))
    (x y : Nat → int8_t) :
    ivec_inner_product_ref_ppc (permute_vec d p x) (permute_vec d p y) d =
        ivec_inner_product_ref_ppc x y d ∧
      ivec_L2sqr_ref_ppc (permute_vec d p x) (permute_vec d p y) d =
        ivec_L2sqr_ref_ppc x y d := by
  constructor
  · rw [ivec_inner_product_ref_ppc_eq_wrap, ivec_inner_product_ref_ppc_eq_wrap,
      sum_range_permute_vec d p x y (fun a b => a.val * b.val)]
  · rw [ivec_L2sqr_ref_ppc_eq_wrap, ivec_L2sqr_ref_ppc_eq_wrap,
      sum_range_permute_vec d p x y (fun a b => (a.val - b.val) * (a.val - b.val))]

/-- C13: for every `d` and every `x`, in exact commutative-ring arithmetic
`fvec_norm_L2sqr_ref_ppc x d` equals the sum over `i < d` of `x[i]^2`, the value of the
documented original loop: the odd-lane accumulator, the even-lane accumulator and the
scalar tail together cover every index once. -/
theorem C13_fvec_norm_L2sqr_ref_ppc_eq_sum_of_squares {α : Type} [CommRing α]
    (x : Nat → α) (d : Nat) :
    fvec_norm_L2sqr_ref_ppc x d = ∑ i in Finset.range d, x i ^ 2 ∧
      fvec_norm_L2sqr_ref_ppc x d = fvec_norm_L2sqr_ref_original x d := by
  rw [fvec_norm_L2sqr_ref_ppc_eq_sum, fvec_norm_L2sqr_ref_original_eq_sum]
  exact ⟨Finset.sum_congr rfl (fun i _ => (pow_two (x i)).symm), rfl⟩

/-- C14: each tiered float kernel (`fvec_L2sqr_ref_ppc`, `fvec_inner_product_ref_ppc`,
`fvec_inner_product_ref_ippc`) runs, for all `x` and `y`, the branch of an unroll factor
that is a function of `d` alone: `1` if `d < 32`, `4` if `32 ≤ d < 64`, `8` if
`64 ≤ d < 128`, `16` if `d ≥ 128`; for every `d` exactly one of the four cases holds. -/
theorem C14_unroll_factor_function_of_d {α : Type} [Zero α] [Add α] [Sub α] [Mul α]
    (d : Nat) :
    (∀ x y : Nat → α, fvec_L2sqr_ref_ppc x y d = L2sqr_tier (L2sqr_unroll_factor d) x y d) ∧
    (∀ x y : Nat → α, fvec_inner_product_ref_ppc x y d =
      inner_product_tier (inner_product_unroll_factor d) x y d) ∧
    (∀ x y : Nat → α, fvec_inner_product_ref_ippc x y d =
      ippc_tier (ippc_unroll_factor d) x y d) ∧
    (d < 32 → L2sqr_unroll_factor d = 1 ∧ inner_product_unroll_factor d = 1 ∧
      ippc_unroll_factor d = 1) ∧
    (32 ≤ d ∧ d < 64 → L2sqr_unroll_factor d = 4 ∧ inner_product_unroll_factor d = 4 ∧
      ippc_unroll_factor d = 4) ∧
    (64 ≤ d ∧ d < 128 → L2sqr_unroll_factor d = 8 ∧ inner_product_unroll_factor d = 8 ∧
      ippc_unroll_factor d = 8) ∧
    (128 ≤ d → L2sqr_unroll_factor d = 16 ∧ inner_product_unroll_factor d = 16 ∧
      ippc_unroll_factor d = 16) ∧
    (d < 32 ∨ (32 ≤ d ∧ d < 64) ∨ (64 ≤ d ∧ d < 128) ∨ 128 ≤ d) ∧
    ¬ (d < 32 ∧ 32 ≤ d) ∧ ¬ (d < 32 ∧ 64 ≤ d) ∧ ¬ (d < 32 ∧ 128 ≤ d) ∧
    ¬ (d < 64 ∧ 64 ≤ d) ∧ ¬ (d < 64 ∧ 128 ≤ d) ∧ ¬ (d < 128 ∧ 128 ≤ d) := by
  refine ⟨fun x y => fvec_L2sqr_ref_ppc_eq_tier x y d,
    fun x y => fvec_inner_product_ref_ppc_eq_tier x y d,
    fun x y => fvec_inner_product_ref_ippc_eq_tier x y d, ?_, ?_, ?_, ?_, by omega, by omega,
    by omega, by omega, by omega, by omega, by omega⟩
  · intro h
    rw [L2sqr_unroll_factor_eq, ippc_unroll_factor_eq, inner_product_unroll_factor]
    simp only [h, if_true, and_self]
  · rintro ⟨h1, h2⟩
    rw [L2sqr_unroll_factor_eq, ippc_unroll_factor_eq, inner_product_unroll_factor]
    simp only [Nat.not_lt.mpr h1, h2, if_false, if_true, and_self]
  · rintro ⟨h1, h2⟩
    have h3 : ¬ d < 32 := by omega
    have h4 : ¬ d < 64 := by omega
    rw [L2sqr_unroll_factor_eq, ippc_unroll_factor_eq, inner_product_unroll_factor]
    simp only [h3, h4, h2, if_false, if_true, and_self]
  · intro h1
    have h3 : ¬ d < 32 := by omega
    have h4 : ¬ d < 64 := by omega
    have h5 : ¬ d < 128 := by omega
    rw [L2sqr_unroll_factor_eq, ippc_unroll_factor_eq, inner_product_unroll_factor]
    simp only [h3, h4, h5, if_false, and_self]

/-- C15 (evaluation of the code where the claim fails): one past each tier boundary the
intrinsic kernel `fvec_inner_product_ref_ippc` does not match the scalar reference. With
every `x[i] = 1` and every `y[i] = 0` it returns `33` for `d = 33`, `65` for `d = 65` and
`1` for `d = 129`, while the inner product, and the optimized kernel
`fvec_inner_product_ref_ppc`, give `0`. -/
theorem C15_fvec_inner_product_ref_ippc_wrong_past_tier_boundary :
    fvec_inner_product_ref_ippc (fun _ => (1 : ℤ)) (fun _ => 0) 33 = 33 ∧
    fvec_inner_product_ref_ippc (fun _ => (1 : ℤ)) (fun _ => 0) 65 = 65 ∧
    fvec_inner_product_ref_ippc (fun _ => (1 : ℤ)) (fun _ => 0) 129 = 1 ∧
    fvec_inner_product_ref_original (fun _ => (1 : ℤ)) (fun _ => 0) 33 = 0 ∧
    fvec_inner_product_ref_original (fun _ => (1 : ℤ)) (fun _ => 0) 65 = 0 ∧
    fvec_inner_product_ref_original (fun _ => (1 : ℤ)) (fun _ => 0) 129 = 0 ∧
    fvec_inner_product_ref_ppc (fun _ => (1 : ℤ)) (fun _ => 0) 33 = 0 ∧
    fvec_inner_product_ref_ppc (fun _ => (1 : ℤ)) (fun _ => 0) 65 = 0 ∧
    fvec_inner_product_ref_ppc (fun _ => (1 : ℤ)) (fun _ => 0) 129 = 0 := by
  refine ⟨?_, ?_, ?_, ?_, ?_, ?_, ?_, ?_, ?_⟩ <;> decide

/-- C16: for `d = 0` every kernel returns `0`, whatever the memories hold, in any arithmetic
in which `0` is neutral for `+` (no other law is used):
`fvec_L2sqr_ref_ppc`, `fvec_inner_product_ref_ppc`, `fvec_inner_product_ref_ippc`,
`fvec_norm_L2sqr_ref_ppc`, `ivec_L2sqr_ref_ppc`, `ivec_inner_product_ref_ppc` and
`hamming_distance_ref_ppc` (either build) return `0`, and the batch-4 kernels set
`dis0 = dis1 = dis2 = dis3 = 0`. They do so without reading an input element: run with
bounds-checked reads on buffers of no element, where every read would be out of bounds,
each kernel still returns the value `0`. The bounds-checked runs of the integer and byte
kernels are the kernels themselves when every read is in bounds. -/
theorem C16_kernels_return_zero_for_d_0 {α : Type} [AddZeroClass α] [Sub α] [Mul α] :
    ((∀ x y : Nat → α, fvec_L2sqr_ref_ppc x y 0 = 0) ∧
    (∀ x y : Nat → α, fvec_inner_product_ref_ppc x y 0 = 0) ∧
    (∀ x y : Nat → α, fvec_inner_product_ref_ippc x y 0 = 0) ∧
    (∀ x : Nat → α, fvec_norm_L2sqr_ref_ppc x 0 = 0) ∧
    (∀ x y : Nat → int8_t, ivec_L2sqr_ref_ppc x y 0 = 0) ∧
    (∀ x y : Nat → int8_t, ivec_inner_product_ref_ppc x y 0 = 0) ∧
    (∀ (b : Bool) (v w : Nat → uint8_t), hamming_distance_ref_ppc b v w 0 = 0) ∧
    (∀ x y0 y1 y2 y3 : Nat → α,
      fvec_L2sqr_batch_4_ref_ppc x y0 y1 y2 y3 0 = ⟨0, 0, 0, 0⟩) ∧
    (∀ x y0 y1 y2 y3 : Nat → α,
      fvec_inner_product_batch_4_ref_ppc x y0 y1 y2 y3 0 = ⟨0, 0, 0, 0⟩) ∧
    (∀ x y0 y1 y2 y3 : Nat → α,
      fvec_inner_product_batch_4_ref_ippc x y0 y1 y2 y3 0 = ⟨0, 0, 0, 0⟩)) ∧
    (fvec_L2sqr_ref_ppc (no_element : Nat → Checked α) no_element 0 = Checked.ok 0 ∧
    fvec_inner_product_ref_ppc (no_element : Nat → Checked α) no_element 0 = Checked.ok 0 ∧
    fvec_inner_product_ref_ippc (no_element : Nat → Checked α) no_element 0 =
      Checked.ok 0 ∧
    fvec_norm_L2sqr_ref_ppc (no_element : Nat → Checked α) 0 = Checked.ok 0 ∧
    ivec_L2sqr_ref_ppc_checked no_element no_element 0 = Checked.ok 0 ∧
    ivec_inner_product_ref_ppc_checked no_element no_element 0 = Checked.ok 0 ∧
    (∀ b : Bool, hamming_distance_ref_ppc_checked b no_element no_element 0 =
      Checked.ok 0) ∧
    fvec_L2sqr_batch_4_ref_ppc (no_element : Nat → Checked α) no_element no_element
        no_element no_element 0 =
      ⟨Checked.ok 0, Checked.ok 0, Checked.ok 0, Checked.ok 0⟩ ∧
    fvec_inner_product_batch_4_ref_ppc (no_element : Nat → Checked α) no_element no_element
        no_element no_element 0 =
      ⟨Checked.ok 0, Checked.ok 0, Checked.ok 0, Checked.ok 0⟩ ∧
    fvec_inner_product_batch_4_ref_ippc (no_element : Nat → Checked α) no_element
        no_element no_element no_element 0 =
      ⟨Checked.ok 0, Checked.ok 0, Checked.ok 0, Checked.ok 0⟩) ∧
    ((∀ i : Nat, (no_element : Nat → Checked α) i = Checked.out_of_bounds) ∧
    (∀ (x y : Nat → int8_t) (d : Nat), ivec_L2sqr_ref_ppc_checked (all_ok x) (all_ok y) d =
      Checked.ok (ivec_L2sqr_ref_ppc x y d)) ∧
    (∀ (x y : Nat → int8_t) (d : Nat),
      ivec_inner_product_ref_ppc_checked (all_ok x) (all_ok y) d =
        Checked.ok (ivec_inner_product_ref_ppc x y d)) ∧
    (∀ (b : Bool) (v w : Nat → uint8_t) (size : Nat),
      hamming_distance_ref_ppc_checked b (all_ok v) (all_ok w) size =
        Checked.ok (hamming_distance_ref_ppc b v w size)) ∧
    ivec_L2sqr_ref_ppc_checked no_element no_element 1 = Checked.out_of_bounds ∧
    ivec_inner_product_ref_ppc_checked no_element no_element 1 = Checked.out_of_bounds ∧
    hamming_distance_ref_ppc_checked true no_element no_element 1 =
      Checked.out_of_bounds) := by
  refine ⟨⟨?_, ?_, ?_, ?_, ?_, ?_, ?_, ?_, ?_, ?_⟩, ⟨?_, ?_, ?_, ?_, rfl, rfl, ?_, ?_, ?_, ?_⟩,
    ⟨fun _ => rfl, ivec_L2sqr_ref_ppc_checked_all_ok,
      ivec_inner_product_ref_ppc_checked_all_ok, hamming_distance_ref_ppc_checked_all_ok,
      by decide, by decide, by decide⟩⟩
  · intro x y
    have h : fvec_L2sqr_ref_ppc x y 0 = 0 + 0 + 0 + 0 + 0 := rfl
    rw [h]
    simp only [add_zero]
  · intro x y
    have h : fvec_inner_product_ref_ppc x y 0 = 0 + 0 + 0 + 0 + 0 := rfl
    rw [h]
    simp only [add_zero]
  · intro x y
    have h : fvec_inner_product_ref_ippc x y 0 = 0 + (0 + 0 + 0 + 0) := rfl
    rw [h]
    simp only [add_zero]
  · intro x
    have h : fvec_norm_L2sqr_ref_ppc x 0 = 0 + 0 + 0 + 0 + 0 := rfl
    rw [h]
    simp only [add_zero]
  · intro x y
    rfl
  · intro x y
    rfl
  · intro b v w
    cases b <;> rfl
  · intro x y0 y1 y2 y3
    simp [fvec_L2sqr_batch_4_ref_ppc, forLoop, forLoopAux]
  · intro x y0 y1 y2 y3
    simp [fvec_inner_product_batch_4_ref_ppc, forLoop, forLoopAux]
  · intro x y0 y1 y2 y3
    simp [fvec_inner_product_batch_4_ref_ippc, forLoop, forLoopAux]
  · have h : fvec_L2sqr_ref_ppc (no_element : Nat → Checked α) no_element 0 =
        Checked.ok (0 + 0 + 0 + 0 + 0) := rfl
    rw [h]
    simp only [add_zero]
  · have h : fvec_inner_product_ref_ppc (no_element : Nat → Checked α) no_element 0 =
        Checked.ok (0 + 0 + 0 + 0 + 0) := rfl
    rw [h]
    simp only [add_zero]
  · have h : fvec_inner_product_ref_ippc (no_element : Nat → Checked α) no_element 0 =
        Checked.ok (0 + (0 + 0 + 0 + 0)) := rfl
    rw [h]
    simp only [add_zero]
  · have h : fvec_norm_L2sqr_ref_ppc (no_element : Nat → Checked α) 0 =
        Checked.ok (0 + 0 + 0 + 0 + 0) := rfl
    rw [h]
    simp only [add_zero]
  · intro b
    cases b <;> rfl
  · have h : fvec_L2sqr_batch_4_ref_ppc (no_element : Nat → Checked α) no_element
        no_element no_element no_element 0 =
        ⟨Checked.ok (fvec_L2sqr_batch_4_ref_ppc (fun _ => (0 : α)) (fun _ => 0)
            (fun _ => 0) (fun _ => 0) (fun _ => 0) 0).dis0,
          Checked.ok (fvec_L2sqr_batch_4_ref_ppc (fun _ => (0 : α)) (fun _ => 0)
            (fun _ => 0) (fun _ => 0) (fun _ => 0) 0).dis1,
          Checked.ok (fvec_L2sqr_batch_4_ref_ppc (fun _ => (0 : α)) (fun _ => 0)
            (fun _ => 0) (fun _ => 0) (fun _ => 0) 0).dis2,
          Checked.ok (fvec_L2sqr_batch_4_ref_ppc (fun _ => (0 : α)) (fun _ => 0)
            (fun _ => 0) (fun _ => 0) (fun _ => 0) 0).dis3⟩ := rfl
    rw [h]
    simp [fvec_L2sqr_batch_4_ref_ppc, forLoop, forLoopAux]
  · have h : fvec_inner_product_batch_4_ref_ppc (no_element : Nat → Checked α) no_element
        no_element no_element no_element 0 =
        ⟨Checked.ok (fvec_inner_product_batch_4_ref_ppc (fun _ => (0 : α)) (fun _ => 0)
            (fun _ => 0) (fun _ => 0) (fun _ => 0) 0).dis0,
          Checked.ok (fvec_inner_product_batch_4_ref_ppc (fun _ => (0 : α)) (fun _ => 0)
            (fun _ => 0) (fun _ => 0) (fun _ => 0) 0).dis1,
          Checked.ok (fvec_inner_product_batch_4_ref_ppc (fun _ => (0 : α)) (fun _ => 0)
            (fun _ => 0) (fun _ => 0) (fun _ => 0) 0).dis2,
          Checked.ok (fvec_inner_product_batch_4_ref_ppc (fun _ => (0 : α)) (fun _ => 0)
            (fun _ => 0) (fun _ => 0) (fun _ => 0) 0).dis3⟩ := rfl
    rw [h]
    simp [fvec_inner_product_batch_4_ref_ppc, forLoop, forLoopAux]
  · have h : fvec_inner_product_batch_4_ref_ippc (no_element : Nat → Checked α) no_element
        no_element no_element no_element 0 =
        ⟨Checked.ok (fvec_inner_product_batch_4_ref_ippc (fun _ => (0 : α)) (fun _ => 0)
            (fun _ => 0) (fun _ => 0) (fun _ => 0) 0).dis0,
          Checked.ok (fvec_inner_product_batch_4_ref_ippc (fun _ => (0 : α)) (fun _ => 0)
            (fun _ => 0) (fun _ => 0) (fun _ => 0) 0).dis1,
          Checked.ok (fvec_inner_product_batch_4_ref_ippc (fun _ => (0 : α)) (fun _ => 0)
            (fun _ => 0) (fun _ => 0) (fun _ => 0) 0).dis2,
          Checked.ok (fvec_inner_product_batch_4_ref_ippc (fun _ => (0 : α)) (fun _ => 0)
            (fun _ => 0) (fun _ => 0) (fun _ => 0) 0).dis3⟩ := rfl
    rw [h]
    simp [fvec_inner_product_batch_4_ref_ippc, forLoop, forLoopAux]

/-- C17: for every `d` and all `x`, `y0 .. y3`, in exact commutative-ring arithmetic the
intrinsic `fvec_inner_product_batch_4_ref_ippc` sets `disk` to the sum over `i < d` of
`x[i] * yk[i]`, the value of the documented original loop, and therefore agrees with the
optimized `fvec_inner_product_batch_4_ref_ppc`. -/
theorem C17_fvec_inner_product_batch_4_ref_ippc_eq_original {α : Type} [CommRing α]
    (x y0 y1 y2 y3 : Nat → α) (d : Nat) :
    (fvec_inner_product_batch_4_ref_ippc x y0 y1 y2 y3 d).dis0 =
      ∑ i in Finset.range d, x i * y0 i ∧
    (fvec_inner_product_batch_4_ref_ippc x y0 y1 y2 y3 d).dis1 =
      ∑ i in Finset.range d, x i * y1 i ∧
    (fvec_inner_product_batch_4_ref_ippc x y0 y1 y2 y3 d).dis2 =
      ∑ i in Finset.range d, x i * y2 i ∧
    (fvec_inner_product_batch_4_ref_ippc x y0 y1 y2 y3 d).dis3 =
      ∑ i in Finset.range d, x i * y3 i ∧
    fvec_inner_product_batch_4_ref_ippc x y0 y1 y2 y3 d =
      fvec_inner_product_batch_4_ref_original x y0 y1 y2 y3 d ∧
    fvec_inner_product_batch_4_ref_ippc x y0 y1 y2 y3 d =
      fvec_inner_product_batch_4_ref_ppc x y0 y1 y2 y3 d := by
  simp only [fvec_inner_product_batch_4_ref_ippc_eq_sum,
    fvec_inner_product_batch_4_ref_original_eq_sum,
    fvec_inner_product_batch_4_ref_ppc_eq_sum, and_self]

/-- C19 (the claim fails as stated): a file whose only line holds a form feed consists of
whitespace-only lines, but the loader does not skip that line (it tests for space, tab,
carriage return and newline only) and aborts with `Invalid number format` on line `1`. -/
theorem C19_load_vectors_from_csv_safe_aborts_on_form_feed_line :
    file_lines csv_form_feed_line = ["\x0c".toList] ∧
    (∀ l ∈ file_lines csv_form_feed_line, ∀ c ∈ l, isspace c = true) ∧
    is_blank "\x0c".toList = false ∧
    load_vectors_from_csv_safe stof_decimal (some csv_form_feed_line) =
      .error (.invalid_number_format 1 "\x0c".toList) ∧
    load_vectors_from_csv_safe stof_decimal (some csv_form_feed_line) ≠ .ok ([], 0) := by
  refine ⟨by decide, by decide, by decide, by decide, by decide⟩

/-- C19 (amended): for an empty file, and for a file all of whose lines are blank (empty, or
made only of spaces, tabs, carriage returns and newlines, the characters the loader tests
for), `load_vectors_from_csv_safe` returns no vector and `vector_dim = 0`, and does not
abort. -/
theorem C19_load_vectors_from_csv_safe_blank_file {α : Type}
    (stof : List Char → Except StofException α) (content : List Char)
    (h : ∀ l ∈ file_lines content, ∀ c ∈ l, c = ' ' ∨ c = '\t' ∨ c = '\r' ∨ c = '\n') :
    load_vectors_from_csv_safe stof (some content) = .ok ([], 0) := by
  rw [load_vectors_from_csv_safe_eq,
    runStrings_load_line_blank stof (file_lines content) ⟨[], 0, 0⟩
      (fun l hl => (is_blank_iff l).mpr (h l hl))]

/-- C19 (amended), on the empty file and on a file of three blank lines. -/
theorem C19_load_vectors_from_csv_safe_blank_file_witness :
    load_vectors_from_csv_safe stof_decimal (some []) = .ok ([], 0) ∧
    load_vectors_from_csv_safe stof_decimal (some csv_blank_only) = .ok ([], 0) :=
  ⟨C19_load_vectors_from_csv_safe_blank_file stof_decimal [] (by decide),
   C19_load_vectors_from_csv_safe_blank_file stof_decimal csv_blank_only (by decide)⟩

/-- C21: in the custom test, for every pair and whatever was written before, the loop body
appends to `custom_results_file` the record of the pair, whose `sv_iulps` is the signed
32-bit difference of the bit patterns of `scalar` and `vector` (in the range of `int32_t`
and congruent to the difference modulo `2^32`); it appends the record, with the two
vectors, to `mismatch_results_file` if `sv_iulps != 0` and leaves that file as it was if
`sv_iulps = 0`; and `sv_iulps != 0` holds exactly when the two bit patterns differ. With
a pair of functions selected the loop ends normally, `custom_results_file` holds the
records of the pairs `(0, 1)`, `(2, 3)`, .. in this order and `mismatch_results_file`
holds those of them with `sv_iulps != 0`. -/
theorem C21_custom_test_mismatch_iff_bit_patterns_differ {α : Type} [LinearOrderedRing α]
    (E : CustomTestEnv α) (run_func_flag : FuncId → Bool) (custom_data : Nat → Nat → α)
    (num_vectors array_size : Nat) (sc vc : (Nat → α) → (Nat → α) → α)
    (hval : ∀ x y, custom_test_values E run_func_flag x y array_size =
      Except.ok (sc x y, vc x y)) :
    (∀ (x y : Nat → α) (i : Nat) (scalar vector : α) (st : CustomTestState α),
      (custom_test_record E x y array_size i scalar vector st).custom_results_file =
        st.custom_results_file ++ [⟨i, E.float_bits scalar, E.float_bits vector, scalar,
          vector, wrap32 ((E.float_bits scalar).val - (E.float_bits vector).val)⟩] ∧
      (wrap32 ((E.float_bits scalar).val - (E.float_bits vector).val) ≠ 0 →
        (custom_test_record E x y array_size i scalar vector st).mismatch_results_file =
          st.mismatch_results_file ++ [⟨⟨i, E.float_bits scalar, E.float_bits vector,
            scalar, vector,
            wrap32 ((E.float_bits scalar).val - (E.float_bits vector).val)⟩,
            (List.range array_size).map x, (List.range array_size).map y⟩]) ∧
      (wrap32 ((E.float_bits scalar).val - (E.float_bits vector).val) = 0 →
        (custom_test_record E x y array_size i scalar vector st).mismatch_results_file =
          st.mismatch_results_file) ∧
      (wrap32 ((E.float_bits scalar).val - (E.float_bits vector).val) ≠ 0 ↔
        E.float_bits scalar ≠ E.float_bits vector) ∧
      -2147483648 ≤ wrap32 ((E.float_bits scalar).val - (E.float_bits vector).val) ∧
      wrap32 ((E.float_bits scalar).val - (E.float_bits vector).val) ≤ 2147483647 ∧
      (wrap32 ((E.float_bits scalar).val - (E.float_bits vector).val) -
        ((E.float_bits scalar).val - (E.float_bits vector).val)) % 4294967296 = 0) ∧
    ∃ st, custom_test E run_func_flag custom_data num_vectors array_size = Except.ok st ∧
      st.custom_results_file =
        (List.range (num_vectors / 2)).map (fun k =>
          (⟨2 * k, E.float_bits (sc (custom_data (2 * k)) (custom_data (2 * k + 1))),
            E.float_bits (vc (custom_data (2 * k)) (custom_data (2 * k + 1))),
            sc (custom_data (2 * k)) (custom_data (2 * k + 1)),
            vc (custom_data (2 * k)) (custom_data (2 * k + 1)),
            wrap32 ((E.float_bits (sc (custom_data (2 * k)) (custom_data (2 * k + 1)))).val -
              (E.float_bits (vc (custom_data (2 * k)) (custom_data (2 * k + 1)))).val)⟩ :
            ParityRecord α)) ∧
      st.mismatch_results_file.map (fun mm => mm.row) =
        st.custom_results_file.filter (fun r => decide (r.sv_iulps ≠ 0)) ∧
      (∀ mm ∈ st.mismatch_results_file,
        mm.x_vector = (List.range array_size).map (custom_data mm.row.index) ∧
        mm.y_vector = (List.range array_size).map (custom_data (mm.row.index + 1))) ∧
      (∀ r ∈ st.custom_results_file,
        r.scalar_hex = E.float_bits r.scalar_val ∧
        r.vector_hex = E.float_bits r.vector_val ∧
        r.sv_iulps = wrap32 (r.scalar_hex.val - r.vector_hex.val) ∧
        -2147483648 ≤ r.sv_iulps ∧ r.sv_iulps ≤ 2147483647 ∧
        (r.sv_iulps - (r.scalar_hex.val - r.vector_hex.val)) % 4294967296 = 0 ∧
        (r.sv_iulps ≠ 0 ↔ r.scalar_hex ≠ r.vector_hex)) := by
  obtain ⟨h1, h2⟩ := custom_test_files E (fun i => custom_data i)
    (fun i => custom_data (i + 1)) array_size
    (fun i => sc (custom_data i) (custom_data (i + 1)))
    (fun i => vc (custom_data i) (custom_data (i + 1))) (num_vectors / 2)
  refine ⟨?_, _,
    custom_test_eq E run_func_flag custom_data num_vectors array_size sc vc hval,
    h1, ?_, ?_, ?_⟩
  · intro x y i scalar vector st
    refine ⟨rfl, ?_, ?_, not_congr (wrap32_sub_eq_zero_iff _ _), ?_, ?_, ?_⟩
    · intro hne
      simp only [custom_test_record, ne_eq, hne, not_false_eq_true, if_true]
    · intro heq
      simp only [custom_test_record, ne_eq, heq, not_true_eq_false, if_false]
    · simp only [wrap32]; omega
    · simp only [wrap32]; omega
    · simp only [wrap32]; omega
  · rw [h1, h2, List.map_map, List.filter_map]
    rfl
  · intro mm hmm
    rw [h2, List.mem_map] at hmm
    obtain ⟨k, _, rfl⟩ := hmm
    exact ⟨rfl, rfl⟩
  · intro r hr
    rw [h1, List.mem_map] at hr
    obtain ⟨k, _, rfl⟩ := hr
    refine ⟨rfl, rfl, rfl, ?_, ?_, ?_, ?_⟩
    · simp only [wrap32]; omega
    · simp only [wrap32]; omega
    · simp only [wrap32]; omega
    · exact not_congr (wrap32_sub_eq_zero_iff _ _)

/-- C21, on four vectors of dimension two with the squared distance selected and a scalar
reference that is off by `x[0]`: the pair `(0, 1)` has equal results and is not written to
the mismatch file, the pair `(2, 3)` has the results `1` and `0`, `sv_iulps = 1`, and is
the one row of the mismatch file. -/
theorem C21_custom_test_mismatch_iff_bit_patterns_differ_witness :
    (∀ x y, custom_test_values example_env_off only_L2sqr x y 2 =
      Except.ok (fvec_L2sqr_ref_original x y 2 + x 0, fvec_L2sqr_ref_ppc x y 2)) ∧
    (custom_test example_env_off only_L2sqr four_vectors 4 2).toOption.map
        (fun st => st.custom_results_file.map
          (fun r => (r.index, r.scalar_val, r.vector_val, r.sv_iulps))) =
      some [(0, 25, 25, 0), (2, 1, 0, 1)] ∧
    (custom_test example_env_off only_L2sqr four_vectors 4 2).toOption.map
        (fun st => st.mismatch_results_file.map
          (fun mm => (mm.row.index, mm.row.sv_iulps, mm.x_vector, mm.y_vector))) =
      some [(2, 1, [1, 1], [1, 1])] ∧
    ∃ st, custom_test example_env_off only_L2sqr four_vectors 4 2 = Except.ok st ∧
      st.mismatch_results_file.map (fun mm => mm.row) =
        st.custom_results_file.filter (fun r => decide (r.sv_iulps ≠ 0)) := by
  obtain ⟨_, st, hst, _, hmm, _⟩ :=
    C21_custom_test_mismatch_iff_bit_patterns_differ example_env_off only_L2sqr four_vectors
      4 2 (fun x y => fvec_L2sqr_ref_original x y 2 + x 0)
      (fun x y => fvec_L2sqr_ref_ppc x y 2) (fun _ _ => rfl)
  exact ⟨fun _ _ => rfl, by decide, by decide, st, hst, hmm⟩

/-- C22 (the claim fails as stated): on a dataset of four vectors the custom test writes
the parity records
of the pairs `(0, 1)` and `(2, 3)` only; there is no record for the adjacent pair
`(1, 2)`, although `1 + 1 < 4`. -/
theorem C22_custom_test_skips_the_pair_1_2 :
    (custom_test example_env only_L2sqr four_vectors 4 2).toOption.map
        (fun st => st.custom_results_file.map (fun r => r.index)) = some [0, 2] ∧
      1 + 1 < 4 ∧ 1 ∉ [0, 2] := by
  decide

/-- C22 (amended): for a dataset of `n` vectors, with a pair of functions selected, the
custom test ends normally and writes one parity record for each pair `(i, i + 1)` with
`i` even and `i + 1 < n`, in increasing `i` (`n / 2` records), holding the scalar and the
vectorized result for the vectors `i` and `i + 1`; it writes no record for an odd `i`.
The loop test `i + 1 < n` is the bound `i < n - 1` of the embedding. -/
theorem C22_custom_test_compares_disjoint_pairs {α : Type} [LinearOrderedRing α]
    (E : CustomTestEnv α) (run_func_flag : FuncId → Bool) (custom_data : Nat → Nat → α)
    (num_vectors array_size : Nat) (sc vc : (Nat → α) → (Nat → α) → α)
    (hval : ∀ x y, custom_test_values E run_func_flag x y array_size =
      Except.ok (sc x y, vc x y)) :
    ∃ st, custom_test E run_func_flag custom_data num_vectors array_size = Except.ok st ∧
      st.custom_results_file.map (fun r => (r.index, r.scalar_val, r.vector_val)) =
        (List.range (num_vectors / 2)).map (fun k =>
          (2 * k, sc (custom_data (2 * k)) (custom_data (2 * k + 1)),
            vc (custom_data (2 * k)) (custom_data (2 * k + 1)))) ∧
      st.custom_results_file.length = num_vectors / 2 ∧
      (∀ i, (∃ r ∈ st.custom_results_file, r.index = i) ↔
        (i % 2 = 0 ∧ i + 1 < num_vectors)) ∧
      (∀ i, i + 1 < num_vectors ↔ i < num_vectors - 1) := by
  obtain ⟨h1, _⟩ := custom_test_files E (fun i => custom_data i)
    (fun i => custom_data (i + 1)) array_size
    (fun i => sc (custom_data i) (custom_data (i + 1)))
    (fun i => vc (custom_data i) (custom_data (i + 1))) (num_vectors / 2)
  refine ⟨_, custom_test_eq E run_func_flag custom_data num_vectors array_size sc vc hval,
    ?_, ?_, ?_, fun i => custom_test_loop_test i num_vectors⟩
  · rw [h1, List.map_map]
    rfl
  · rw [h1, List.length_map, List.length_range]
  · intro i
    rw [h1]
    constructor
    · rintro ⟨r, hr, rfl⟩
      rw [List.mem_map] at hr
      obtain ⟨k, hk, rfl⟩ := hr
      rw [List.mem_range] at hk
      simp only
      omega
    · rintro ⟨h2, hlt⟩
      refine ⟨_, List.mem_map.mpr ⟨i / 2, List.mem_range.mpr (by omega), rfl⟩, ?_⟩
      simp only
      omega

/-- C22 (amended), on four vectors of dimension two with the squared distance selected. -/
theorem C22_custom_test_compares_disjoint_pairs_witness :
    (∀ x y, custom_test_values example_env only_L2sqr x y 2 =
      Except.ok (fvec_L2sqr_ref_original x y 2, fvec_L2sqr_ref_ppc x y 2)) ∧
    ∃ st, custom_test example_env only_L2sqr four_vectors 4 2 = Except.ok st ∧
      st.custom_results_file.map (fun r => (r.index, r.scalar_val, r.vector_val)) =
        (List.range (4 / 2)).map (fun k =>
          (2 * k, fvec_L2sqr_ref_original (four_vectors (2 * k)) (four_vectors (2 * k + 1)) 2,
            fvec_L2sqr_ref_ppc (four_vectors (2 * k)) (four_vectors (2 * k + 1)) 2)) ∧
      st.custom_results_file.length = 4 / 2 ∧
      (∀ i, (∃ r ∈ st.custom_results_file, r.index = i) ↔ (i % 2 = 0 ∧ i + 1 < 4)) ∧
      (∀ i, i + 1 < 4 ↔ i < 4 - 1) :=
  ⟨fun _ _ => rfl,
    C22_custom_test_compares_disjoint_pairs example_env only_L2sqr four_vectors 4 2
      (fun x y => fvec_L2sqr_ref_original x y 2) (fun x y => fvec_L2sqr_ref_ppc x y 2)
      (fun _ _ => rfl)⟩

/-- C23: after the custom test on a dataset with at least one compared pair (`n >= 2`),
with a pair of functions selected and the results read in a linearly ordered field:
`max_scalar` and `min_scalar` are the largest and the smallest scalar result over the
compared pairs, `max_vector` and `min_vector` the largest and the smallest vectorized
result, `max_diff` the largest `|scalar - vector|`, and `max_diff_index` the index `i` of
the first compared pair `(i, i + 1)` that attains `max_diff`, which is `0` when every
difference is `0`. Pair number `k` compares the vectors `2 k` and `2 k + 1`. -/
theorem C23_custom_test_trackers {α : Type} [LinearOrderedField α]
    (E : CustomTestEnv α) (run_func_flag : FuncId → Bool) (custom_data : Nat → Nat → α)
    (num_vectors array_size : Nat) (sc vc : (Nat → α) → (Nat → α) → α)
    (hval : ∀ x y, custom_test_values E run_func_flag x y array_size =
      Except.ok (sc x y, vc x y))
    (hn : 2 ≤ num_vectors) :
    ∃ st, custom_test E run_func_flag custom_data num_vectors array_size = Except.ok st ∧
      ((∀ k, k < num_vectors / 2 →
          (sc (custom_data (2 * k)) (custom_data (2 * k + 1)) : WithBot α) ≤ st.max_scalar) ∧
        (∃ k, k < num_vectors / 2 ∧
          st.max_scalar = (sc (custom_data (2 * k)) (custom_data (2 * k + 1)) : WithBot α))) ∧
      ((∀ k, k < num_vectors / 2 →
          st.min_scalar ≤ (sc (custom_data (2 * k)) (custom_data (2 * k + 1)) : WithTop α)) ∧
        (∃ k, k < num_vectors / 2 ∧
          st.min_scalar = (sc (custom_data (2 * k)) (custom_data (2 * k + 1)) : WithTop α))) ∧
      ((∀ k, k < num_vectors / 2 →
          (vc (custom_data (2 * k)) (custom_data (2 * k + 1)) : WithBot α) ≤ st.max_vector) ∧
        (∃ k, k < num_vectors / 2 ∧
          st.max_vector = (vc (custom_data (2 * k)) (custom_data (2 * k + 1)) : WithBot α))) ∧
      ((∀ k, k < num_vectors / 2 →
          st.min_vector ≤ (vc (custom_data (2 * k)) (custom_data (2 * k + 1)) : WithTop α)) ∧
        (∃ k, k < num_vectors / 2 ∧
          st.min_vector = (vc (custom_data (2 * k)) (custom_data (2 * k + 1)) : WithTop α))) ∧
      (∀ k, k < num_vectors / 2 →
        |sc (custom_data (2 * k)) (custom_data (2 * k + 1)) -
          vc (custom_data (2 * k)) (custom_data (2 * k + 1))| ≤ st.max_diff) ∧
      (∃ k0, k0 < num_vectors / 2 ∧ st.max_diff_index = 2 * k0 ∧
        |sc (custom_data (2 * k0)) (custom_data (2 * k0 + 1)) -
          vc (custom_data (2 * k0)) (custom_data (2 * k0 + 1))| = st.max_diff ∧
        ∀ k, k < k0 →
          |sc (custom_data (2 * k)) (custom_data (2 * k + 1)) -
            vc (custom_data (2 * k)) (custom_data (2 * k + 1))| < st.max_diff) ∧
      ((∀ k, k < num_vectors / 2 →
          sc (custom_data (2 * k)) (custom_data (2 * k + 1)) -
            vc (custom_data (2 * k)) (custom_data (2 * k + 1)) = 0) →
        st.max_diff = 0 ∧ st.max_diff_index = 0) := by
  have hpos : 0 < num_vectors / 2 := by omega
  obtain ⟨⟨a1, a2⟩, ⟨b1, b2⟩, ⟨c1, c2⟩, ⟨d1, d2⟩, e1, _, e3⟩ :=
    custom_test_trackers E (fun i => custom_data i) (fun i => custom_data (i + 1)) array_size
      (fun i => sc (custom_data i) (custom_data (i + 1)))
      (fun i => vc (custom_data i) (custom_data (i + 1))) (num_vectors / 2)
  refine ⟨_, custom_test_eq E run_func_flag custom_data num_vectors array_size sc vc hval,
    ⟨a1, a2 hpos⟩, ⟨b1, b2 hpos⟩, ⟨c1, c2 hpos⟩, ⟨d1, d2 hpos⟩, e1, e3 hpos, ?_⟩
  intro hzero
  obtain ⟨k0, hk0, i1, i2, i3⟩ := e3 hpos
  have hmax : (iterBody (fun i st =>
      custom_test_record E (custom_data i) (custom_data (i + 1)) array_size i
        (sc (custom_data i) (custom_data (i + 1)))
        (vc (custom_data i) (custom_data (i + 1))) st) 2 (num_vectors / 2) 0
      custom_test_init).max_diff = 0 := by
    rw [← i2]
    simp only [hzero k0 hk0, abs_zero]
  refine ⟨hmax, ?_⟩
  rcases Nat.eq_zero_or_pos k0 with h0 | h0
  · rw [i1, h0]
  · have := i3 0 h0
    rw [hmax] at this
    simp only [Nat.mul_zero] at this
    exact absurd this (not_lt.mpr (abs_nonneg _))

/-- C23, on four vectors of dimension two over the rationals with the squared distance
selected. -/
theorem C23_custom_test_trackers_witness :
    (∀ x y, custom_test_values example_env_rat only_L2sqr x y 2 =
      Except.ok (fvec_L2sqr_ref_original x y 2, fvec_L2sqr_ref_ppc x y 2)) ∧ 2 ≤ 4 ∧
    ∃ st, custom_test example_env_rat only_L2sqr four_vectors_rat 4 2 = Except.ok st ∧
      st.max_diff = 0 ∧ st.max_diff_index = 0 ∧
      (∃ k, k < 4 / 2 ∧ st.max_scalar =
        ((fvec_L2sqr_ref_original (four_vectors_rat (2 * k)) (four_vectors_rat (2 * k + 1))
          2 : ℚ) : WithBot ℚ)) := by
  refine ⟨fun _ _ => rfl, by decide, ?_⟩
  obtain ⟨st, h, ⟨_, a2⟩, _, _, _, e1, ⟨k0, hk0, i1, i2, i3⟩, z⟩ :=
    C23_custom_test_trackers example_env_rat only_L2sqr four_vectors_rat 4 2
      (fun x y => fvec_L2sqr_ref_original x y 2) (fun x y => fvec_L2sqr_ref_ppc x y 2)
      (fun _ _ => rfl) (by decide)
  have hz := z (fun k hk => by
    rw [fvec_L2sqr_ref_original_eq_sum, fvec_L2sqr_ref_ppc_eq_sum, sub_self])
  exact ⟨st, h, hz.1, hz.2, a2⟩

/-- C24: in `fvec_L2sqr_ref_ppc` the accumulators are collapsed by a balanced pairwise
tree, for a `+` of which no law is assumed: the reduced register is
`(a0 + a1) + (a2 + a3)` in the factor-4 branch, the balanced tree of depth 3 over
`a0 .. a7` in the factor-8 branch and the balanced tree of depth 4 over `a0 .. a15` in the
factor-16 branch, that is 2, 3 and 4 combining stages; the kernel runs the branch of its
unroll factor, and each branch returns the remainder sum plus the four lanes of that
register. On formal expressions, with the accumulators
that the main loop leaves at `d = 32`, `64` and `128`, the register differs from the
linear fold. -/
theorem C24_fvec_L2sqr_ref_ppc_reduces_by_balanced_tree {α : Type} [Zero α] [Add α] [Sub α]
    [Mul α] (x y : Nat → α) (d : Nat) :
    (∀ a : Acc4 α,
      L2sqr_reduce4 a = (a.vres0 + a.vres1) + (a.vres2 + a.vres3) ∧
      reduction_tree (· + ·) 2 a.toList = [L2sqr_reduce4 a]) ∧
    (∀ a : Acc8 α,
      L2sqr_reduce8 a =
        ((a.vres0 + a.vres1) + (a.vres2 + a.vres3)) +
          ((a.vres4 + a.vres5) + (a.vres6 + a.vres7)) ∧
      reduction_tree (· + ·) 3 a.toList = [L2sqr_reduce8 a]) ∧
    (∀ a : Acc16 α,
      L2sqr_reduce16 a =
        (((a.vres0 + a.vres1) + (a.vres2 + a.vres3)) +
          ((a.vres4 + a.vres5) + (a.vres6 + a.vres7))) +
        (((a.vres8 + a.vres9) + (a.vres10 + a.vres11)) +
          ((a.vres12 + a.vres13) + (a.vres14 + a.vres15))) ∧
      reduction_tree (· + ·) 4 a.toList = [L2sqr_reduce16 a]) ∧
    fvec_L2sqr_ref_ppc x y d = L2sqr_tier (L2sqr_unroll_factor d) x y d ∧
    L2sqr_tier4 x y d = L2sqr_tail x y (d / 16 * 16) d +
      (L2sqr_reduce4 (forLoop 0 (d / 16 * 16) 16 (L2sqr_body4 x y) Acc4.zero)).hsum ∧
    L2sqr_tier8 x y d = L2sqr_tail x y (d / 32 * 32) d +
      (L2sqr_reduce8 (forLoop 0 (d / 32 * 32) 32 (L2sqr_body8 x y) Acc8.zero)).hsum ∧
    L2sqr_tier16 x y d = L2sqr_tail x y (d / 64 * 64) d +
      (L2sqr_reduce16 (forLoop 0 (d / 64 * 64) 64 (L2sqr_body16 x y) Acc16.zero)).hsum ∧
    linear_fold (· + ·)
        (forLoop 0 32 16 (L2sqr_body4 atoms_even atoms_odd) Acc4.zero).toList ≠
      [L2sqr_reduce4 (forLoop 0 32 16 (L2sqr_body4 atoms_even atoms_odd) Acc4.zero)] ∧
    linear_fold (· + ·)
        (forLoop 0 64 32 (L2sqr_body8 atoms_even atoms_odd) Acc8.zero).toList ≠
      [L2sqr_reduce8 (forLoop 0 64 32 (L2sqr_body8 atoms_even atoms_odd) Acc8.zero)] ∧
    linear_fold (· + ·)
        (forLoop 0 128 64 (L2sqr_body16 atoms_even atoms_odd) Acc16.zero).toList ≠
      [L2sqr_reduce16 (forLoop 0 128 64 (L2sqr_body16 atoms_even atoms_odd) Acc16.zero)] :=
  ⟨fun _ => ⟨rfl, rfl⟩, fun _ => ⟨rfl, rfl⟩, fun _ => ⟨rfl, rfl⟩,
    fvec_L2sqr_ref_ppc_eq_tier x y d, rfl, rfl, rfl, by decide, by decide, by decide⟩

/-- C25 (evaluation of the code where the claim fails): at `d = 64` and at `d = 128`, on
formal expressions, the value that `fvec_inner_product_ref_ppc` returns is the remainder
sum plus the lanes of the register
`inner_product_reduce8` (`inner_product_reduce16`) of the accumulators that the main loop
leaves, and that register is their linear fold and not their balanced tree. -/
theorem C25_fvec_inner_product_ref_ppc_linear_fold_at_64_and_128 :
    fvec_inner_product_ref_ppc atoms_even atoms_odd 64 =
      inner_product_tail atoms_even atoms_odd 64 64 +
        (inner_product_reduce8
          (forLoop 0 64 32 (inner_product_body8 atoms_even atoms_odd) Acc8.zero)).hsum ∧
    reduction_tree (· + ·) 3
        (forLoop 0 64 32 (inner_product_body8 atoms_even atoms_odd) Acc8.zero).toList ≠
      [inner_product_reduce8
        (forLoop 0 64 32 (inner_product_body8 atoms_even atoms_odd) Acc8.zero)] ∧
    linear_fold (· + ·)
        (forLoop 0 64 32 (inner_product_body8 atoms_even atoms_odd) Acc8.zero).toList =
      [inner_product_reduce8
        (forLoop 0 64 32 (inner_product_body8 atoms_even atoms_odd) Acc8.zero)] ∧
    fvec_inner_product_ref_ppc atoms_even atoms_odd 128 =
      inner_product_tail atoms_even atoms_odd 128 128 +
        (inner_product_reduce16
          (forLoop 0 128 64 (inner_product_body16 atoms_even atoms_odd) Acc16.zero)).hsum ∧
    reduction_tree (· + ·) 4
        (forLoop 0 128 64 (inner_product_body16 atoms_even atoms_odd) Acc16.zero).toList ≠
      [inner_product_reduce16
        (forLoop 0 128 64 (inner_product_body16 atoms_even atoms_odd) Acc16.zero)] ∧
    linear_fold (· + ·)
        (forLoop 0 128 64 (inner_product_body16 atoms_even atoms_odd) Acc16.zero).toList =
      [inner_product_reduce16
        (forLoop 0 128 64 (inner_product_body16 atoms_even atoms_odd) Acc16.zero)] :=
  ⟨rfl, by decide, rfl, rfl, by decide, rfl⟩

/-- C26: the clause `d == 48` is redundant: `d < 64 || d == 48` holds exactly when
`d < 64`; so `fvec_L2sqr_ref_ppc`, `fvec_inner_product_ref_ippc` and
`fvec_inner_product_ref_ppc` select the same unroll factor for every `d`, and each runs
the branch of that factor; for `d = 48` the factor is 4, the main loop runs its body at
`0`, `16` and `32`, and the remainder loop does not run its body. -/
theorem C26_d_eq_48_clause_is_redundant {α : Type} [Zero α] [Add α] [Sub α] [Mul α]
    (x y : Nat → α) :
    (∀ d : Nat, (d < 64 ∨ d = 48) ↔ d < 64) ∧
    (∀ d : Nat,
      L2sqr_unroll_factor d = inner_product_unroll_factor d ∧
      ippc_unroll_factor d = inner_product_unroll_factor d ∧
      fvec_L2sqr_ref_ppc x y d = L2sqr_tier (inner_product_unroll_factor d) x y d ∧
      fvec_inner_product_ref_ippc x y d = ippc_tier (inner_product_unroll_factor d) x y d ∧
      fvec_inner_product_ref_ppc x y d =
        inner_product_tier (inner_product_unroll_factor d) x y d) ∧
    L2sqr_unroll_factor 48 = 4 ∧ ippc_unroll_factor 48 = 4 ∧
    inner_product_unroll_factor 48 = 4 ∧
    fvec_L2sqr_ref_ppc x y 48 = L2sqr_tier4 x y 48 ∧
    fvec_inner_product_ref_ippc x y 48 = ippc_tier4 x y 48 ∧
    fvec_inner_product_ref_ppc x y 48 = inner_product_tier4 x y 48 ∧
    48 / (FLOAT_VEC_SIZE * 4) = 3 ∧ 48 % (FLOAT_VEC_SIZE * 4) = 0 ∧
    (∀ (σ : Type) (body : Nat → σ → σ) (s : σ),
      forLoop 0 (48 / (FLOAT_VEC_SIZE * 4) * (FLOAT_VEC_SIZE * 4)) (FLOAT_VEC_SIZE * 4) body s =
        body 32 (body 16 (body 0 s)) ∧
      forLoop (48 / (FLOAT_VEC_SIZE * 4) * (FLOAT_VEC_SIZE * 4)) 48 1 body s = s) := by
  have hfac : ∀ d : Nat, L2sqr_unroll_factor d = inner_product_unroll_factor d ∧
      ippc_unroll_factor d = inner_product_unroll_factor d := fun d =>
    ⟨by rw [L2sqr_unroll_factor_eq]; rfl, by rw [ippc_unroll_factor_eq]; rfl⟩
  refine ⟨fun d => by omega, fun d => ⟨(hfac d).1, (hfac d).2, ?_, ?_, ?_⟩, by decide,
    by decide, by decide, ?_, ?_, ?_, by decide, by decide, fun σ body s => ⟨rfl, rfl⟩⟩
  · rw [← (hfac d).1]; exact fvec_L2sqr_ref_ppc_eq_tier x y d
  · rw [← (hfac d).2]; exact fvec_inner_product_ref_ippc_eq_tier x y d
  · exact fvec_inner_product_ref_ppc_eq_tier x y d
  · rw [fvec_L2sqr_ref_ppc_eq_tier]; rfl
  · rw [fvec_inner_product_ref_ippc_eq_tier]; rfl
  · rw [fvec_inner_product_ref_ppc_eq_tier]; rfl

/-- C27: the dot product inside `fvec_L2sqr_ny_transposed_ref_ppc`, unrolled by 16 with a
scalar remainder loop, equals the plain loop over `j = 0 .. d-1`, which is the left fold
`(..((0 + p0) + p1) .. + p(d-1))` of the products `pj = x[j] * y[i + j * d_offset]`, for
every `d`, `d_offset` and `i` and for `+` and `*` of which no law is assumed; and entry
`k < ny` of `dis` is computed from that value. -/
theorem C27_transposed_dot_product_is_left_to_right {α : Type} [Zero α] [Add α] [Sub α]
    [Mul α] [OfNat α 2] (dis x y y_sqlen : Nat → α) (d d_offset ny i : Nat) :
    transposed_dp x y d d_offset i = transposed_dp_naive x y d d_offset i ∧
    transposed_dp_naive x y d d_offset i =
      (List.range d).foldl (fun dp j => dp + x j * y (i + j * d_offset)) 0 ∧
    fvec_L2sqr_ny_transposed_ref_ppc dis x y y_sqlen d d_offset ny i =
      if i < ny then
        transposed_x_sqlen x d + y_sqlen i - 2 * transposed_dp_naive x y d d_offset i
      else dis i := by
  refine ⟨transposed_dp_eq_naive x y d d_offset i, transposed_dp_naive_eq_foldl x y d d_offset i,
    ?_⟩
  unfold fvec_L2sqr_ny_transposed_ref_ppc
  simp only [transposed_dp_eq_naive]
  rw [forLoop_unit_step _ 0 ny (Nat.zero_le _),
    iterBody_update (fun i => transposed_x_sqlen x d + y_sqlen i -
      2 * transposed_dp_naive x y d d_offset i)]
  simp

/-- C28: on a memory that holds the buffers, `fvec_L2sqr_ny_transposed_ref_ppc` leaves
`x`, `y` and `y_sqlen` as they were, stores exactly to `dis[0]`, .., `dis[ny - 1]` (once
each, in this order), leaves `dis[k]` as it was for every `k >= ny`, leaves in `dis` what
the kernel computes from the initial contents, and with `ny = 0` makes no store; the
three batch-4 kernels leave every buffer other than `dis0 .. dis3` as it was, store only
to `dis0 .. dis3`, and leave there what the kernel computes from the initial contents. -/
theorem C28_kernels_write_only_their_outputs {α : Type} [Zero α] [Add α] [Sub α] [Mul α]
    [OfNat α 2] (m : Mem TransposedBuf α) (m4 : Mem Batch4Buf α) (d d_offset ny : Nat) :
    ((fvec_L2sqr_ny_transposed_ref_ppc_mem m d d_offset ny).cell .x = m.cell .x ∧
      (fvec_L2sqr_ny_transposed_ref_ppc_mem m d d_offset ny).cell .y = m.cell .y ∧
      (fvec_L2sqr_ny_transposed_ref_ppc_mem m d d_offset ny).cell .y_sqlen =
        m.cell .y_sqlen ∧
      (fvec_L2sqr_ny_transposed_ref_ppc_mem m d d_offset ny).stores =
        m.stores ++ (List.range ny).map (fun k => (TransposedBuf.dis, k)) ∧
      (∀ k, ny ≤ k →
        (fvec_L2sqr_ny_transposed_ref_ppc_mem m d d_offset ny).cell .dis k = m.cell .dis k) ∧
      (fvec_L2sqr_ny_transposed_ref_ppc_mem m d d_offset ny).cell .dis =
        fvec_L2sqr_ny_transposed_ref_ppc (m.cell .dis) (m.cell .x) (m.cell .y)
          (m.cell .y_sqlen) d d_offset ny ∧
      fvec_L2sqr_ny_transposed_ref_ppc_mem m d d_offset 0 = m) ∧
    ((∀ b, b ≠ .dis0 → b ≠ .dis1 → b ≠ .dis2 → b ≠ .dis3 →
        (fvec_L2sqr_batch_4_ref_ppc_mem m4 d).cell b = m4.cell b) ∧
      (fvec_L2sqr_batch_4_ref_ppc_mem m4 d).stores =
        m4.stores ++ [(.dis0, 0), (.dis1, 0), (.dis2, 0), (.dis3, 0)] ∧
      (⟨(fvec_L2sqr_batch_4_ref_ppc_mem m4 d).cell .dis0 0,
        (fvec_L2sqr_batch_4_ref_ppc_mem m4 d).cell .dis1 0,
        (fvec_L2sqr_batch_4_ref_ppc_mem m4 d).cell .dis2 0,
        (fvec_L2sqr_batch_4_ref_ppc_mem m4 d).cell .dis3 0⟩ : Dis4 α) =
        fvec_L2sqr_batch_4_ref_ppc (m4.cell .x) (m4.cell .y0) (m4.cell .y1) (m4.cell .y2)
          (m4.cell .y3) d) ∧
    ((∀ b, b ≠ .dis0 → b ≠ .dis1 → b ≠ .dis2 → b ≠ .dis3 →
        (fvec_inner_product_batch_4_ref_ppc_mem m4 d).cell b = m4.cell b) ∧
      (fvec_inner_product_batch_4_ref_ppc_mem m4 d).stores =
        m4.stores ++ [(.dis0, 0), (.dis1, 0), (.dis2, 0), (.dis3, 0)] ++
          (if d % FLOAT_VEC_SIZE ≠ 0 then [(.dis0, 0), (.dis1, 0), (.dis2, 0), (.dis3, 0)]
            else []) ∧
      (⟨(fvec_inner_product_batch_4_ref_ppc_mem m4 d).cell .dis0 0,
        (fvec_inner_product_batch_4_ref_ppc_mem m4 d).cell .dis1 0,
        (fvec_inner_product_batch_4_ref_ppc_mem m4 d).cell .dis2 0,
        (fvec_inner_product_batch_4_ref_ppc_mem m4 d).cell .dis3 0⟩ : Dis4 α) =
        fvec_inner_product_batch_4_ref_ppc (m4.cell .x) (m4.cell .y0) (m4.cell .y1)
          (m4.cell .y2) (m4.cell .y3) d) ∧
    ((∀ b, b ≠ .dis0 → b ≠ .dis1 → b ≠ .dis2 → b ≠ .dis3 →
        (fvec_inner_product_batch_4_ref_ippc_mem m4 d).cell b = m4.cell b) ∧
      (fvec_inner_product_batch_4_ref_ippc_mem m4 d).stores =
        m4.stores ++ [(.dis0, 0), (.dis1, 0), (.dis2, 0), (.dis3, 0)] ++
          (if d % FLOAT_VEC_SIZE ≠ 0 then [(.dis0, 0), (.dis1, 0), (.dis2, 0), (.dis3, 0)]
            else []) ∧
      (⟨(fvec_inner_product_batch_4_ref_ippc_mem m4 d).cell .dis0 0,
        (fvec_inner_product_batch_4_ref_ippc_mem m4 d).cell .dis1 0,
        (fvec_inner_product_batch_4_ref_ippc_mem m4 d).cell .dis2 0,
        (fvec_inner_product_batch_4_ref_ippc_mem m4 d).cell .dis3 0⟩ : Dis4 α) =
        fvec_inner_product_batch_4_ref_ippc (m4.cell .x) (m4.cell .y0) (m4.cell .y1)
          (m4.cell .y2) (m4.cell .y3) d) := by
  refine ⟨?_, ?_, ?_, ?_⟩
  · have hmem : fvec_L2sqr_ny_transposed_ref_ppc_mem m d d_offset ny =
        iterBody (fun i (m' : Mem TransposedBuf α) => m'.store .dis i
          (transposed_x_sqlen (m.cell .x) d + m'.cell .y_sqlen i -
            2 * transposed_dp (m'.cell .x) (m'.cell .y) d d_offset i)) 1 ny 0 m := by
      unfold fvec_L2sqr_ny_transposed_ref_ppc_mem
      rw [forLoop_unit_step _ 0 ny (Nat.zero_le _)]
      rfl
    obtain ⟨h1, h2, h3⟩ := iterBody_store TransposedBuf.dis
      (fun (m' : Mem TransposedBuf α) i => transposed_x_sqlen (m.cell .x) d +
        m'.cell .y_sqlen i - 2 * transposed_dp (m'.cell .x) (m'.cell .y) d d_offset i)
      (fun m' i j v => by
        simp only [Mem.store_cell_ne m' .dis .x i v (by decide),
          Mem.store_cell_ne m' .dis .y i v (by decide),
          Mem.store_cell_ne m' .dis .y_sqlen i v (by decide)]) ny 0 m
    rw [← hmem] at h1 h2 h3
    refine ⟨h1 .x (by decide), h1 .y (by decide), h1 .y_sqlen (by decide), ?_, ?_, ?_, rfl⟩
    · rw [h3]
      simp
    · intro k hk
      rw [h2 k, if_neg (by omega)]
    · funext k
      rw [h2 k]
      unfold fvec_L2sqr_ny_transposed_ref_ppc
      rw [forLoop_unit_step _ 0 ny (Nat.zero_le _),
        iterBody_update (fun i => transposed_x_sqlen (m.cell .x) d + m.cell .y_sqlen i -
          2 * transposed_dp (m.cell .x) (m.cell .y) d d_offset i)]
      simp
  · refine ⟨?_, ?_, ?_⟩
    · intro b h0 h1 h2 h3
      simp only [fvec_L2sqr_batch_4_ref_ppc_mem, Mem.store, if_neg h0, if_neg h1, if_neg h2,
        if_neg h3]
    · simp [fvec_L2sqr_batch_4_ref_ppc_mem, Mem.store]
    · simp [fvec_L2sqr_batch_4_ref_ppc_mem, fvec_L2sqr_batch_4_ref_ppc, Mem.store, Mem.load]
  · refine ⟨?_, ?_, ?_⟩
    · intro b h0 h1 h2 h3
      unfold fvec_inner_product_batch_4_ref_ppc_mem
      by_cases hr : d % FLOAT_VEC_SIZE ≠ 0
      · simp only [Mem.store, if_neg h0, if_neg h1, if_neg h2, if_neg h3, if_pos hr]
      · simp only [Mem.store, if_neg h0, if_neg h1, if_neg h2, if_neg h3, if_neg hr]
    · unfold fvec_inner_product_batch_4_ref_ppc_mem
      by_cases hr : d % FLOAT_VEC_SIZE ≠ 0
      · simp [Mem.store, hr]
      · simp [Mem.store, hr]
    · unfold fvec_inner_product_batch_4_ref_ppc_mem fvec_inner_product_batch_4_ref_ppc
      by_cases hr : d % FLOAT_VEC_SIZE ≠ 0
      · simp [Mem.store, Mem.load, hr]
      · simp [Mem.store, Mem.load, hr]
  · refine ⟨?_, ?_, ?_⟩
    · intro b h0 h1 h2 h3
      unfold fvec_inner_product_batch_4_ref_ippc_mem
      by_cases hr : d % FLOAT_VEC_SIZE ≠ 0
      · simp only [Mem.store, if_neg h0, if_neg h1, if_neg h2, if_neg h3, if_pos hr]
      · simp only [Mem.store, if_neg h0, if_neg h1, if_neg h2, if_neg h3, if_neg hr]
    · unfold fvec_inner_product_batch_4_ref_ippc_mem
      by_cases hr : d % FLOAT_VEC_SIZE ≠ 0
      · simp [Mem.store, hr]
      · simp [Mem.store, hr]
    · unfold fvec_inner_product_batch_4_ref_ippc_mem fvec_inner_product_batch_4_ref_ippc
      by_cases hr : d % FLOAT_VEC_SIZE ≠ 0
      · simp [Mem.store, Mem.load, hr]
      · simp [Mem.store, Mem.load, hr]

/-- C29: for every `d` and buffers `x`, `y` of exactly `d` elements, the bounds-checked
runs of `fvec_L2sqr_ref_ppc` and of `fvec_inner_product_ref_ppc` read no element outside
the buffers: they return a value, the one the unchecked run returns; and so does the
branch of every unroll factor, whether or not `d` selects it. -/
theorem C29_float_kernels_read_in_bounds {β : Type} [Zero β] [Add β] [Sub β] [Mul β]
    (d : Nat) (xs ys : List β) (hx : xs.length = d) (hy : ys.length = d) :
    fvec_L2sqr_ref_ppc (checked_read xs) (checked_read ys) d =
      Checked.ok (fvec_L2sqr_ref_ppc (unchecked_read xs) (unchecked_read ys) d) ∧
    fvec_inner_product_ref_ppc (checked_read xs) (checked_read ys) d =
      Checked.ok (fvec_inner_product_ref_ppc (unchecked_read xs) (unchecked_read ys) d) ∧
    fvec_L2sqr_ref_ppc (checked_read xs) (checked_read ys) d ≠ Checked.out_of_bounds ∧
    fvec_inner_product_ref_ppc (checked_read xs) (checked_read ys) d ≠
      Checked.out_of_bounds ∧
    (∀ u, L2sqr_tier u (checked_read xs) (checked_read ys) d =
      Checked.ok (L2sqr_tier u (unchecked_read xs) (unchecked_read ys) d)) ∧
    (∀ u, inner_product_tier u (checked_read xs) (checked_read ys) d =
      Checked.ok (inner_product_tier u (unchecked_read xs) (unchecked_read ys) d)) := by
  have hx' : d ≤ xs.length := le_of_eq hx.symm
  have hy' : d ≤ ys.length := le_of_eq hy.symm
  have h1 := fvec_L2sqr_ref_ppc_checked xs ys d hx' hy'
  have h2 := fvec_inner_product_ref_ppc_checked xs ys d hx' hy'
  refine ⟨h1, h2, ?_, ?_, ?_, ?_⟩
  · rw [h1]
    exact Option.some_ne_none _
  · rw [h2]
    exact Option.some_ne_none _
  · intro u
    unfold L2sqr_tier
    split_ifs
    · exact L2sqr_tier1_checked xs ys d hx' hy'
    · exact L2sqr_tier4_checked xs ys d hx' hy'
    · exact L2sqr_tier8_checked xs ys d hx' hy'
    · exact L2sqr_tier16_checked xs ys d hx' hy'
  · intro u
    unfold inner_product_tier
    split_ifs
    · exact inner_product_tier1_checked xs ys d hx' hy'
    · exact inner_product_tier4_checked xs ys d hx' hy'
    · exact inner_product_tier8_checked xs ys d hx' hy'
    · exact inner_product_tier16_checked xs ys d hx' hy'

/-- C29, on two buffers of five integers. -/
theorem C29_float_kernels_read_in_bounds_witness :
    ([1, 2, 3, 4, 5] : List ℤ).length = 5 ∧ ([5, 4, 3, 2, 1] : List ℤ).length = 5 ∧
    fvec_L2sqr_ref_ppc (checked_read ([1, 2, 3, 4, 5] : List ℤ))
        (checked_read ([5, 4, 3, 2, 1] : List ℤ)) 5 =
      Checked.ok (fvec_L2sqr_ref_ppc (unchecked_read ([1, 2, 3, 4, 5] : List ℤ))
        (unchecked_read ([5, 4, 3, 2, 1] : List ℤ)) 5) ∧
    fvec_inner_product_ref_ppc (checked_read ([1, 2, 3, 4, 5] : List ℤ))
        (checked_read ([5, 4, 3, 2, 1] : List ℤ)) 5 =
      Checked.ok (fvec_inner_product_ref_ppc (unchecked_read ([1, 2, 3, 4, 5] : List ℤ))
        (unchecked_read ([5, 4, 3, 2, 1] : List ℤ)) 5) :=
  ⟨rfl, rfl,
    (C29_float_kernels_read_in_bounds 5 [1, 2, 3, 4, 5] [5, 4, 3, 2, 1] rfl rfl).1,
    (C29_float_kernels_read_in_bounds 5 [1, 2, 3, 4, 5] [5, 4, 3, 2, 1] rfl rfl).2.1⟩

/-- C30 (evaluation of the code where the claim fails): for `d = 5`, `d_offset = 1`,
`ny = 1`, with `x` of five elements, `y` of five elements (the largest index used is
`(ny - 1) + (d - 1) * d_offset = 4`) and `y_sqlen` of one element, the bounds-checked run
of `fvec_L2sqr_ny_transposed_ref_ppc` leaves an out-of-bounds value in `dis[0]`. The dot
product reads in bounds; the read outside `x` is `x[8]`, made by the scalar loop of the
squared norm of `x`, which is entered with `j = base = 4` and reads `x[j + base]`: on a
buffer of nine elements that loop is in bounds. -/
theorem C30_fvec_L2sqr_ny_transposed_ref_ppc_reads_x_out_of_bounds :
    ([1, 1, 1, 1, 1] : List ℤ).length = 5 ∧
    (0 + (5 - 1) * 1 < ([1, 1, 1, 1, 1] : List ℤ).length) ∧
    fvec_L2sqr_ny_transposed_ref_ppc (fun _ => Checked.ok 0)
        (checked_read ([1, 1, 1, 1, 1] : List ℤ)) (checked_read ([1, 1, 1, 1, 1] : List ℤ))
        (checked_read ([5] : List ℤ)) 5 1 1 0 = Checked.out_of_bounds ∧
    transposed_dp (checked_read ([1, 1, 1, 1, 1] : List ℤ))
        (checked_read ([1, 1, 1, 1, 1] : List ℤ)) 5 1 0 = Checked.ok 5 ∧
    transposed_x_sqlen (checked_read ([1, 1, 1, 1, 1] : List ℤ)) 5 = Checked.out_of_bounds ∧
    checked_read ([1, 1, 1, 1, 1] : List ℤ) (4 + 5 / FLOAT_VEC_SIZE * FLOAT_VEC_SIZE) =
      Checked.out_of_bounds ∧
    transposed_x_sqlen (checked_read ([1, 1, 1, 1, 1, 0, 0, 0, 0] : List ℤ)) 5 =
      Checked.ok 4 := by
  decide

/-- C31: accumulator invariant of `fvec_L2sqr_ref_ppc`. In the branch with unroll factor
`u` (1, 4, 8 or 16), after `n` iterations of the main loop, lane `l` of accumulator `k`
holds the sum over `c < n` of `(x[j] - y[j])^2` at `j = 4 * u * c + 4 * k + l`; the main
loop of a run with `d / (4 * u) = n` makes exactly these `n` iterations; and the index
sets of the lanes are pairwise disjoint and together cover `[0, 4 * u * n)`. -/
theorem C31_fvec_L2sqr_ref_ppc_accumulator_invariant {α : Type} [CommRing α]
    (x y : Nat → α) (n : Nat) :
    (iterBody (L2sqr_body1 x y) FLOAT_VEC_SIZE n 0 V4.zero =
        V4.ofFn (fun l => ∑ c in Finset.range n,
          (x (lane_index 1 c 0 l) - y (lane_index 1 c 0 l)) ^ 2) ∧
      iterBody (L2sqr_body4 x y) (FLOAT_VEC_SIZE * 4) n 0 Acc4.zero =
        Acc4.ofFn (fun k l => ∑ c in Finset.range n,
          (x (lane_index 4 c k l) - y (lane_index 4 c k l)) ^ 2) ∧
      iterBody (L2sqr_body8 x y) (FLOAT_VEC_SIZE * 8) n 0 Acc8.zero =
        Acc8.ofFn (fun k l => ∑ c in Finset.range n,
          (x (lane_index 8 c k l) - y (lane_index 8 c k l)) ^ 2) ∧
      iterBody (L2sqr_body16 x y) (FLOAT_VEC_SIZE * 16) n 0 Acc16.zero =
        Acc16.ofFn (fun k l => ∑ c in Finset.range n,
          (x (lane_index 16 c k l) - y (lane_index 16 c k l)) ^ 2)) ∧
    (forLoop 0 (n * FLOAT_VEC_SIZE) FLOAT_VEC_SIZE (L2sqr_body1 x y) V4.zero =
        iterBody (L2sqr_body1 x y) FLOAT_VEC_SIZE n 0 V4.zero ∧
      forLoop 0 (n * (FLOAT_VEC_SIZE * 4)) (FLOAT_VEC_SIZE * 4) (L2sqr_body4 x y) Acc4.zero =
        iterBody (L2sqr_body4 x y) (FLOAT_VEC_SIZE * 4) n 0 Acc4.zero ∧
      forLoop 0 (n * (FLOAT_VEC_SIZE * 8)) (FLOAT_VEC_SIZE * 8) (L2sqr_body8 x y) Acc8.zero =
        iterBody (L2sqr_body8 x y) (FLOAT_VEC_SIZE * 8) n 0 Acc8.zero ∧
      forLoop 0 (n * (FLOAT_VEC_SIZE * 16)) (FLOAT_VEC_SIZE * 16) (L2sqr_body16 x y)
          Acc16.zero =
        iterBody (L2sqr_body16 x y) (FLOAT_VEC_SIZE * 16) n 0 Acc16.zero) ∧
    (lanes_partition 1 n ∧ lanes_partition 4 n ∧ lanes_partition 8 n ∧
      lanes_partition 16 n) :=
  ⟨⟨L2sqr_body1_lanes x y n, L2sqr_body4_lanes x y n, L2sqr_body8_lanes x y n,
      L2sqr_body16_lanes x y n⟩,
    ⟨forLoop_mul_step _ n _ (by decide) _, forLoop_mul_step _ n _ (by decide) _,
      forLoop_mul_step _ n _ (by decide) _, forLoop_mul_step _ n _ (by decide) _⟩,
    ⟨lanes_partition_1 n, lanes_partition_4 n, lanes_partition_8 n, lanes_partition_16 n⟩⟩

/-- C32: for every `d < 32` and all `x`, `y`, the intrinsic kernel
`fvec_inner_product_ref_ippc x y d` returns the value of `fvec_L2sqr_ref_ppc x y d`, the
sum over `i < d` of `(x[i] - y[i])^2`, in exact arithmetic. -/
theorem C32_fvec_inner_product_ref_ippc_eq_L2sqr_below_32 {α : Type} [CommRing α]
    (x y : Nat → α) (d : Nat) (hd : d < 32) :
    fvec_inner_product_ref_ippc x y d = fvec_L2sqr_ref_ppc x y d ∧
    fvec_inner_product_ref_ippc x y d = ∑ i in Finset.range d, (x i - y i) ^ 2 := by
  rw [fvec_inner_product_ref_ippc_eq, if_pos hd, fvec_L2sqr_ref_ppc_eq_sum]
  exact ⟨rfl, rfl⟩

/-- C32, at `d = 5`, `x = (1, 2, 3, 4, 5)`, `y = (0, 0, 0, 0, 0)`: both kernels return
`55`. -/
theorem C32_fvec_inner_product_ref_ippc_eq_L2sqr_below_32_witness :
    5 < 32 ∧ fvec_inner_product_ref_ippc ramp_from_1 zeros 5 = 55 ∧
    fvec_L2sqr_ref_ppc ramp_from_1 zeros 5 = 55 ∧
    fvec_inner_product_ref_ippc ramp_from_1 zeros 5 = fvec_L2sqr_ref_ppc ramp_from_1 zeros 5 :=
  ⟨by decide, by decide, by decide,
    (C32_fvec_inner_product_ref_ippc_eq_L2sqr_below_32 ramp_from_1 zeros 5 (by decide)).1⟩

/-- C33: for every `d` with `32 ≤ d < 128`, the result of `fvec_inner_product_ref_ippc`
does not depend on the elements of `y` in the main-loop range: if `y` and `y'` agree on
`[base, d)`, where `base` is `d` rounded down to a multiple of 16 (`d < 64`) or of 32
(`d ≥ 64`), the results for `y` and for `y'` are equal. Nothing is assumed of the
arithmetic. -/
theorem C33_fvec_inner_product_ref_ippc_ignores_y_in_main_loop {α : Type} [Zero α] [Add α]
    [Sub α] [Mul α]
    (x y y' : Nat → α) (d : Nat) (h32 : 32 ≤ d) (h128 : d < 128)
    (hy : ∀ i, (if d < 64 then d / 16 * 16 else d / 32 * 32) ≤ i → i < d → y i = y' i) :
    fvec_inner_product_ref_ippc x y d = fvec_inner_product_ref_ippc x y' d := by
  have h1 : ¬ d < 32 := by omega
  have h48 : (d < 64 ∨ d = 48) ↔ d < 64 := by omega
  unfold fvec_inner_product_ref_ippc
  simp only [if_neg h1, h48, if_pos h128]
  by_cases h64 : d < 64
  · simp only [if_pos h64] at hy ⊢
    rw [ippc_body4_ignores_y x y y', ippc_tail_congr x y y' _ d hy]
  · simp only [if_neg h64] at hy ⊢
    rw [ippc_body8_ignores_y x y y', ippc_tail_congr x y y' _ d hy]

/-- C33, at `d = 33`: with `x = (1, 2, 3, ..)`, the result for `y = 0` and the result for
the `y` that holds `9` in the 32 elements of the main loop are both
`1^2 + .. + 32^2 + 33^2 = 12529`. -/
theorem C33_fvec_inner_product_ref_ippc_ignores_y_in_main_loop_witness :
    32 ≤ 33 ∧ 33 < 128 ∧
    (∀ i, (if 33 < 64 then 33 / 16 * 16 else 33 / 32 * 32) ≤ i → i < 33 →
      zeros i = nines_below_32 i) ∧
    zeros 0 ≠ nines_below_32 0 ∧
    fvec_inner_product_ref_ippc ramp_from_1 zeros 33 = 12529 ∧
    fvec_inner_product_ref_ippc ramp_from_1 zeros 33 =
      fvec_inner_product_ref_ippc ramp_from_1 nines_below_32 33 := by
  have hy : ∀ i, (if 33 < 64 then 33 / 16 * 16 else 33 / 32 * 32) ≤ i → i < 33 →
      zeros i = nines_below_32 i := by
    intro i h1 h2
    have hi : i = 32 := by
      simp only [show (33 : Nat) < 64 by decide, if_true] at h1
      omega
    subst hi
    rfl
  exact ⟨by decide, by decide, hy, by decide, by decide,
    C33_fvec_inner_product_ref_ippc_ignores_y_in_main_loop ramp_from_1 zeros nines_below_32 33
      (by decide) (by decide) hy⟩

/-- C34: for every `d ≤ 33025` and all `int8_t` vectors `x`, `y`, no `int32_t` operation
of `ivec_L2sqr_ref_ppc` overflows and the result is the integer sum of the squared
differences. The bound is tight: with 33026 elements, every `x[i] = 127` and every
`y[i] = -128`, every difference is `255`, the sum is `2147515650`, above `2^31 - 1`, and
an addition overflows. -/
theorem C34_ivec_L2sqr_ref_ppc_no_overflow_up_to_33025 (x y : Nat → int8_t) (d : Nat)
    (hd : d ≤ 33025) :
    ivec_L2sqr_ref_ppc_strict x y d =
      some (∑ i in Finset.range d, ((x i).val - (y i).val) ^ 2) ∧
    ivec_L2sqr_ref_ppc x y d = ∑ i in Finset.range d, ((x i).val - (y i).val) ^ 2 ∧
    (∀ i, |(all_127 i).val - (all_neg128 i).val| = 255) ∧
    ∑ i in Finset.range 33026, ((all_127 i).val - (all_neg128 i).val) ^ 2 = 2147515650 ∧
    (2147483647 : Int) < 2147515650 ∧
    ivec_L2sqr_ref_ppc_strict all_127 all_neg128 33026 = none := by
  have hb : ∀ k, k ≤ d → 0 ≤ ∑ i in Finset.range k,
      ((x i).val - (y i).val) * ((x i).val - (y i).val) ∧
      ∑ i in Finset.range k, ((x i).val - (y i).val) * ((x i).val - (y i).val) ≤
        2147483647 := by
    intro k hk
    obtain ⟨h0, h1⟩ := int8_sqdiff_sum_bounds x y k
    have hk' : (k : Int) ≤ 33025 := by exact_mod_cast le_trans hk hd
    exact ⟨h0, by linarith⟩
  have hsum : ∑ i in Finset.range 33026, ((all_127 i).val - (all_neg128 i).val) *
      ((all_127 i).val - (all_neg128 i).val) = 2147515650 := by
    simp only [all_127, all_neg128, Finset.sum_const, Finset.card_range, nsmul_eq_mul]
    decide
  simp only [sq]
  refine ⟨?_, ?_, fun i => by simp only [all_127, all_neg128]; decide, hsum, by decide, ?_⟩
  · rw [ivec_L2sqr_ref_ppc_strict_eq, iterBody_strict_sum _ d 0 0]
    · simp only [Nat.zero_add, zero_add, Finset.range_eq_Ico]
    · intro k _ hk
      simp only [Nat.zero_add, zero_add, ← Finset.range_eq_Ico]
      obtain ⟨h0, h1⟩ := hb k hk
      exact ⟨by linarith, h1⟩
  · rw [ivec_L2sqr_ref_ppc_eq_wrap]
    obtain ⟨h0, h1⟩ := hb d le_rfl
    exact wrap32_of_range _ (by linarith) (by linarith)
  · cases h : ivec_L2sqr_ref_ppc_strict all_127 all_neg128 33026 with
    | none => rfl
    | some r =>
      rw [ivec_L2sqr_ref_ppc_strict_eq] at h
      obtain ⟨h1, h2⟩ := iterBody_strict_some _ 33026 0 0 r h
      simp only [Nat.zero_add, zero_add, ← Finset.range_eq_Ico] at h1
      rw [hsum] at h1
      have := (h2 (by decide)).2
      omega

/-- C34, at `d = 3`, `x = (0, 1, 2)`, `y = (1, 1, 1)`: the result is `2`. -/
theorem C34_ivec_L2sqr_ref_ppc_no_overflow_up_to_33025_witness :
    3 ≤ 33025 ∧ ivec_L2sqr_ref_ppc_strict ramp3 all_1 3 = some 2 ∧
    ivec_L2sqr_ref_ppc ramp3 all_1 3 = 2 := by
  obtain ⟨h1, h2, _⟩ := C34_ivec_L2sqr_ref_ppc_no_overflow_up_to_33025 ramp3 all_1 3
    (by decide)
  have hs : ∑ i in Finset.range 3, ((ramp3 i).val - (all_1 i).val) ^ 2 = 2 := by decide
  rw [hs] at h1 h2
  exact ⟨by decide, h1, h2⟩

/-- C35: for every `d ≤ 131071` and all `int8_t` vectors `x`, `y`, no `int32_t` operation
of `ivec_inner_product_ref_ppc` overflows and the result is the integer sum of the
products; the intrinsic `ivec_inner_product_ref_ippc` is the same loop. The bound is
tight: with 131072 elements, every `x[i] = y[i] = -128`, the sum is `2^31 = 2147483648`,
which is not an `int32_t`, and an addition overflows. -/
theorem C35_ivec_inner_product_ref_ppc_no_overflow_up_to_131071 (x y : Nat → int8_t)
    (d : Nat) (hd : d ≤ 131071) :
    ivec_inner_product_ref_ppc_strict x y d =
      some (∑ i in Finset.range d, (x i).val * (y i).val) ∧
    ivec_inner_product_ref_ppc x y d = ∑ i in Finset.range d, (x i).val * (y i).val ∧
    ivec_inner_product_ref_ippc x y d = ivec_inner_product_ref_ppc x y d ∧
    ∑ i in Finset.range 131072, (all_neg128 i).val * (all_neg128 i).val = 2147483648 ∧
    (2147483647 : Int) < 2147483648 ∧
    ivec_inner_product_ref_ppc_strict all_neg128 all_neg128 131072 = none := by
  have hb : ∀ k, k ≤ d → -2147483648 ≤ ∑ i in Finset.range k, (x i).val * (y i).val ∧
      ∑ i in Finset.range k, (x i).val * (y i).val ≤ 2147483647 := by
    intro k hk
    obtain ⟨h0, h1⟩ := int8_mul_sum_bounds x y k
    have hk' : (k : Int) ≤ 131071 := by exact_mod_cast le_trans hk hd
    exact ⟨by linarith, by linarith⟩
  have hsum : ∑ i in Finset.range 131072, (all_neg128 i).val * (all_neg128 i).val =
      2147483648 := by
    simp only [all_neg128, Finset.sum_const, Finset.card_range, nsmul_eq_mul]
    decide
  refine ⟨?_, ?_, rfl, hsum, by decide, ?_⟩
  · rw [ivec_inner_product_ref_ppc_strict_eq, iterBody_strict_sum _ d 0 0]
    · simp only [Nat.zero_add, zero_add, Finset.range_eq_Ico]
    · intro k _ hk
      simp only [Nat.zero_add, zero_add, ← Finset.range_eq_Ico]
      exact hb k hk
  · rw [ivec_inner_product_ref_ppc_eq_wrap]
    obtain ⟨h0, h1⟩ := hb d le_rfl
    exact wrap32_of_range _ h0 (by linarith)
  · cases h : ivec_inner_product_ref_ppc_strict all_neg128 all_neg128 131072 with
    | none => rfl
    | some r =>
      rw [ivec_inner_product_ref_ppc_strict_eq] at h
      obtain ⟨h1, h2⟩ := iterBody_strict_some _ 131072 0 0 r h
      simp only [Nat.zero_add, zero_add, ← Finset.range_eq_Ico] at h1
      rw [hsum] at h1
      have := (h2 (by decide)).2
      omega

/-- C35, at `d = 3`, `x = (0, 1, 2)`, `y = (1, 1, 1)`: the result is `3`. -/
theorem C35_ivec_inner_product_ref_ppc_no_overflow_up_to_131071_witness :
    3 ≤ 131071 ∧ ivec_inner_product_ref_ppc_strict ramp3 all_1 3 = some 3 ∧
    ivec_inner_product_ref_ppc ramp3 all_1 3 = 3 := by
  obtain ⟨h1, h2, _⟩ := C35_ivec_inner_product_ref_ppc_no_overflow_up_to_131071 ramp3 all_1
    3 (by decide)
  have hs : ∑ i in Finset.range 3, (ramp3 i).val * (all_1 i).val = 3 := by decide
  rw [hs] at h1 h2
  exact ⟨by decide, h1, h2⟩

/-- C36: with `vec_popcnt` available, `hamming_distance_ref_ppc` satisfies the triangle
inequality: for every `size` and all byte vectors `a`, `b`, `c`,
`hamming(a, c) ≤ hamming(a, b) + hamming(b, c)`. -/
theorem C36_hamming_distance_ref_ppc_triangle (a b c : Nat → uint8_t) (size : Nat) :
    hamming_distance_ref_ppc true a c size ≤
      hamming_distance_ref_ppc true a b size + hamming_distance_ref_ppc true b c size := by
  rw [hamming_distance_ref_ppc_eq_sum, hamming_distance_ref_ppc_eq_sum,
    hamming_distance_ref_ppc_eq_sum, ← Finset.sum_add_distrib]
  exact Finset.sum_le_sum (fun i _ => popcount_xor_triangle 8 _ _ _)

/-- C37: with `vec_popcnt` available, for every `size` and all byte vectors `v`, `w`,
`hamming_distance_ref_ppc v w size ≤ 8 * size`, with equality if and only if `w[i]` is the
bitwise complement of `v[i]` for every `i < size`; the complement `compl8` negates each of
the eight bits. -/
theorem C37_hamming_distance_ref_ppc_le_and_max_iff_complement (v w : Nat → uint8_t)
    (size : Nat) :
    hamming_distance_ref_ppc true v w size ≤ 8 * size ∧
    (hamming_distance_ref_ppc true v w size = 8 * size ↔
      ∀ i, i < size → w i = compl8 (v i)) ∧
    (∀ (a : uint8_t) (j : Nat), j < 8 → (compl8 a).val.testBit j = !a.val.testBit j) := by
  have hle : ∀ i ∈ Finset.range size, popcount 8 ((v i).val ^^^ (w i).val) ≤ 8 :=
    fun i _ => popcount_le 8 _
  have hconst : ∑ _i in Finset.range size, 8 = 8 * size := by
    simp [Finset.sum_const, Nat.mul_comm]
  refine ⟨?_, ?_, compl8_testBit⟩
  · rw [hamming_distance_ref_ppc_eq_sum, ← hconst]
    exact Finset.sum_le_sum hle
  · rw [hamming_distance_ref_ppc_eq_sum, ← hconst, Finset.sum_eq_sum_iff_of_le hle]
    constructor
    · intro h i hi
      exact (popcount_xor_eq_eight_iff (v i) (w i)).mp (h i (Finset.mem_range.mpr hi))
    · intro h i hi
      exact (popcount_xor_eq_eight_iff (v i) (w i)).mpr (h i (Finset.mem_range.mp hi))

/-- C38: `fvec_L2sqr_ref_ppc` and `fvec_inner_product_ref_ppc` are symmetric in their
vector arguments: for every `d` and all `x`, `y`, `f x y d = f y x d`, in exact arithmetic
over a commutative ring. -/
theorem C38_float_kernels_symmetric {α : Type} [CommRing α] (x y : Nat → α) (d : Nat) :
    fvec_L2sqr_ref_ppc x y d = fvec_L2sqr_ref_ppc y x d ∧
    fvec_inner_product_ref_ppc x y d = fvec_inner_product_ref_ppc y x d := by
  rw [fvec_L2sqr_ref_ppc_eq_sum, fvec_L2sqr_ref_ppc_eq_sum,
    fvec_inner_product_ref_ppc_eq_sum, fvec_inner_product_ref_ppc_eq_sum]
  exact ⟨Finset.sum_congr rfl (fun i _ => by ring),
    Finset.sum_congr rfl (fun i _ => by ring)⟩

end powerpc
